import Mathlib

/-!
# vpDot2: a shallow embedding of the dot tracker

Source: `src/tracking/dots/vpDot2.cpp`.

Conventions of the embedding

* C++ `int` is `Int` (no overflow is modelled: signed overflow is undefined in the source).
* A C++ `double` or `float` value is a rational `ℚ`.  The embedding comes in two layers.
  In the exact layer every formula of the source is kept as written and evaluated without
  rounding; it carries the statements that are about the formulas themselves or that
  rounding does not touch.  In the rounded layer (`toDouble`, `toFloat`, namespace
  `vpDot2.Rounded`) every `double` operation and every conversion to `float` rounds its
  exact result to the nearest value of the format, ties to even, as IEEE 754 arithmetic
  does (one rounding per operation, no excess precision, no fused operations); it carries
  the statements whose truth depends on rounding.  Overflow, subnormal numbers, infinities
  and NaN have no counterpart among the rationals; an argument of `setAccuracy` that is an
  infinity or NaN is a `DoubleArg`.
* `(int) x` on a `double` is truncation toward zero, `toInt`.
* `e % 8` on `int` is the truncated remainder `Int.tmod`.
* A member function becomes a function of the dot; a function that mutates the dot returns
  the new dot.  `vpList<int>::addRight` at the end of a list is `l ++ [x]`, `kill` is `[]`.
* Drawing calls guarded by `graphics` have no effect on the dot and are left out.
* `Image.pix` is total: the source reads `I[v][u]` only after `isInArea`, and a read outside
  the image (undefined in the source) is not modelled.
* A loop whose number of iterations has no bound in the source (`followBorder`) takes the
  number of iterations allowed as an argument and answers `none` when it is exhausted.
-/

/-- An image `vpImage<unsigned char>`: `getCols`, `getRows` and the pixel `I[v][u]`
    as `pix u v` (column first). -/
structure Image where
  cols : Int
  rows : Int
  pix : Int → Int → Nat

/-- The search area `vpAreaType`, with the fields written by `setArea`. -/
structure vpAreaType where
  u_min : Int
  v_min : Int
  u_max : Int
  v_max : Int
  w : Int
  h : Int
  cog_u : ℚ
  cog_v : ℚ
deriving DecidableEq

/-- The data members of `vpDot2`. -/
structure vpDot2 where
  cog_ufloat : ℚ
  cog_vfloat : ℚ
  width : ℚ
  height : ℚ
  surface : ℚ
  inLevel : Int
  outLevel : Int
  accuracy : ℚ
  area : vpAreaType
  m00 : ℚ
  m10 : ℚ
  m01 : ℚ
  m11 : ℚ
  m20 : ℚ
  m02 : ℚ
  compute_moment : Bool
  graphics : Bool
  direction_list : List Int
  u_list : List Int
  v_list : List Int
deriving DecidableEq

/-- The six increments and the unit step written by `computeFreemanParameters`. -/
structure FreemanIncrement where
  du : Int
  dv : Int
  dS : ℚ
  dMu : ℚ
  dMv : ℚ
  dMuv : ℚ
  dMu2 : ℚ
  dMv2 : ℚ
deriving DecidableEq

/-! ## Rounding to `double` and to `float` -/

namespace vpDot2

/-- The integer nearest to `y`, the even one of the two when `y` lies half-way between two
    integers. -/
def roundHalfEven (y : ℚ) : Int :=
  let f := ⌊y⌋
  let r := y - f
  if r < 1 / 2 then f
  else if 1 / 2 < r then f + 1
  else if f % 2 = 0 then f else f + 1

/-- The number of halvings that bring `n` below 2, at most `fuel` of them; with
    `fuel = n` this is the position of the leading bit of `n`. -/
def log2Aux : Nat → Nat → Nat
  | 0, _ => 0
  | fuel + 1, n => if n < 2 then 0 else log2Aux fuel (n / 2) + 1

/-- The binary exponent of a positive rational `a`: the `e` with
    `2 ^ e ≤ a < 2 ^ (e + 1)`. -/
def ilog2 (a : ℚ) : Int :=
  let k : Int := (log2Aux a.num.natAbs a.num.natAbs : Int) - (log2Aux a.den a.den : Int)
  if (2 : ℚ) ^ k ≤ a then k else k - 1

/-- Rounding to the nearest binary floating-point number with `p` significant bits, ties
    to even, as every IEEE 754 operation rounds its exact result.  The exponent range is
    not bounded: overflow and subnormal numbers are not modelled. -/
def roundTo (p : Nat) (x : ℚ) : ℚ :=
  if x = 0 then 0
  else
    let q : Int := ilog2 |x| - p + 1
    let m := roundHalfEven (|x| / (2 : ℚ) ^ q)
    if 0 < x then (m : ℚ) * (2 : ℚ) ^ q else -((m : ℚ) * (2 : ℚ) ^ q)

/-- The conversion of a `double` to `float` (24 significant bits). -/
def toFloat (x : ℚ) : ℚ := roundTo 24 x

/-- The value of a `double` operation whose exact result is `x` (53 significant bits). -/
def toDouble (x : ℚ) : ℚ := roundTo 53 x

end vpDot2

namespace vpDot2

/-- The cast `(int) x` of a `double`: truncation toward zero. -/
def toInt (x : ℚ) : Int := Int.tdiv x.num x.den

/-- The default constructor `vpDot2::vpDot2()`; the area is the one the caller gives
    (the source leaves it to `setArea`). -/
def mk0 (a : vpAreaType) : vpDot2 :=
  { cog_ufloat := 0, cog_vfloat := 0, width := 0, height := 0, surface := 0,
    inLevel := 210, outLevel := 150, accuracy := 65 / 100, area := a,
    m00 := 0, m10 := 0, m01 := 0, m11 := 0, m20 := 0, m02 := 0,
    compute_moment := false, graphics := false,
    direction_list := [], u_list := [], v_list := [] }

/-- `vpDot2::setArea(I, u, v, w, h)`, lines 708-732. -/
def setArea (d : vpDot2) (I : Image) (u v w h : Int) : vpDot2 :=
  let image_w := I.cols
  let image_h := I.rows
  let u := if u < 0 then 0 else if u ≥ image_w then image_w - 1 else u
  let v := if v < 0 then 0 else if v ≥ image_h then image_h - 1 else v
  let w := if (u + w) > image_w then image_w - u - 1 else w
  let h := if (v + h) > image_h then image_h - v - 1 else h
  { d with area :=
      { u_min := u, v_min := v, u_max := u + w - 1, v_max := v + h - 1, w := w, h := h,
        cog_u := (u : ℚ) + (w : ℚ) / 2, cog_v := (v : ℚ) + (h : ℚ) / 2 } }

/-- `vpDot2::isInArea(I, u, v)`, lines 1801-1807. -/
def isInArea (d : vpDot2) (_I : Image) (u v : Int) : Bool :=
  if u < d.area.u_min ∨ u > d.area.u_max then false
  else if v < d.area.v_min ∨ v > d.area.v_max then false
  else true

/-- `vpDot2::hasGoodLevel(I, u, v)`, lines 1109-1123. -/
def hasGoodLevel (d : vpDot2) (I : Image) (u v : Int) : Bool :=
  if !d.isInArea I u v then false
  else if (I.pix u v : Int) > d.inLevel then true
  else false

/-- `vpDot2::updateFreemanPosition(u, v, dir)`, lines 1714-1726: the new `(u, v)`. -/
def updateFreemanPosition (u v dir : Int) : Int × Int :=
  if dir = 0 then (u + 1, v)
  else if dir = 1 then (u + 1, v + 1)
  else if dir = 2 then (u, v + 1)
  else if dir = 3 then (u - 1, v + 1)
  else if dir = 4 then (u - 1, v)
  else if dir = 5 then (u - 1, v - 1)
  else if dir = 6 then (u, v - 1)
  else if dir = 7 then (u + 1, v - 1)
  else (u, v)

/-- The test made at every level of the cascade of `computeFreemanChainElement`:
    `_u = u; _v = v; updateFreemanPosition(_u, _v, dir); hasGoodLevel(I, _u, _v)`. -/
def probe (d : vpDot2) (I : Image) (u v dir : Int) : Bool :=
  d.hasGoodLevel I (updateFreemanPosition u v dir).1 (updateFreemanPosition u v dir).2

/-- `vpDot2::computeFreemanChainElement(I, u, v, element)`, lines 1455-1544: the returned
    boolean and the value of `element` after the call. -/
def computeFreemanChainElement (d : vpDot2) (I : Image) (u v element : Int) : Bool × Int :=
  if d.hasGoodLevel I u v then
    if d.probe I u v (Int.tmod (element + 2) 8) then (true, Int.tmod (element + 2) 8)
    else if d.probe I u v (Int.tmod (element + 1) 8) then (true, Int.tmod (element + 1) 8)
    else if d.probe I u v element then (true, element)
    else if d.probe I u v (Int.tmod (element + 7) 8) then (true, Int.tmod (element + 7) 8)
    else if d.probe I u v (Int.tmod (element + 6) 8) then (true, Int.tmod (element + 6) 8)
    else if d.probe I u v (Int.tmod (element + 5) 8) then (true, Int.tmod (element + 5) 8)
    else if d.probe I u v (Int.tmod (element + 4) 8) then (true, Int.tmod (element + 4) 8)
    else if d.probe I u v (Int.tmod (element + 3) 8) then (true, Int.tmod (element + 3) 8)
    else (false, element)
  else (false, element)

/-- `vpDot2::computeFreemanParameters`, lines 1578-1698.  The source leaves `dS`, `dMu`,
    `dMv` unassigned for a code outside 0..7; the embedding gives 0 there (every caller
    passes a code in 0..7). -/
def computeFreemanParameters (d : vpDot2) (u_p v_p element : Int) : FreemanIncrement :=
  let u : ℚ := u_p
  let v : ℚ := v_p
  let half_u_p : ℚ := (1 / 2) * u
  if element = 0 then
    { du := 1, dv := 0, dS := v, dMu := 0, dMv := (1 / 2) * v * v,
      dMuv := if d.compute_moment then (1 / 4) * v * v * (2 * u + 1) else 0,
      dMu2 := 0,
      dMv2 := if d.compute_moment then 1 / 3 * v * v * v else 0 }
  else if element = 1 then
    { du := 1, dv := 1, dS := v + 1 / 2,
      dMu := -((1 / 2) * u * (u + 1) + 1 / 6),
      dMv := (1 / 2) * v * (v + 1) + 1 / 6,
      dMuv := if d.compute_moment then
          v * v * (1 / 4 + half_u_p) + v * (1 / 3 + half_u_p) + 1 / 6 * u + 1 / 8 else 0,
      dMu2 := if d.compute_moment then
          -1 / 3 * u * (u * u + (3 / 2) * u + 1) - 1 / 12 else 0,
      dMv2 := if d.compute_moment then
          1 / 3 * v * (v * v + (3 / 2) * v + 1) + 1 / 12 else 0 }
  else if element = 2 then
    { du := 0, dv := 1, dS := 0, dMu := -(1 / 2) * u * u, dMv := 0,
      dMuv := 0,
      dMu2 := if d.compute_moment then -1 / 3 * u * u * u else 0,
      dMv2 := 0 }
  else if element = 3 then
    { du := -1, dv := 1, dS := -v - 1 / 2,
      dMu := -((1 / 2) * u * (u - 1) + 1 / 6),
      dMv := -((1 / 2) * v * (v + 1) + 1 / 6),
      dMuv := if d.compute_moment then
          v * v * (1 / 4 - half_u_p) + v * (1 / 3 - half_u_p) - 1 / 6 * u + 1 / 8 else 0,
      dMu2 := if d.compute_moment then
          -1 / 3 * u * (u * u - (3 / 2) * u + 1) - 1 / 12 else 0,
      dMv2 := if d.compute_moment then
          -1 / 3 * v * (v * v + (3 / 2) * v + 1) - 1 / 12 else 0 }
  else if element = 4 then
    { du := -1, dv := 0, dS := -v, dMu := 0, dMv := -(1 / 2) * v * v,
      dMuv := if d.compute_moment then -(1 / 4) * v * v * (2 * u - 1) else 0,
      dMu2 := 0,
      dMv2 := if d.compute_moment then -1 / 3 * v * v * v else 0 }
  else if element = 5 then
    { du := -1, dv := -1, dS := -v + 1 / 2,
      dMu := (1 / 2) * u * (u - 1) + 1 / 6,
      dMv := -((1 / 2) * v * (v - 1) + 1 / 6),
      dMuv := if d.compute_moment then
          v * v * (1 / 4 - half_u_p) - v * (1 / 3 - half_u_p) - 1 / 6 * u + 1 / 8 else 0,
      dMu2 := if d.compute_moment then
          1 / 3 * u * (u * u - (3 / 2) * u + 1) - 1 / 12 else 0,
      dMv2 := if d.compute_moment then
          -1 / 3 * v * (v * v - (3 / 2) * v + 1) - 1 / 12 else 0 }
  else if element = 6 then
    { du := 0, dv := -1, dS := 0, dMu := (1 / 2) * u * u, dMv := 0,
      dMuv := 0,
      dMu2 := if d.compute_moment then 1 / 3 * u * u * u else 0,
      dMv2 := 0 }
  else if element = 7 then
    { du := 1, dv := -1, dS := v - 1 / 2,
      dMu := (1 / 2) * u * (u + 1) + 1 / 6,
      dMv := (1 / 2) * v * (v - 1) + 1 / 6,
      dMuv := if d.compute_moment then
          v * v * (1 / 4 + half_u_p) - v * (1 / 3 + half_u_p) + 1 / 6 * u + 1 / 8 else 0,
      dMu2 := if d.compute_moment then
          1 / 3 * u * (u * u + (3 / 2) * u + 1) + 1 / 12 else 0,
      dMv2 := if d.compute_moment then
          1 / 3 * v * (v * v - (3 / 2) * v + 1) - 1 / 12 else 0 }
  else
    { du := 0, dv := 0, dS := 0, dMu := 0, dMv := 0, dMuv := 0, dMu2 := 0, dMv2 := 0 }

end vpDot2

/-- The locals of `computeParameters` that the border-following loop updates, together with
    the members it writes (the six moments and the three border lists). -/
structure BorderState where
  border_u : Int
  border_v : Int
  dir : Int
  u_min : Int
  u_max : Int
  v_min : Int
  v_max : Int
  m00 : ℚ
  m10 : ℚ
  m01 : ℚ
  m11 : ℚ
  m20 : ℚ
  m02 : ℚ
  direction_list : List Int
  u_list : List Int
  v_list : List Int
deriving DecidableEq

namespace vpDot2

/-- The rightward scan `while (hasGoodLevel(I, firstBorder_u+1, firstBorder_v) &&
    firstBorder_u < area.u_max)` of `computeParameters`, lines 1302-1315.  `none` is the
    `return false` of the width bound, `some b` the value of `firstBorder_u` at loop exit.
    The recursion is on `n`; with `n = (area.u_max - firstBorder_u).toNat` the loop
    condition is false when `n` reaches 0 (`findFirstBorder_enough`). -/
def findFirstBorder (d : vpDot2) (I : Image) (est_u : ℚ) (firstBorder_v : Int) :
    Nat → Int → Option Int
  | 0, firstBorder_u => some firstBorder_u
  | n + 1, firstBorder_u =>
    if d.hasGoodLevel I (firstBorder_u + 1) firstBorder_v ∧ firstBorder_u < d.area.u_max then
      if d.width > 0 ∧ |est_u - (firstBorder_u : ℚ)| > d.width / d.accuracy then none
      else findFirstBorder d I est_u firstBorder_v n (firstBorder_u + 1)
    else some firstBorder_u

/-- The statements of the `do` body of `computeParameters` before the call of
    `computeFreemanChainElement`, lines 1358-1392. -/
def advance (d : vpDot2) (s : BorderState) : BorderState :=
  let p := d.computeFreemanParameters s.border_u s.border_v s.dir
  let border_u := s.border_u + p.du
  let border_v := s.border_v + p.dv
  { border_u := border_u,
    border_v := border_v,
    dir := s.dir,
    m00 := s.m00 + p.dS,
    m10 := s.m10 + p.dMu,
    m01 := s.m01 + p.dMv,
    m11 := if d.compute_moment then s.m11 + p.dMuv else s.m11,
    m20 := if d.compute_moment then s.m20 + p.dMu2 else s.m20,
    m02 := if d.compute_moment then s.m02 + p.dMv2 else s.m02,
    direction_list := s.direction_list ++ [s.dir],
    u_list := s.u_list ++ [border_u],
    v_list := s.v_list ++ [border_v],
    v_min := if border_v < s.v_min then border_v else s.v_min,
    v_max := if border_v > s.v_max then border_v else s.v_max,
    u_min := if border_u < s.u_min then border_u else s.u_min,
    u_max := if border_u > s.u_max then border_u else s.u_max }

/-- The `do ... while` loop of `computeParameters`, lines 1351-1404.  The result is `none`
    when the `fuel` iterations did not reach an exit of the loop, `some (false, s)` for the
    `return false` inside the body, and `some (true, s)` when the `while` condition
    became false. -/
def followBorder (d : vpDot2) (I : Image) (firstBorder_u firstBorder_v firstDir : Int) :
    Nat → BorderState → Option (Bool × BorderState)
  | 0, _ => none
  | fuel + 1, s =>
    let s1 := d.advance s
    let r := d.computeFreemanChainElement I s1.border_u s1.border_v s1.dir
    if r.1 = false then some (false, s1)
    else
      let s2 := { s1 with dir := r.2 }
      if (firstBorder_u ≠ s2.border_u ∨ firstBorder_v ≠ s2.border_v ∨ firstDir ≠ s2.dir)
          ∧ d.isInArea I s2.border_u s2.border_v then
        followBorder d I firstBorder_u firstBorder_v firstDir fuel s2
      else some (true, s2)

/-- The members written by the border-following loop, stored back in the dot. -/
def store (d : vpDot2) (s : BorderState) : vpDot2 :=
  { d with m00 := s.m00, m10 := s.m10, m01 := s.m01, m11 := s.m11, m20 := s.m20,
           m02 := s.m02, direction_list := s.direction_list, u_list := s.u_list,
           v_list := s.v_list }

/-- The three `kill()` calls that open `computeParameters`, lines 1252-1254. -/
def clearBorder (d : vpDot2) : vpDot2 :=
  { d with direction_list := [], u_list := [], v_list := [] }

/-- The estimated coordinate, lines 1256-1269: the argument, or the stored centre
    coordinate `c` when the argument has the default value -1. -/
def estimate (c x : ℚ) : ℚ := if x = -1 then c else x

/-- The locals and members as they stand when the `do` loop of `computeParameters` is
    entered, lines 1280-1283 and 1332-1349. -/
def startState (I : Image) (firstBorder_u firstBorder_v dir : Int) : BorderState :=
  { border_u := firstBorder_u, border_v := firstBorder_v, dir := dir,
    u_min := I.cols, u_max := 0, v_min := I.rows, v_max := 0,
    m00 := 0, m10 := 0, m01 := 0, m11 := 0, m20 := 0, m02 := 0,
    direction_list := [dir], u_list := [firstBorder_u], v_list := [firstBorder_v] }

/-- The end of `computeParameters`, lines 1407-1435, on the dot `d` as the loop left it and
    the extreme border coordinates. -/
def finish (d : vpDot2) (I : Image) (u_min u_max v_min v_max : Int) : Bool × vpDot2 :=
  if d.m00 = 0 ∨ d.m00 = 1 then (false, d)
  else
    let tmpCenter_u := d.m10 / d.m00
    let tmpCenter_v := d.m01 / d.m00
    if !d.hasGoodLevel I (toInt tmpCenter_u) (toInt tmpCenter_v) then (false, d)
    else
      (true, { d with cog_ufloat := tmpCenter_u, cog_vfloat := tmpCenter_v,
                      width := ((u_max - u_min : Int) : ℚ),
                      height := ((v_max - v_min : Int) : ℚ),
                      surface := d.m00 })

/-- `vpDot2::computeParameters(I, _u, _v)`, lines 1248-1436.  The result is the returned
    boolean with the dot after the call; `none` only when the border-following loop did not
    exit within `fuel` iterations. -/
def computeParameters (fuel : Nat) (d : vpDot2) (I : Image) (_u _v : ℚ) :
    Option (Bool × vpDot2) :=
  let d := d.clearBorder
  let est_u := estimate d.cog_ufloat _u
  let est_v := estimate d.cog_vfloat _v
  if !d.isInArea I (toInt est_u) (toInt est_v) then some (false, d)
  else if !d.hasGoodLevel I (toInt est_u) (toInt est_v) then some (false, d)
  else
    let firstBorder_v := toInt est_v
    match d.findFirstBorder I est_u firstBorder_v
        (d.area.u_max - toInt est_u).toNat (toInt est_u) with
    | none => some (false, d)
    | some firstBorder_u =>
      let dir := (d.computeFreemanChainElement I firstBorder_u firstBorder_v 6).2
      let firstDir := dir
      if !d.isInArea I firstBorder_u firstBorder_v then some (false, d)
      else
        match d.followBorder I firstBorder_u firstBorder_v firstDir fuel
            (startState I firstBorder_u firstBorder_v dir) with
        | none => none
        | some (false, s1) => some (false, d.store s1)
        | some (true, s1) =>
          some (finish (d.store s1) I s1.u_min s1.u_max s1.v_min s1.v_max)

end vpDot2

/-! ## The model of the source, continued: setters, `isValid`, `searchDotsInArea`, `track`

Further conventions

* `sin` and `cos` of `<math.h>` are parameters of the model, the two fields of `Trig`:
  every statement holds for whatever values they return.
* `sqrt(2.)` and `M_PI` are the `double` values the compiled program uses, as exact rationals.
* `sqrt` is applied in `searchDotsInArea` only to compare two distances: the square root is
  strictly increasing, so the model compares the squares.
* `vpList<vpDot2>` is a `List vpDot2`, the first element at the head; the cursor loops of
  the source (`front`, `outside`, `value`, `next`) are recursions over the list.
* A thrown `vpTrackingException` is a constructor of the result type.
* A division by zero (an infinity or a NaN in the source) is not modelled: the statements
  on the quotients of `isValid` are for a reference dot of positive accuracy.
-/

/-- The functions `sin` and `cos` of `<math.h>`, which `isValid` calls. -/
structure Trig where
  sin : ℚ → ℚ
  cos : ℚ → ℚ

/-- How a call of `track` ends, with the dot as the call leaves it: the exception
    `vpTrackingException::featureLostError` was thrown, or the call returned. -/
inductive TrackResult where
  | featureLostError (d : vpDot2)
  | returned (d : vpDot2)
deriving DecidableEq

namespace vpDot2

/-- `vpDot2::MIN_IN_LEVEL`, line 58. -/
def MIN_IN_LEVEL : Int := 70

/-- The value of `sqrt(2.)`: the `double` nearest to the square root of two,
    `0x3FF6A09E667F3BCD`. -/
def sqrt2 : ℚ := 6369051672525773 / 4503599627370496

/-- The constant `M_PI` of `<math.h>` as a `double`, `0x400921FB54442D18`. -/
def M_PI : ℚ := 884279719003555 / 281474976710656

/-- `vpDot2::getInstance()`, lines 1161-1164: a default-constructed dot.  The constructor
    leaves the area unset; it is zero here, and `searchDotsInArea` overwrites it before
    any use. -/
def getInstance : vpDot2 := mk0 ⟨0, 0, 0, 0, 0, 0, 0, 0⟩

/-- `vpDot2::get_u()`, lines 450-453. -/
def get_u (d : vpDot2) : ℚ := d.cog_ufloat

/-- `vpDot2::get_v()`, lines 466-469. -/
def get_v (d : vpDot2) : ℚ := d.cog_vfloat

/-- `vpDot2::getWidth()`, lines 475-478. -/
def getWidth (d : vpDot2) : ℚ := d.width

/-- `vpDot2::getHeight()`, lines 485-488. -/
def getHeight (d : vpDot2) : ℚ := d.height

/-- `vpDot2::getSurface()`, lines 493-496. -/
def getSurface (d : vpDot2) : ℚ := d.surface

/-- `vpDot2::getInLevel()`, lines 503-506. -/
def getInLevel (d : vpDot2) : Int := d.inLevel

/-- `vpDot2::getOutLevel()`, lines 513-516. -/
def getOutLevel (d : vpDot2) : Int := d.outLevel

/-- `vpDot2::getAccuracy()`, lines 524-527. -/
def getAccuracy (d : vpDot2) : ℚ := d.accuracy

/-- `vpDot2::set_u(u)`, lines 553-556. -/
def set_u (d : vpDot2) (u : ℚ) : vpDot2 := { d with cog_ufloat := u }

/-- `vpDot2::set_v(v)`, lines 567-570. -/
def set_v (d : vpDot2) (v : ℚ) : vpDot2 := { d with cog_vfloat := v }

/-- `vpDot2::setWidth(width)`, lines 582-585. -/
def setWidth (d : vpDot2) (width : ℚ) : vpDot2 := { d with width := width }

/-- `vpDot2::setHeight(height)`, lines 597-600. -/
def setHeight (d : vpDot2) (height : ℚ) : vpDot2 := { d with height := height }

/-- `vpDot2::setSurface(surface)`, lines 612-615. -/
def setSurface (d : vpDot2) (surface : ℚ) : vpDot2 := { d with surface := surface }

/-- `vpDot2::setInLevel(inLevel)`, lines 629-637. -/
def setInLevel (d : vpDot2) (inLevel : Int) : vpDot2 :=
  if inLevel > MIN_IN_LEVEL then { d with inLevel := inLevel }
  else { d with inLevel := MIN_IN_LEVEL }

/-- `vpDot2::setOutLevel(outLevel)`, lines 649-652. -/
def setOutLevel (d : vpDot2) (outLevel : Int) : vpDot2 := { d with outLevel := outLevel }

/-- `vpDot2::setAccuracy(accuracy)`, lines 666-681. -/
def setAccuracy (d : vpDot2) (accuracy : ℚ) : vpDot2 :=
  let epsilon : ℚ := 5 / 100
  if accuracy < epsilon then { d with accuracy := epsilon }
  else if accuracy > 1 then { d with accuracy := 1 }
  else { d with accuracy := accuracy }

/-- The inline setter `setGraphics(activate)` of `vpDot2.h`: it stores the flag. -/
def setGraphics (d : vpDot2) (activate : Bool) : vpDot2 := { d with graphics := activate }

/-- The inline setter `setComputeMoments(activate)` of `vpDot2.h`: it stores the flag. -/
def setComputeMoments (d : vpDot2) (activate : Bool) : vpDot2 :=
  { d with compute_moment := activate }

/-- `vpDot2::setArea(I)`, lines 690-695: the area of the whole image. -/
def setAreaImage (d : vpDot2) (I : Image) : vpDot2 := d.setArea I 0 0 I.cols I.rows

/-- `vpDot2::setArea(a)`, lines 741-745. -/
def setAreaType (d : vpDot2) (a : vpAreaType) : vpDot2 := { d with area := a }

/-- `vpDot2::hasReverseLevel(I, u, v)`, lines 1139-1151. -/
def hasReverseLevel (d : vpDot2) (I : Image) (u v : Int) : Bool :=
  if (I.pix u v : Int) < d.outLevel then true else false

/-- `vpDot2::isInImage(I, u, v)`, lines 1759-1767. -/
def isInImage (_d : vpDot2) (I : Image) (u v : Int) : Bool :=
  let nbRows := I.rows
  let nbCols := I.cols
  if u < 0 ∨ u ≥ nbCols then false
  else if v < 0 ∨ v ≥ nbRows then false
  else true

/-- `vpDot2::isInImage(I)`, lines 1740-1743: the truncated centre is in the image. -/
def isInImageCog (d : vpDot2) (I : Image) : Bool :=
  d.isInImage I (toInt d.get_u) (toInt d.get_v)

/-- `vpDot2::getGridSize(gridWidth, gridHeight)`, lines 1821-1833: the two values written
    through the reference arguments.  The product and the quotient are `double`
    operations, each rounded, before the cast. -/
def getGridSize (d : vpDot2) : Int × Int :=
  let gridWidth := toInt (toDouble (toDouble (d.getWidth * d.getAccuracy) / sqrt2))
  let gridHeight := toInt (toDouble (toDouble (d.getHeight * d.getAccuracy) / sqrt2))
  let gridWidth := if gridWidth = 0 then 1 else gridWidth
  let gridHeight := if gridHeight = 0 then 1 else gridHeight
  (gridWidth, gridHeight)

/-- The first sampling loop of `isValid`, lines 1052-1068, from the angle `alpha` on, with
    at most the given number of tests of the loop condition left.  Started at `alpha = 0`
    the loop ends at the 17th test (`16 * 0.4 ≥ 2 * M_PI`, lemma `ring_exit`). -/
def innerRing (t : Trig) (d : vpDot2) (I : Image) (wantedDot : vpDot2) : Nat → ℚ → Bool
  | 0, _ => true
  | n + 1, alpha =>
    if alpha < 2 * M_PI then
      let innerCoef : ℚ := 4 / 10
      let u := toInt (d.get_u + t.sin alpha * innerCoef * d.getWidth / 2)
      let v := toInt (d.get_v + t.cos alpha * innerCoef * d.getHeight / 2)
      if !wantedDot.hasGoodLevel I u v then false
      else innerRing t d I wantedDot n (alpha + 4 / 10)
    else true

/-- The second sampling loop of `isValid`, lines 1070-1086; it ends at the 22nd test of the
    loop condition (`21 * 0.3 ≥ 2 * M_PI`). -/
def outerRing (t : Trig) (d : vpDot2) (I : Image) (wantedDot : vpDot2) : Nat → ℚ → Bool
  | 0, _ => true
  | n + 1, alpha =>
    if alpha < 2 * M_PI then
      let outCoef : ℚ := 16 / 10
      let u := toInt (d.get_u + t.sin alpha * outCoef * d.getWidth / 2)
      let v := toInt (d.get_v + t.cos alpha * outCoef * d.getHeight / 2)
      if u < d.area.u_min ∨ u ≥ d.area.u_max ∨ v < d.area.v_min ∨ v ≥ d.area.v_max then
        outerRing t d I wantedDot n (alpha + 3 / 10)
      else if !wantedDot.hasReverseLevel I u v then false
      else outerRing t d I wantedDot n (alpha + 3 / 10)
    else true

/-- `vpDot2::isValid(I, wantedDot)`, lines 1006-1089. -/
def isValid (t : Trig) (d : vpDot2) (I : Image) (wantedDot : vpDot2) : Bool :=
  let accuracy := wantedDot.getAccuracy
  let epsilon : ℚ := 1 / 1000
  if ¬ (wantedDot.getWidth * accuracy - epsilon < d.getWidth) then false
  else if ¬ (d.getWidth < wantedDot.getWidth / accuracy + epsilon) then false
  else if ¬ (wantedDot.getHeight * accuracy - epsilon < d.getHeight) then false
  else if ¬ (d.getHeight < wantedDot.getHeight / accuracy + epsilon) then false
  else if ¬ (wantedDot.getSurface * (accuracy * accuracy) - epsilon < d.getSurface) then false
  else if ¬ (d.getSurface < wantedDot.getSurface / (accuracy * accuracy) + epsilon) then false
  else if !innerRing t d I wantedDot 17 0 then false
  else if !outerRing t d I wantedDot 22 0 then false
  else true

/-- The test of lines 875-876 and 894-895: the germ `(u, v)` is in the bounding box of the
    dot `tmpDot`. -/
def germInBox (tmpDot : vpDot2) (u v : Int) : Bool :=
  let u0 := tmpDot.get_u
  let v0 := tmpDot.get_v
  let half_w := tmpDot.getWidth / 2
  let half_h := tmpDot.getHeight / 2
  decide ((u : ℚ) ≥ u0 - half_w ∧ (u : ℚ) ≤ u0 + half_w ∧
          (v : ℚ) ≥ v0 - half_h ∧ (v : ℚ) ≤ v0 + half_h)

/-- The square of the distance of lines 928-930 and 949-952, from the centre of the dot to
    the centre of the area. -/
def distSq (a : vpAreaType) (c : vpDot2) : ℚ :=
  let diff_u := c.get_u - a.cog_u
  let diff_v := c.get_v - a.cog_v
  diff_u * diff_u + diff_v * diff_v

/-- The test of lines 942-943 with `epsilon = 3.0`: the two centres are less than three
    pixels apart along both axes. -/
def sameCentre (tmpDot dotToTest : vpDot2) : Bool :=
  decide (|tmpDot.get_u - dotToTest.get_u| < 3 ∧ |tmpDot.get_v - dotToTest.get_v| < 3)

/-- The insertion of a valid dot in `niceDotsVector`, lines 932-974, from the element the
    cursor is on: stop at a dot with the same centre, insert before (`addLeft`) the first
    dot that is farther from the centre of the area, else append (`end`, `addRight`). -/
def insertNice (a : vpAreaType) (dotToTest : vpDot2) : List vpDot2 → List vpDot2
  | [] => [dotToTest]
  | tmpDot :: rest =>
    if sameCentre tmpDot dotToTest then tmpDot :: rest
    else if distSq a tmpDot > distSq a dotToTest then dotToTest :: tmpDot :: rest
    else tmpDot :: insertNice a dotToTest rest

/-- Lines 978-979, `front()` then `addRight`: the dot goes right after the first element
    of `badDotsVector`. -/
def insertBad (dotToTest : vpDot2) : List vpDot2 → List vpDot2
  | [] => [dotToTest]
  | b :: rest => b :: dotToTest :: rest

/-- The candidate of lines 909-916, seeded at the grid point `(u, v)`. -/
def newCandidate (d : vpDot2) (u v : Int) : vpDot2 :=
  ((((((getInstance.set_u (u : ℚ)).set_v (v : ℚ)).setInLevel d.getInLevel).setOutLevel
    d.getOutLevel).setGraphics d.graphics).setComputeMoments true).setAreaType d.area

/-- The body of the two `for` loops of `searchDotsInArea`, lines 860-981, at the grid point
    `(u, v)`: the two lists after it, `none` when the border following of the candidate
    did not end within `fuel` steps. -/
def testGerm (t : Trig) (fuel : Nat) (d : vpDot2) (I : Image) (u v : Int)
    (lists : List vpDot2 × List vpDot2) : Option (List vpDot2 × List vpDot2) :=
  if !d.hasGoodLevel I u v then some lists
  else if lists.1.any (fun tmpDot => germInBox tmpDot u v) then some lists
  else if lists.2.any (fun tmpDot => germInBox tmpDot u v) then some lists
  else
    match (d.newCandidate u v).computeParameters fuel I (-1) (-1) with
    | none => none
    | some (false, _) => some lists
    | some (true, dotToTest) =>
      if dotToTest.isValid t I d then some (insertNice d.area dotToTest lists.1, lists.2)
      else some (lists.1, insertBad dotToTest lists.2)

/-- The inner loop `for (u = ...; u < area.u_max; u = u + gridWidth)`, lines 858-982, from
    the column `u` on, with the number of iterations allowed; `none` when they are
    exhausted or a candidate ran out of fuel. -/
def scanRow (t : Trig) (fuel : Nat) (d : vpDot2) (I : Image) (gridWidth v : Int) :
    Nat → Int → List vpDot2 × List vpDot2 → Option (List vpDot2 × List vpDot2)
  | 0, u, lists => if u < d.area.u_max then none else some lists
  | n + 1, u, lists =>
    if u < d.area.u_max then
      match testGerm t fuel d I u v lists with
      | none => none
      | some lists1 => scanRow t fuel d I gridWidth v n (u + gridWidth) lists1
    else some lists

/-- The outer loop `for (v = ...; v < area.v_max; v = v + gridHeight)`, lines 856-983.  Each
    row is allowed `area.u_max - area.u_min` iterations, which is enough whenever
    `gridWidth ≥ 1`. -/
def scanGrid (t : Trig) (fuel : Nat) (d : vpDot2) (I : Image) (gridWidth gridHeight : Int) :
    Nat → Int → List vpDot2 × List vpDot2 → Option (List vpDot2 × List vpDot2)
  | 0, v, lists => if v < d.area.v_max then none else some lists
  | n + 1, v, lists =>
    if v < d.area.v_max then
      match scanRow t fuel d I gridWidth v (d.area.u_max - d.area.u_min).toNat
          d.area.u_min lists with
      | none => none
      | some lists1 => scanGrid t fuel d I gridWidth gridHeight n (v + gridHeight) lists1
    else some lists

/-- `vpDot2::searchDotsInArea(I, area_u, area_v, area_w, area_h)`, lines 831-989: the dot
    after the call (its area is set) and the returned list `niceDotsVector`.  `none` when
    a loop of the source does not end: a border following that exceeds `fuel`, or a grid
    step that is not positive. -/
def searchDotsInArea (t : Trig) (fuel : Nat) (d : vpDot2) (I : Image)
    (area_u area_v area_w area_h : Int) : Option (vpDot2 × List vpDot2) :=
  let d := d.setArea I area_u area_v area_w area_h
  let grid := d.getGridSize
  match scanGrid t fuel d I grid.1 grid.2 (d.area.v_max - d.area.v_min).toNat
      d.area.v_min ([], []) with
  | none => none
  | some lists => some (d, lists.1)

/-- The end of `track`, lines 392-403: the test of the centre and the new levels.  The
    product `I[v][u] * accuracy` is a `double` operation, rounded before the cast. -/
def trackEnd (d : vpDot2) (I : Image) : TrackResult :=
  if !d.isInImageCog I then TrackResult.featureLostError d
  else
    let d := d.setInLevel
      (toInt (toDouble ((I.pix (toInt d.get_u) (toInt d.get_v) : ℚ) * d.accuracy)))
    let d := d.setOutLevel
      (toInt (toDouble ((I.pix (toInt d.get_u) (toInt d.get_v) : ℚ) * d.accuracy)))
    TrackResult.returned d

/-- The window of lines 340-350 in which `track` searches the dot. -/
def searchWindow (d : vpDot2) : ℚ × ℚ :=
  if d.getWidth = 0 ∨ d.getHeight = 0 then (80, 80)
  else (d.getWidth * 5, d.getHeight * 5)

/-- The dot updated from the first candidate, lines 372-385. -/
def adopt (d movingDot : vpDot2) : vpDot2 :=
  let d := d.set_u movingDot.get_u
  let d := d.set_v movingDot.get_v
  let d := d.setSurface movingDot.getSurface
  let d := d.setWidth movingDot.getWidth
  let d := d.setHeight movingDot.getHeight
  { d with m00 := movingDot.m00, m01 := movingDot.m01, m10 := movingDot.m10,
           m11 := movingDot.m11, m20 := movingDot.m20, m02 := movingDot.m02 }

/-- The start of `track`, lines 314-322: the moments are reset and the area is the whole
    image. -/
def trackStart (d : vpDot2) (I : Image) : vpDot2 :=
  let d := { d with m00 := 0, m11 := 0, m02 := 0, m20 := 0, m10 := 0, m01 := 0 }
  d.setAreaImage I

/-- The call of `searchDotsInArea` in `track`, lines 352-357, on the dot as the failed
    `computeParameters` left it. -/
def searchLost (t : Trig) (fuel : Nat) (d : vpDot2) (I : Image) :
    Option (vpDot2 × List vpDot2) :=
  let searchWindowWidth := d.searchWindow.1
  let searchWindowHeight := d.searchWindow.2
  d.searchDotsInArea t fuel I
    (toInt (d.get_u - searchWindowWidth / 2)) (toInt (d.get_v - searchWindowHeight / 2))
    (toInt searchWindowWidth) (toInt searchWindowHeight)

/-- The first part of `track`, lines 314-390: `returned d` is the dot with which the final
    test of line 393 is reached, `featureLostError` the exception of line 367. -/
def locate (t : Trig) (fuel : Nat) (d : vpDot2) (I : Image) : Option TrackResult :=
  let estimated_u := d.get_u
  let estimated_v := d.get_v
  match (d.trackStart I).computeParameters fuel I estimated_u estimated_v with
  | none => none
  | some (true, d1) => some (TrackResult.returned d1)
  | some (false, d1) =>
    match d1.searchLost t fuel I with
    | none => none
    | some (d2, []) => some (TrackResult.featureLostError d2)
    | some (d2, movingDot :: _) => some (TrackResult.returned (d2.adopt movingDot))

/-- `vpDot2::track(I)`, lines 312-412; `none` when a loop of the source does not end. -/
def track (t : Trig) (fuel : Nat) (d : vpDot2) (I : Image) : Option TrackResult :=
  match d.locate t fuel I with
  | none => none
  | some (TrackResult.featureLostError d1) => some (TrackResult.featureLostError d1)
  | some (TrackResult.returned d1) => some (trackEnd d1 I)

end vpDot2

/-! ## The model of the source, continued: whole-image search, the error branch of the
border loop, constructors and `initTracking` -/

namespace vpDot2

/-- `vpDot2::searchDotsInArea(I)`, lines 802-811: the call of the five-argument overload
    with the window `(0, 0, I.getCols()-1, I.getRows()-1)`. -/
def searchDotsInAreaImage (t : Trig) (fuel : Nat) (d : vpDot2) (I : Image) :
    Option (vpDot2 × List vpDot2) :=
  d.searchDotsInArea t fuel I 0 0 (I.cols - 1) (I.rows - 1)

/-- The test of lines 1375-1378 in the iteration of the `do` loop that starts in the state
    `s`: the border position after the step is not in the area, so the branch that logs
    "Not in area: Should not occur" is taken. -/
def notInAreaBranch (d : vpDot2) (I : Image) (s : BorderState) : Bool :=
  !d.isInArea I (d.advance s).border_u (d.advance s).border_v

/-- Some iteration of the `do` loop of `computeParameters`, run from the state `s` as
    `followBorder` runs it for at most the given number of iterations, takes the branch
    of lines 1375-1378. -/
def errorTraced (d : vpDot2) (I : Image) (firstBorder_u firstBorder_v firstDir : Int) :
    Nat → BorderState → Bool
  | 0, _ => false
  | fuel + 1, s =>
    if d.notInAreaBranch I s then true
    else
      let s1 := d.advance s
      let r := d.computeFreemanChainElement I s1.border_u s1.border_v s1.dir
      if r.1 = false then false
      else
        let s2 := { s1 with dir := r.2 }
        if (firstBorder_u ≠ s2.border_u ∨ firstBorder_v ≠ s2.border_v ∨ firstDir ≠ s2.dir)
            ∧ d.isInArea I s2.border_u s2.border_v then
          errorTraced d I firstBorder_u firstBorder_v firstDir fuel s2
        else false

/-- A call of `computeParameters(I, _u, _v)` takes the branch of lines 1375-1378 within
    `fuel` iterations of its `do` loop; the steps before the loop are those of
    `computeParameters`. -/
def computeParametersErrorTraced (fuel : Nat) (d : vpDot2) (I : Image) (_u _v : ℚ) : Bool :=
  let d := d.clearBorder
  let est_u := estimate d.cog_ufloat _u
  let est_v := estimate d.cog_vfloat _v
  if !d.isInArea I (toInt est_u) (toInt est_v) then false
  else if !d.hasGoodLevel I (toInt est_u) (toInt est_v) then false
  else
    let firstBorder_v := toInt est_v
    match d.findFirstBorder I est_u firstBorder_v
        (d.area.u_max - toInt est_u).toNat (toInt est_u) with
    | none => false
    | some firstBorder_u =>
      let dir := (d.computeFreemanChainElement I firstBorder_u firstBorder_v 6).2
      let firstDir := dir
      if !d.isInArea I firstBorder_u firstBorder_v then false
      else
        d.errorTraced I firstBorder_u firstBorder_v firstDir fuel
          (startState I firstBorder_u firstBorder_v dir)

end vpDot2

/-! ## The model of the source, continued: constructors, assignment, `initTracking` -/

namespace vpDot2

/-- The constructors `vpDot2::vpDot2(u, v)`, lines 105-121 (`int`) and 135-151 (`double`):
    the default constructor with the centre at (u, v). -/
def mkAt (a : vpAreaType) (u v : ℚ) : vpDot2 :=
  { mk0 a with cog_ufloat := u, cog_vfloat := v }

/-- `vpDot2::operator=`, lines 164-188: every member but the three lists is taken from
    `twinDot`. -/
def assign (d twinDot : vpDot2) : vpDot2 :=
  { d with cog_ufloat := twinDot.cog_ufloat, cog_vfloat := twinDot.cog_vfloat,
           width := twinDot.width, height := twinDot.height, surface := twinDot.surface,
           inLevel := twinDot.inLevel, outLevel := twinDot.outLevel,
           accuracy := twinDot.accuracy, area := twinDot.area,
           m00 := twinDot.m00, m01 := twinDot.m01, m11 := twinDot.m11,
           m10 := twinDot.m10, m02 := twinDot.m02, m20 := twinDot.m20,
           compute_moment := twinDot.compute_moment, graphics := twinDot.graphics }

/-- The copy constructor, lines 156-159: `*this = twinDot` on an object with empty lists. -/
def copy (twinDot : vpDot2) : vpDot2 := (mk0 twinDot.area).assign twinDot

/-- `vpDot2::initTracking(I, u, v)`, lines 260-280; `initTracking(I)`, lines 221-245, is
    the same with (u, v) the pixel clicked.  The product `I[v][u] * accuracy` is a `double`
    operation, rounded before the cast.  The result is the one of the call of `track` that
    ends it. -/
def initTracking (t : Trig) (fuel : Nat) (d : vpDot2) (I : Image) (u v : Int) :
    Option TrackResult :=
  let d := { d with cog_ufloat := (u : ℚ), cog_vfloat := (v : ℚ) }
  let d := { d with inLevel := toInt (toDouble ((I.pix u v : ℚ) * d.accuracy)) }
  let d := { d with outLevel := toInt (toDouble ((I.pix u v : ℚ) * d.accuracy)) }
  let d := if d.inLevel < MIN_IN_LEVEL then { d with inLevel := MIN_IN_LEVEL } else d
  let d := d.setWidth 0
  d.track t fuel I

end vpDot2

/-! ## The rounded layer: `computeParameters` with the rounding of every operation

The functions of this section are the ones of the exact layer that compute with `float`
or `double` values, with every operation rounded: the `double` products, sums, differences
and quotients by `toDouble`, the assignments to the `float` variables of line 1343 and of
`half_u_p` by `toFloat`.  An `int` operand is converted to `double` without rounding;
`u_p * u_p`, `v_p * v_p`, `u_p + 1`, `2 * u_p + 1` and the like are `int` operations.
The integer functions (`isInArea`, `hasGoodLevel`, `computeFreemanChainElement`) are
shared with the exact layer. -/

namespace vpDot2

/-- The `double` product of two `double` values. -/
def mulD (x y : ℚ) : ℚ := toDouble (x * y)

/-- The `double` sum of two `double` values. -/
def addD (x y : ℚ) : ℚ := toDouble (x + y)

/-- The `double` difference of two `double` values. -/
def subD (x y : ℚ) : ℚ := toDouble (x - y)

/-- The `double` quotient of two `double` values. -/
def divD (x y : ℚ) : ℚ := toDouble (x / y)

namespace Rounded

/-- `vpDot2::computeFreemanParameters`, lines 1578-1698, with the rounding of every
    operation: the constants `1.0/3.`, `1.0/6.0`, `1./12.0` are the rounded quotients, the
    operations associate to the left as in the source, and each result is converted to the
    `float` argument it is assigned to. -/
def computeFreemanParameters (d : vpDot2) (u_p v_p element : Int) : FreemanIncrement :=
  let u : ℚ := u_p
  let v : ℚ := v_p
  let uu : ℚ := ((u_p * u_p : Int) : ℚ)
  let vv : ℚ := ((v_p * v_p : Int) : ℚ)
  let third : ℚ := toDouble (1 / 3)
  let sixth : ℚ := toDouble (1 / 6)
  let twelfth : ℚ := toDouble (1 / 12)
  let half_u_p : ℚ := toFloat (mulD (1 / 2) u)
  if element = 0 then
    { du := 1, dv := 0, dS := toFloat v, dMu := 0,
      dMv := toFloat (mulD (mulD (1 / 2) v) v),
      dMuv := if d.compute_moment then
          toFloat (mulD (mulD (mulD (1 / 4) v) v) ((2 * u_p + 1 : Int) : ℚ)) else 0,
      dMu2 := 0,
      dMv2 := if d.compute_moment then toFloat (mulD (mulD (mulD third v) v) v) else 0 }
  else if element = 1 then
    { du := 1, dv := 1, dS := toFloat (addD v (1 / 2)),
      dMu := toFloat (-(addD (mulD (mulD (1 / 2) u) ((u_p + 1 : Int) : ℚ)) sixth)),
      dMv := toFloat (addD (mulD (mulD (1 / 2) v) ((v_p + 1 : Int) : ℚ)) sixth),
      dMuv := if d.compute_moment then
          toFloat (addD (addD (addD (mulD vv (addD (1 / 4) half_u_p))
            (mulD v (addD third half_u_p))) (mulD sixth u)) (1 / 8)) else 0,
      dMu2 := if d.compute_moment then
          toFloat (subD (mulD (mulD (-third) u) (addD (addD uu (mulD (3 / 2) u)) 1))
            twelfth) else 0,
      dMv2 := if d.compute_moment then
          toFloat (addD (mulD (mulD third v) (addD (addD vv (mulD (3 / 2) v)) 1))
            twelfth) else 0 }
  else if element = 2 then
    { du := 0, dv := 1, dS := 0, dMu := toFloat (mulD (mulD (-(1 / 2)) u) u), dMv := 0,
      dMuv := 0,
      dMu2 := if d.compute_moment then toFloat (mulD (mulD (mulD (-third) u) u) u) else 0,
      dMv2 := 0 }
  else if element = 3 then
    { du := -1, dv := 1, dS := toFloat (subD ((-v_p : Int) : ℚ) (1 / 2)),
      dMu := toFloat (-(addD (mulD (mulD (1 / 2) u) ((u_p - 1 : Int) : ℚ)) sixth)),
      dMv := toFloat (-(addD (mulD (mulD (1 / 2) v) ((v_p + 1 : Int) : ℚ)) sixth)),
      dMuv := if d.compute_moment then
          toFloat (addD (subD (addD (mulD vv (subD (1 / 4) half_u_p))
            (mulD v (subD third half_u_p))) (mulD sixth u)) (1 / 8)) else 0,
      dMu2 := if d.compute_moment then
          toFloat (subD (mulD (mulD (-third) u) (addD (subD uu (mulD (3 / 2) u)) 1))
            twelfth) else 0,
      dMv2 := if d.compute_moment then
          toFloat (subD (mulD (mulD (-third) v) (addD (addD vv (mulD (3 / 2) v)) 1))
            twelfth) else 0 }
  else if element = 4 then
    { du := -1, dv := 0, dS := toFloat ((-v_p : Int) : ℚ), dMu := 0,
      dMv := toFloat (mulD (mulD (-(1 / 2)) v) v),
      dMuv := if d.compute_moment then
          toFloat (mulD (mulD (mulD (-(1 / 4)) v) v) ((2 * u_p - 1 : Int) : ℚ)) else 0,
      dMu2 := 0,
      dMv2 := if d.compute_moment then toFloat (mulD (mulD (mulD (-third) v) v) v) else 0 }
  else if element = 5 then
    { du := -1, dv := -1, dS := toFloat (addD ((-v_p : Int) : ℚ) (1 / 2)),
      dMu := toFloat (addD (mulD (mulD (1 / 2) u) ((u_p - 1 : Int) : ℚ)) sixth),
      dMv := toFloat (-(addD (mulD (mulD (1 / 2) v) ((v_p - 1 : Int) : ℚ)) sixth)),
      dMuv := if d.compute_moment then
          toFloat (addD (subD (subD (mulD vv (subD (1 / 4) half_u_p))
            (mulD v (subD third half_u_p))) (mulD sixth u)) (1 / 8)) else 0,
      dMu2 := if d.compute_moment then
          toFloat (subD (mulD (mulD third u) (addD (subD uu (mulD (3 / 2) u)) 1))
            twelfth) else 0,
      dMv2 := if d.compute_moment then
          toFloat (subD (mulD (mulD (-third) v) (addD (subD vv (mulD (3 / 2) v)) 1))
            twelfth) else 0 }
  else if element = 6 then
    { du := 0, dv := -1, dS := 0, dMu := toFloat (mulD (mulD (1 / 2) u) u), dMv := 0,
      dMuv := 0,
      dMu2 := if d.compute_moment then toFloat (mulD (mulD (mulD third u) u) u) else 0,
      dMv2 := 0 }
  else if element = 7 then
    { du := 1, dv := -1, dS := toFloat (subD v (1 / 2)),
      dMu := toFloat (addD (mulD (mulD (1 / 2) u) ((u_p + 1 : Int) : ℚ)) sixth),
      dMv := toFloat (addD (mulD (mulD (1 / 2) v) ((v_p - 1 : Int) : ℚ)) sixth),
      dMuv := if d.compute_moment then
          toFloat (addD (addD (subD (mulD vv (addD (1 / 4) half_u_p))
            (mulD v (addD third half_u_p))) (mulD sixth u)) (1 / 8)) else 0,
      dMu2 := if d.compute_moment then
          toFloat (addD (mulD (mulD third u) (addD (addD uu (mulD (3 / 2) u)) 1))
            twelfth) else 0,
      dMv2 := if d.compute_moment then
          toFloat (subD (mulD (mulD third v) (addD (subD vv (mulD (3 / 2) v)) 1))
            twelfth) else 0 }
  else
    { du := 0, dv := 0, dS := 0, dMu := 0, dMv := 0, dMuv := 0, dMu2 := 0, dMv2 := 0 }

/-- The rightward scan of `computeParameters`, lines 1302-1315, as `vpDot2.findFirstBorder`,
    with the rounded difference and quotient of the width test
    `fabs(est_u - firstBorder_u) > getWidth()/getAccuracy()`. -/
def findFirstBorder (d : vpDot2) (I : Image) (est_u : ℚ) (firstBorder_v : Int) :
    Nat → Int → Option Int
  | 0, firstBorder_u => some firstBorder_u
  | n + 1, firstBorder_u =>
    if d.hasGoodLevel I (firstBorder_u + 1) firstBorder_v ∧ firstBorder_u < d.area.u_max then
      if d.width > 0 ∧ |subD est_u (firstBorder_u : ℚ)| > divD d.width d.accuracy then none
      else findFirstBorder d I est_u firstBorder_v n (firstBorder_u + 1)
    else some firstBorder_u

/-- The statements of the `do` body of `computeParameters` before the call of
    `computeFreemanChainElement`, lines 1358-1392, as `vpDot2.advance`: the increments are
    the `float` values, and each `+=` on a moment is a rounded `double` sum. -/
def advance (d : vpDot2) (s : BorderState) : BorderState :=
  let p := Rounded.computeFreemanParameters d s.border_u s.border_v s.dir
  let border_u := s.border_u + p.du
  let border_v := s.border_v + p.dv
  { border_u := border_u,
    border_v := border_v,
    dir := s.dir,
    m00 := addD s.m00 p.dS,
    m10 := addD s.m10 p.dMu,
    m01 := addD s.m01 p.dMv,
    m11 := if d.compute_moment then addD s.m11 p.dMuv else s.m11,
    m20 := if d.compute_moment then addD s.m20 p.dMu2 else s.m20,
    m02 := if d.compute_moment then addD s.m02 p.dMv2 else s.m02,
    direction_list := s.direction_list ++ [s.dir],
    u_list := s.u_list ++ [border_u],
    v_list := s.v_list ++ [border_v],
    v_min := if border_v < s.v_min then border_v else s.v_min,
    v_max := if border_v > s.v_max then border_v else s.v_max,
    u_min := if border_u < s.u_min then border_u else s.u_min,
    u_max := if border_u > s.u_max then border_u else s.u_max }

/-- The `do ... while` loop of `computeParameters`, lines 1351-1404, as
    `vpDot2.followBorder`, on the rounded moments. -/
def followBorder (d : vpDot2) (I : Image) (firstBorder_u firstBorder_v firstDir : Int) :
    Nat → BorderState → Option (Bool × BorderState)
  | 0, _ => none
  | fuel + 1, s =>
    let s1 := Rounded.advance d s
    let r := d.computeFreemanChainElement I s1.border_u s1.border_v s1.dir
    if r.1 = false then some (false, s1)
    else
      let s2 := { s1 with dir := r.2 }
      if (firstBorder_u ≠ s2.border_u ∨ firstBorder_v ≠ s2.border_v ∨ firstDir ≠ s2.dir)
          ∧ d.isInArea I s2.border_u s2.border_v then
        followBorder d I firstBorder_u firstBorder_v firstDir fuel s2
      else some (true, s2)

/-- The end of `computeParameters`, lines 1407-1435, as `vpDot2.finish`, with the rounded
    quotients `m10 / m00` and `m01 / m00`. -/
def finish (d : vpDot2) (I : Image) (u_min u_max v_min v_max : Int) : Bool × vpDot2 :=
  if d.m00 = 0 ∨ d.m00 = 1 then (false, d)
  else
    let tmpCenter_u := divD d.m10 d.m00
    let tmpCenter_v := divD d.m01 d.m00
    if !d.hasGoodLevel I (toInt tmpCenter_u) (toInt tmpCenter_v) then (false, d)
    else
      (true, { d with cog_ufloat := tmpCenter_u, cog_vfloat := tmpCenter_v,
                      width := ((u_max - u_min : Int) : ℚ),
                      height := ((v_max - v_min : Int) : ℚ),
                      surface := d.m00 })

/-- `vpDot2::computeParameters(I, _u, _v)`, lines 1248-1436, as `vpDot2.computeParameters`,
    with the rounding of every `float` and `double` operation. -/
def computeParameters (fuel : Nat) (d : vpDot2) (I : Image) (_u _v : ℚ) :
    Option (Bool × vpDot2) :=
  let d := d.clearBorder
  let est_u := estimate d.cog_ufloat _u
  let est_v := estimate d.cog_vfloat _v
  if !d.isInArea I (toInt est_u) (toInt est_v) then some (false, d)
  else if !d.hasGoodLevel I (toInt est_u) (toInt est_v) then some (false, d)
  else
    let firstBorder_v := toInt est_v
    match Rounded.findFirstBorder d I est_u firstBorder_v
        (d.area.u_max - toInt est_u).toNat (toInt est_u) with
    | none => some (false, d)
    | some firstBorder_u =>
      let dir := (d.computeFreemanChainElement I firstBorder_u firstBorder_v 6).2
      let firstDir := dir
      if !d.isInArea I firstBorder_u firstBorder_v then some (false, d)
      else
        match Rounded.followBorder d I firstBorder_u firstBorder_v firstDir fuel
            (startState I firstBorder_u firstBorder_v dir) with
        | none => none
        | some (false, s1) => some (false, d.store s1)
        | some (true, s1) =>
          some (Rounded.finish (d.store s1) I s1.u_min s1.u_max s1.v_min s1.v_max)

end Rounded

end vpDot2

/-! ## A `double` argument that is not a number -/

/-- An argument of type `double`: a number, an infinity, or NaN. -/
inductive DoubleArg where
  | number (x : ℚ)
  | posInf
  | negInf
  | nan
deriving DecidableEq

namespace DoubleArg

/-- The comparison `x < y` of two `double` values: false as soon as one of them is NaN. -/
def lt : DoubleArg → DoubleArg → Bool
  | number a, number b => decide (a < b)
  | negInf, number _ => true
  | negInf, posInf => true
  | number _, posInf => true
  | _, _ => false

/-- The comparison `x > y` of two `double` values: false as soon as one of them is NaN. -/
def gt (x y : DoubleArg) : Bool := lt y x

/-- The comparison `x <= y` of two `double` values: false as soon as one of them is NaN. -/
def le : DoubleArg → DoubleArg → Bool
  | number a, number b => decide (a ≤ b)
  | negInf, number _ => true
  | negInf, posInf => true
  | number _, posInf => true
  | negInf, negInf => true
  | posInf, posInf => true
  | _, _ => false

/-- `vpDot2::setAccuracy(accuracy)`, lines 666-681, for any `double` argument: the value the
    call stores in the member `accuracy`. -/
def setAccuracy (accuracy : DoubleArg) : DoubleArg :=
  let epsilon := number (5 / 100)
  if accuracy.lt epsilon then epsilon
  else if accuracy.gt (number 1) then number 1
  else accuracy

end DoubleArg

namespace vpDot2

/-- `vpDot2::setAccuracy(accuracy)`, lines 666-681, for any `double` argument: the dot with
    the value the call stores, when that value is a number; `none` when it is NaN, which
    the member `accuracy` of the embedding cannot hold.  For a number as argument the dot
    is the one of `vpDot2.setAccuracy`. -/
def setAccuracyArg (d : vpDot2) (accuracy : DoubleArg) : Option vpDot2 :=
  match DoubleArg.setAccuracy accuracy with
  | DoubleArg.number x => some { d with accuracy := x }
  | _ => none

end vpDot2

/-! ## The boundary integrals of the discrete Green theorem

The closed forms of the integrals over the unit segment from `(u_p, v_p)` to
`(u_p + du, v_p + dv)`, in exact rational arithmetic. -/

namespace Green

/-- The unit step `(du, dv)` of a Freeman code: the displacement made by
    `updateFreemanPosition` from the origin. -/
def unitStep (c : Int) : Int × Int := vpDot2.updateFreemanPosition 0 0 c

/-- Area increment: `du * (v_p + dv/2)`. -/
def dS (du dv _u_p v_p : ℚ) : ℚ := du * (v_p + dv / 2)

/-- First-order increment along u: `-dv * (u_p^2 + du*u_p + du^2/3) / 2`. -/
def dMu (du dv u_p _v_p : ℚ) : ℚ := -dv * (u_p ^ 2 + du * u_p + du ^ 2 / 3) / 2

/-- First-order increment along v: `du * (v_p^2 + dv*v_p + dv^2/3) / 2`. -/
def dMv (du dv _u_p v_p : ℚ) : ℚ := du * (v_p ^ 2 + dv * v_p + dv ^ 2 / 3) / 2

/-- Second-order increment, minus the integral of `u^3/3 dv`. -/
def dMu2 (du dv u_p _v_p : ℚ) : ℚ :=
  -dv * (u_p ^ 3 + (3 / 2) * du * u_p ^ 2 + du ^ 2 * u_p + du ^ 3 / 4) / 3

/-- Second-order increment, the integral of `v^3/3 du`. -/
def dMv2 (du dv _u_p v_p : ℚ) : ℚ :=
  du * (v_p ^ 3 + (3 / 2) * dv * v_p ^ 2 + dv ^ 2 * v_p + dv ^ 3 / 4) / 3

/-- Second-order increment, the integral of `u*v^2/2 du`. -/
def dMuv (du dv u_p v_p : ℚ) : ℚ :=
  (du / 2) * (u_p * v_p ^ 2 + dv * u_p * v_p + dv ^ 2 * u_p / 3 + du * v_p ^ 2 / 2
    + 2 * du * dv * v_p / 3 + du * dv ^ 2 / 4)

end Green

/-! ## Notions the claims are stated with -/

namespace FloodFill

end FloodFill

/-- The call of `track` ended with the exception `featureLostError`. -/
def TrackResult.raised : TrackResult → Bool
  | TrackResult.featureLostError _ => true
  | TrackResult.returned _ => false

/-- The dot a call of `track` leaves. -/
def TrackResult.dot : TrackResult → vpDot2
  | TrackResult.featureLostError d => d
  | TrackResult.returned d => d

/-- The eight neighbours of the pixel `(u, v)`. -/
def neighbours8 (u v : Int) : List (Int × Int) :=
  [(u + 1, v), (u + 1, v + 1), (u, v + 1), (u - 1, v + 1),
   (u - 1, v), (u - 1, v - 1), (u, v - 1), (u + 1, v - 1)]

/-- The priority order `(e+2, e+1, e, e+7, e+6, e+5, e+4, e+3) mod 8` in which the
    neighbours are tried for the incoming code `e`. -/
def priorityOrder (e : Int) : List Int :=
  [(e + 2) % 8, (e + 1) % 8, e % 8, (e + 7) % 8, (e + 6) % 8, (e + 5) % 8, (e + 4) % 8,
   (e + 3) % 8]

namespace vpDot2

/-- The pixels p_0, p_1, ..., p_n visited from `(u, v)` by a chain of codes, each step
    being the `(du, dv)` that `computeFreemanParameters` writes for the code. -/
def chainPixels (d : vpDot2) (u v : Int) : List Int → List (Int × Int)
  | [] => [(u, v)]
  | c :: cs =>
    (u, v) :: chainPixels d (u + (d.computeFreemanParameters u v c).du)
      (v + (d.computeFreemanParameters u v c).dv) cs

/-- The recorded border of a dot: the entries `(u, v, direction)` of the three border
    lists, in the order they were recorded. -/
def recorded (d : vpDot2) : List (Int × Int × Int) :=
  List.zip d.u_list (List.zip d.v_list d.direction_list)

/-- Two consecutive entries of a recorded border: the second pixel is the first pixel
    plus the unit step of the direction recorded with the second, a code in 0..7. -/
def StepTo (p q : Int × Int × Int) : Prop :=
  (q.1, q.2.1) = updateFreemanPosition p.1 p.2.1 q.2.2 ∧ 0 ≤ q.2.2 ∧ q.2.2 ≤ 7

end vpDot2

/-- The outcome of `track` with the dot it leaves changed by `f`. -/
def TrackResult.map (f : vpDot2 → vpDot2) : TrackResult → TrackResult
  | TrackResult.featureLostError d => TrackResult.featureLostError (f d)
  | TrackResult.returned d => TrackResult.returned (f d)

namespace vpDot2

/-- The dot states reachable from a constructor through the setters, `setAccuracy` with
    any `double` argument after which the accuracy stored is a number (`setAccuracyArg`),
    assignment and copy, `initTracking`, `computeParameters`, `searchDotsInArea` and
    `track`; a candidate that `searchDotsInArea` returns is reachable too.  The constructors
    leave the area unset: any area stands for it. -/
inductive Reachable (t : Trig) : vpDot2 → Prop
  | fresh (a : vpAreaType) : Reachable t (mk0 a)
  | freshAt (a : vpAreaType) (u v : ℚ) : Reachable t (mkAt a u v)
  | copied {d : vpDot2} : Reachable t d → Reachable t d.copy
  | assigned {d e : vpDot2} : Reachable t d → Reachable t e → Reachable t (d.assign e)
  | set_u {d : vpDot2} (u : ℚ) : Reachable t d → Reachable t (d.set_u u)
  | set_v {d : vpDot2} (v : ℚ) : Reachable t d → Reachable t (d.set_v v)
  | setWidth {d : vpDot2} (w : ℚ) : Reachable t d → Reachable t (d.setWidth w)
  | setHeight {d : vpDot2} (h : ℚ) : Reachable t d → Reachable t (d.setHeight h)
  | setSurface {d : vpDot2} (s : ℚ) : Reachable t d → Reachable t (d.setSurface s)
  | setInLevel {d : vpDot2} (l : Int) : Reachable t d → Reachable t (d.setInLevel l)
  | setOutLevel {d : vpDot2} (l : Int) : Reachable t d → Reachable t (d.setOutLevel l)
  | setAccuracy {d e : vpDot2} (a : DoubleArg) :
      Reachable t d → d.setAccuracyArg a = some e → Reachable t e
  | setGraphics {d : vpDot2} (g : Bool) : Reachable t d → Reachable t (d.setGraphics g)
  | setComputeMoments {d : vpDot2} (g : Bool) :
      Reachable t d → Reachable t (d.setComputeMoments g)
  | setArea {d : vpDot2} (I : Image) (u v w h : Int) :
      Reachable t d → Reachable t (d.setArea I u v w h)
  | setAreaImage {d : vpDot2} (I : Image) : Reachable t d → Reachable t (d.setAreaImage I)
  | setAreaType {d : vpDot2} (a : vpAreaType) : Reachable t d → Reachable t (d.setAreaType a)
  | initTracking {d : vpDot2} (fuel : Nat) (I : Image) (u v : Int) (r : TrackResult) :
      Reachable t d → d.initTracking t fuel I u v = some r → Reachable t r.dot
  | computeParameters {d : vpDot2} (fuel : Nat) (I : Image) (_u _v : ℚ) (r : Bool × vpDot2) :
      Reachable t d → d.computeParameters fuel I _u _v = some r → Reachable t r.2
  | searchDotsInArea {d : vpDot2} (fuel : Nat) (I : Image) (u v w h : Int)
      (r : vpDot2 × List vpDot2) :
      Reachable t d → d.searchDotsInArea t fuel I u v w h = some r → Reachable t r.1
  | candidate {d : vpDot2} (fuel : Nat) (I : Image) (u v w h : Int)
      (r : vpDot2 × List vpDot2) (c : vpDot2) :
      Reachable t d → d.searchDotsInArea t fuel I u v w h = some r → c ∈ r.2 →
      Reachable t c
  | searchDotsInAreaImage {d : vpDot2} (fuel : Nat) (I : Image) (r : vpDot2 × List vpDot2) :
      Reachable t d → d.searchDotsInAreaImage t fuel I = some r → Reachable t r.1
  | candidateImage {d : vpDot2} (fuel : Nat) (I : Image) (r : vpDot2 × List vpDot2)
      (c : vpDot2) :
      Reachable t d → d.searchDotsInAreaImage t fuel I = some r → c ∈ r.2 → Reachable t c
  | track {d : vpDot2} (fuel : Nat) (I : Image) (r : TrackResult) :
      Reachable t d → d.track t fuel I = some r → Reachable t r.dot

end vpDot2

/-! ## Concrete inputs used by the closed statements -/

namespace Sample

/-- A 10 x 10 image, all pixels 0. -/
def dark10 : Image := { cols := 10, rows := 10, pix := fun _ _ => 0 }

/-- The area `[0, 9] x [0, 9]`, as `setArea(I)` computes it on a 10 x 10 image. -/
def area10 : vpAreaType :=
  { u_min := 0, v_min := 0, u_max := 9, v_max := 9, w := 10, h := 10, cog_u := 5, cog_v := 5 }

/-- A default-constructed dot with moment computation switched on. -/
def momentDot : vpDot2 := { vpDot2.mk0 area10 with compute_moment := true }

/-- The area `[0, 4] x [0, 4]`, as `setArea(I)` computes it on a 5 x 5 image. -/
def area5 : vpAreaType :=
  { u_min := 0, v_min := 0, u_max := 4, v_max := 4, w := 5, h := 5,
    cog_u := 5 / 2, cog_v := 5 / 2 }

/-- A default-constructed dot (inLevel 210, accuracy 0.65, width 0) searching a whole
    5 x 5 image. -/
def dot5 : vpDot2 := vpDot2.mk0 area5

/-- A 5 x 5 image: the 3 x 3 square of columns 1..3 and rows 1..3 at 255, the rest 0. -/
def square3 : Image :=
  { cols := 5, rows := 5,
    pix := fun u v => if 1 ≤ u ∧ u ≤ 3 ∧ 1 ≤ v ∧ v ≤ 3 then 255 else 0 }

/-- A 5 x 5 image: the 2 x 2 square of columns 1..2 and rows 1..2 at 255, the rest 0. -/
def square2 : Image :=
  { cols := 5, rows := 5,
    pix := fun u v => if 1 ≤ u ∧ u ≤ 2 ∧ 1 ≤ v ∧ v ≤ 2 then 255 else 0 }

/-- A 5 x 5 image: the pixel of column 3 and row 2 at 255, the rest 0. -/
def single : Image :=
  { cols := 5, rows := 5, pix := fun u v => if u = 3 ∧ v = 2 then 255 else 0 }

/-- A 5 x 5 image: the corner pixel of column 0 and row 0 at 255, the rest 0. -/
def corner : Image :=
  { cols := 5, rows := 5, pix := fun u v => if u = 0 ∧ v = 0 then 255 else 0 }

/-- A 16 x 6 image, all pixels 255 except a ring of twelve pixels at 0 around the four
    pixels of columns 11..12 and rows 2..3 (columns 10..13, rows 1..4, the four inner
    pixels excluded). -/
def ring : Image :=
  { cols := 16, rows := 6,
    pix := fun u v =>
      if 10 ≤ u ∧ u ≤ 13 ∧ 1 ≤ v ∧ v ≤ 4 ∧ ¬ (11 ≤ u ∧ u ≤ 12 ∧ 2 ≤ v ∧ v ≤ 3) then 0
      else 255 }

/-- The area `[0, 15] x [0, 5]`, as `setArea(I)` computes it on a 16 x 6 image. -/
def ringArea : vpAreaType :=
  { u_min := 0, v_min := 0, u_max := 15, v_max := 5, w := 16, h := 6,
    cog_u := 8, cog_v := 3 }

/-- A default-constructed dot searching the whole 16 x 6 image. -/
def ringDot : vpDot2 := vpDot2.mk0 ringArea

/-- The dot after `computeParameters` on `square3` seeded at (2, 2). -/
def square3Dot : vpDot2 :=
  { dot5 with cog_ufloat := 2, cog_vfloat := 2, width := 2, height := 2, surface := 4,
              m00 := 4, m10 := 8, m01 := 8,
              direction_list := [6, 6, 4, 4, 2, 2, 0, 0, 6],
              u_list := [3, 3, 2, 1, 1, 1, 2, 3, 3],
              v_list := [2, 1, 1, 1, 2, 3, 3, 3, 2] }

/-- The dot after the failed `computeParameters` on `square2` seeded at (1, 1). -/
def square2Dot : vpDot2 :=
  { dot5 with m00 := 1, m10 := 3 / 2, m01 := 3 / 2,
              direction_list := [4, 4, 2, 0, 6],
              u_list := [2, 1, 1, 2, 2],
              v_list := [1, 1, 2, 2, 1] }

/-- A dot constructed at (0, 2), as `vpDot2(0, 2)`, searching the whole 16 x 6 image. -/
def ringSeeded : vpDot2 := { ringDot with cog_ufloat := 0, cog_vfloat := 2 }

/-- The dot after the first rounded `computeParameters` on `ring` seeded at (0, 2), or at
    (9, 2). -/
def ringDot1 : vpDot2 :=
  { ringDot with cog_ufloat := 6473924277607379 / 562949953421312,
                 cog_vfloat := 5629499595486431 / 2251799813685248,
                 width := 5, height := 5, surface := -23,
                 m00 := -23, m10 := -34668543 / 131072, m01 := -1929379861 / 33554432,
                 direction_list := [6, 6, 7, 0, 0, 0, 1, 2, 2, 2, 3, 4, 4, 4, 5, 6, 6],
                 u_list := [9, 9, 10, 11, 12, 13, 14, 14, 14, 14, 13, 12, 11, 10, 9, 9, 9],
                 v_list := [2, 1, 0, 0, 0, 0, 1, 2, 3, 4, 5, 5, 5, 5, 4, 3, 2] }

/-- A 5010 x 8 image: the 4 x 4 square of columns 5002..5005 and rows 2..5 at 255, the
    rest 0. -/
def farSquare : Image :=
  { cols := 5010, rows := 8,
    pix := fun u v => if 5002 ≤ u ∧ u ≤ 5005 ∧ 2 ≤ v ∧ v ≤ 5 then 255 else 0 }

/-- A default-constructed dot searching the whole 5010 x 8 image. -/
def farDot : vpDot2 :=
  vpDot2.mk0 { u_min := 0, v_min := 0, u_max := 5009, v_max := 7, w := 5010, h := 8,
               cog_u := 2505, cog_v := 4 }

/-- The dot after the rounded `computeParameters` on `farSquare` seeded at (5003, 3). -/
def farDot1 : vpDot2 :=
  { farDot with cog_ufloat := 5501223177639253 / 1099511627776, cog_vfloat := 7 / 2,
                width := 3, height := 3, surface := 9,
                m00 := 9, m10 := 45030, m01 := 63 / 2,
                direction_list := [6, 6, 4, 4, 4, 2, 2, 2, 0, 0, 0, 6, 6],
                u_list := [5005, 5005, 5004, 5003, 5002, 5002, 5002, 5002, 5003, 5004, 5005,
                           5005, 5005],
                v_list := [3, 2, 2, 2, 2, 3, 4, 5, 5, 5, 5, 4, 3] }

/-- The area `[0, 12] x [0, 12]`, as `setArea(I)` computes it on a 13 x 13 image. -/
def area13 : vpAreaType :=
  { u_min := 0, v_min := 0, u_max := 12, v_max := 12, w := 13, h := 13,
    cog_u := 13 / 2, cog_v := 13 / 2 }

/-- A default-constructed dot searching a whole 13 x 13 image. -/
def dot13 : vpDot2 := vpDot2.mk0 area13

/-- A 13 x 13 image: the 11 x 11 square of columns 1..11 and rows 1..11 at 255, the
    rest 0. -/
def square11 : Image :=
  { cols := 13, rows := 13,
    pix := fun u v => if 1 ≤ u ∧ u ≤ 11 ∧ 1 ≤ v ∧ v ≤ 11 then 255 else 0 }

/-- The dot `square3Dot` after a failed `computeParameters` on `single` seeded at (3, 2). -/
def lostDot : vpDot2 :=
  { square3Dot with m00 := 0, m10 := 9 / 2, m01 := 0,
                    direction_list := [6, 6], u_list := [3, 3], v_list := [2, 1] }

end Sample

/-! ## Concrete inputs for the search and for `track` -/

namespace Sample

/-- The Taylor polynomial of degree 29 of the sine at 0; on the angles 0 to 6.3 that
    `isValid` uses it is within 1e-6 of the sine. -/
def sinT (x : ℚ) : ℚ :=
  ((List.range 15).map fun k =>
    (-1 : ℚ) ^ k * x ^ (2 * k + 1) / (Nat.factorial (2 * k + 1) : ℚ)).sum

/-- The Taylor polynomial of degree 28 of the cosine at 0. -/
def cosT (x : ℚ) : ℚ :=
  ((List.range 15).map fun k =>
    (-1 : ℚ) ^ k * x ^ (2 * k) / (Nat.factorial (2 * k) : ℚ)).sum

/-- The two functions of `<math.h>` for the closed statements. -/
def trig : Trig := ⟨sinT, cosT⟩

/-- An 8 x 8 image with three blobs of three pixels each at 255, the rest 0: the pixels
    (0,0), (1,0), (0,1); the pixels (6,0), (7,0), (6,1); the pixels (2,2), (3,2), (2,3)
    (column first). -/
def blobs : Image :=
  { cols := 8, rows := 8,
    pix := fun u v =>
      if (u = 0 ∧ v = 0) ∨ (u = 1 ∧ v = 0) ∨ (u = 0 ∧ v = 1) ∨
         (u = 6 ∧ v = 0) ∨ (u = 7 ∧ v = 0) ∨ (u = 6 ∧ v = 1) ∨
         (u = 2 ∧ v = 2) ∨ (u = 3 ∧ v = 2) ∨ (u = 2 ∧ v = 3) then 255 else 0 }

/-- A reference dot for `blobs`: a default-constructed dot after `setWidth(1)`,
    `setHeight(1)`, `setSurface(0.5)` and `setOutLevel(256)`, a level every pixel is
    below. -/
def blobRef : vpDot2 :=
  ((((vpDot2.mk0 area10).setWidth 1).setHeight 1).setSurface (1 / 2)).setOutLevel 256

/-- The result of `searchDotsInArea(I, 0, 0, 8, 8)` on `blobs` for `blobRef`. -/
def blobSearch : vpDot2 × List vpDot2 :=
  (blobRef.searchDotsInArea trig 100 blobs 0 0 8 8).getD (blobRef, [])

/-- A reference dot for `square11`: a default-constructed dot after `setWidth(10)`,
    `setHeight(10)`, `setSurface(100)` and `setAccuracy(0.5)`. -/
def ref11 : vpDot2 := (((dot13.setWidth 10).setHeight 10).setSurface 100).setAccuracy (1 / 2)

/-- The result of `searchDotsInArea(I, 0, 0, 13, 13)` on `square11` for `ref11`. -/
def search11 : vpDot2 × List vpDot2 :=
  (ref11.searchDotsInArea trig 100 square11 0 0 13 13).getD (ref11, [])

/-- A default-constructed dot after `setWidth(-5)`. -/
def negDot : vpDot2 := (vpDot2.mk0 area10).setWidth (-5)

/-- The dot `ref11` placed at (0, 0), a dark pixel of `square11`. -/
def strayDot : vpDot2 := (ref11.set_u 0).set_v 0

/-- The result of `track` on `square11` for `strayDot`. -/
def strayTrack : TrackResult :=
  (strayDot.track trig 100 square11).getD (TrackResult.featureLostError strayDot)

/-- The dot `strayDot` after `setWidth(0)`: no 11 x 11 square is valid for it. -/
def flatDot : vpDot2 := strayDot.setWidth 0

/-- The result of `track` on `square11` for `flatDot`. -/
def flatTrack : TrackResult :=
  (flatDot.track trig 100 square11).getD (TrackResult.returned flatDot)

end Sample

/-! ## Concrete inputs for the whole-image search, the image border and the levels -/

namespace Sample

/-- A 13 x 13 image: the 11 x 11 square of columns 2..12 and rows 1..11 at 255, the rest
    0; the square touches the last column. -/
def edge11 : Image :=
  { cols := 13, rows := 13,
    pix := fun u v => if 2 ≤ u ∧ u ≤ 12 ∧ 1 ≤ v ∧ v ≤ 11 then 255 else 0 }

end Sample

namespace Sample

/-- A dot at the centre (6, 6) of the square of `square11`, its accuracy the `double`
    nearest to 0.6. -/
def dot06 : vpDot2 :=
  ((dot13.set_u 6).set_v 6).setAccuracy (5404319552844595 / 9007199254740992)

/-- The result of `track` on `square11` for `dot06`. -/
def track06 : TrackResult :=
  (dot06.track trig 100 square11).getD (TrackResult.featureLostError dot06)

/-- The dot `strayDot` with the in level asked as 10, after `track` on `square11`. -/
def lowTrack : TrackResult :=
  ((strayDot.setInLevel 10).track trig 100 square11).getD (TrackResult.returned strayDot)

end Sample

/-! ## Invariants used in the proofs -/

namespace vpDot2

/-- The pixels of good level are exactly the square of corners `(u0, v0)` and
    `(u0 + m, v0 + m)`, which lies in the image. -/
def SquareBlob (d : vpDot2) (I : Image) (u0 v0 m : Int) : Prop :=
  1 ≤ m ∧ 0 ≤ u0 ∧ 0 ≤ v0 ∧ u0 + m < I.cols ∧ v0 + m < I.rows ∧
  ∀ x y : Int, d.hasGoodLevel I x y = true ↔ (u0 ≤ x ∧ x ≤ u0 + m ∧ v0 ≤ y ∧ y ≤ v0 + m)

/-- The state of the border walk around the square: position, direction, the three
    low-order moments, extremes inside the square, and the sides already touched. -/
def SqInv (u0 v0 m x y c : Int) (a00 a10 a01 : ℚ) (tuL tuU tvL tvU : Prop)
    (s : BorderState) : Prop :=
  s.border_u = x ∧ s.border_v = y ∧ s.dir = c ∧ s.m00 = a00 ∧ s.m10 = a10 ∧ s.m01 = a01 ∧
  u0 ≤ s.u_min ∧ s.u_max ≤ u0 + m ∧ v0 ≤ s.v_min ∧ s.v_max ≤ v0 + m ∧
  (tuL → s.u_min ≤ u0) ∧ (tuU → u0 + m ≤ s.u_max) ∧
  (tvL → s.v_min ≤ v0) ∧ (tvU → v0 + m ≤ s.v_max)

end vpDot2

namespace vpDot2

/-- The state at the top of an iteration heads for a pixel of good level with a code in
    0..7. -/
def Heading (d : vpDot2) (I : Image) (s : BorderState) : Prop :=
  0 ≤ s.dir ∧ s.dir ≤ 7 ∧ d.probe I s.border_u s.border_v s.dir = true

end vpDot2

namespace vpDot2

/-- The loop invariant behind the recorded border: the three lists have the same length,
    they end with the current border pixel, every recorded pixel has a good level, two
    consecutive entries are one unit step apart, and the current code is in 0..7. -/
def ChainInv (d : vpDot2) (I : Image) (fu fv : Int) (s : BorderState) : Prop :=
  0 ≤ s.dir ∧ s.dir ≤ 7 ∧
  ∃ (tu tv td : List Int) (c : Int),
    s.u_list = tu ++ [s.border_u] ∧ s.v_list = tv ++ [s.border_v] ∧
    s.direction_list = td ++ [c] ∧ tu.length = tv.length ∧ tv.length = td.length ∧
    (∃ ru rv, s.u_list = fu :: ru ∧ s.v_list = fv :: rv) ∧
    (∀ p ∈ List.zip s.u_list (List.zip s.v_list s.direction_list),
      d.hasGoodLevel I p.1 p.2.1 = true) ∧
    (List.zip s.u_list (List.zip s.v_list s.direction_list)).Chain' StepTo

end vpDot2

namespace vpDot2

/-- The position and the code with which the next iteration of the border loop starts, from
    the position and the code `h` with which an iteration starts: the step of the code,
    then the chain element computed at the pixel reached. -/
def headStep (d : vpDot2) (I : Image) (h : Int × Int × Int) : Int × Int × Int :=
  ((updateFreemanPosition h.1 h.2.1 h.2.2).1, (updateFreemanPosition h.1 h.2.1 h.2.2).2,
   (d.computeFreemanChainElement I (updateFreemanPosition h.1 h.2.1 h.2.2).1
      (updateFreemanPosition h.1 h.2.1 h.2.2).2 h.2.2).2)

/-- What holds of the position and the code `h = (u, v, c)` at the top of every iteration:
    the pixel has a good level, its neighbour of code c too, its neighbour of code c + 1
    has not, and for an even c neither has its neighbour of code c + 2. -/
def HeadInv (d : vpDot2) (I : Image) (h : Int × Int × Int) : Prop :=
  0 ≤ h.2.2 ∧ h.2.2 ≤ 7 ∧ d.hasGoodLevel I h.1 h.2.1 = true ∧
  d.probe I h.1 h.2.1 h.2.2 = true ∧
  d.probe I h.1 h.2.1 ((h.2.2 + 1) % 8) = false ∧
  (h.2.2 % 2 = 0 → d.probe I h.1 h.2.1 ((h.2.2 + 2) % 8) = false)

/-- Two states of the border loop that differ at most in the second-order moments. -/
def SameFirst (s t : BorderState) : Prop :=
  t.border_u = s.border_u ∧ t.border_v = s.border_v ∧ t.dir = s.dir ∧
  t.u_min = s.u_min ∧ t.u_max = s.u_max ∧ t.v_min = s.v_min ∧ t.v_max = s.v_max ∧
  t.direction_list = s.direction_list ∧ t.u_list = s.u_list ∧ t.v_list = s.v_list ∧
  t.m00 = s.m00 ∧ t.m10 = s.m10 ∧ t.m01 = s.m01

/-- The state `s` of the exact walk and the state `t` of the rounded walk after `N`
    iterations round a rectangle of good pixels: they differ at most in the second-order
    moments, the exact state is of the invariant `HeadInv`, and the three low-order moments
    are halves of integers of absolute value at most `N * 2 ^ 24`. -/
def SimInv (d : vpDot2) (I : Image) (N : Nat) (s t : BorderState) : Prop :=
  SameFirst s t ∧ HeadInv d I (s.border_u, s.border_v, s.dir) ∧
  ∃ a b c : Int, s.m00 = (a : ℚ) / 2 ∧ s.m10 = (b : ℚ) / 2 ∧ s.m01 = (c : ℚ) / 2 ∧
    |a| ≤ N * 2 ^ 24 ∧ |b| ≤ N * 2 ^ 24 ∧ |c| ≤ N * 2 ^ 24

end vpDot2

/-! ## Theorems -/

namespace vpDot2

/-! ### Rounding -/

theorem log2Aux_spec : ∀ (fuel n : Nat), 1 ≤ n → n ≤ fuel →
    2 ^ log2Aux fuel n ≤ n ∧ n < 2 ^ (log2Aux fuel n + 1) := by
  intro fuel
  induction fuel with
  | zero => intro n h1 h2; omega
  | succ f ih =>
    intro n h1 h2
    rw [log2Aux]
    split_ifs with h
    · have e : n = 1 := by omega
      subst e
      exact ⟨by norm_num, by norm_num⟩
    · obtain ⟨a, b⟩ := ih (n / 2) (by omega) (by omega)
      have e1 : 2 ^ (log2Aux f (n / 2) + 1) = 2 * 2 ^ log2Aux f (n / 2) := by
        rw [pow_succ]; ring
      have e2 : 2 ^ (log2Aux f (n / 2) + 1 + 1) = 2 * 2 ^ (log2Aux f (n / 2) + 1) := by
        rw [pow_succ]; ring
      rw [e1] at b
      rw [e2, e1]
      constructor <;> omega

/-- The binary exponent brackets a positive rational between two powers of two. -/
theorem ilog2_spec (a : ℚ) (ha : 0 < a) :
    (2 : ℚ) ^ ilog2 a ≤ a ∧ a < (2 : ℚ) ^ (ilog2 a + 1) := by
  have hn : 0 < a.num := Rat.num_pos.2 ha
  have hd : 0 < a.den := a.den_pos
  obtain ⟨n1, n2⟩ := log2Aux_spec a.num.natAbs a.num.natAbs (by omega) le_rfl
  obtain ⟨d1, d2⟩ := log2Aux_spec a.den a.den (by omega) le_rfl
  have ea : a = (a.num.natAbs : ℚ) / (a.den : ℚ) := by
    have h1 : ((a.num.natAbs : Int) : ℚ) = (a.num : ℚ) := by
      rw [Int.natCast_natAbs, abs_of_pos hn]
    have h2 : ((a.num.natAbs : Nat) : ℚ) = ((a.num.natAbs : Int) : ℚ) :=
      (Int.cast_natCast _).symm
    rw [h2, h1]
    exact (Rat.num_div_den a).symm
  have hdq : (0 : ℚ) < (a.den : ℚ) := by exact_mod_cast hd
  have n1q : (2 : ℚ) ^ log2Aux a.num.natAbs a.num.natAbs ≤ (a.num.natAbs : ℚ) := by
    exact_mod_cast n1
  have n2q : (a.num.natAbs : ℚ) < (2 : ℚ) ^ (log2Aux a.num.natAbs a.num.natAbs + 1) := by
    exact_mod_cast n2
  have d1q : (2 : ℚ) ^ log2Aux a.den a.den ≤ (a.den : ℚ) := by exact_mod_cast d1
  have d2q : (a.den : ℚ) < (2 : ℚ) ^ (log2Aux a.den a.den + 1) := by exact_mod_cast d2
  have hlow : (2 : ℚ) ^ ((log2Aux a.num.natAbs a.num.natAbs : Int)
      - (log2Aux a.den a.den : Int) - 1) ≤ a := by
    have e : (2 : ℚ) ^ ((log2Aux a.num.natAbs a.num.natAbs : Int)
        - (log2Aux a.den a.den : Int) - 1)
        = (2 : ℚ) ^ log2Aux a.num.natAbs a.num.natAbs
          / (2 : ℚ) ^ (log2Aux a.den a.den + 1) := by
      rw [← zpow_natCast, ← zpow_natCast, ← zpow_sub₀ (by norm_num : (2 : ℚ) ≠ 0)]
      congr 1
      push_cast
      ring
    rw [e]
    conv_rhs => rw [ea]
    exact div_le_div₀ (by positivity) n1q hdq d2q.le
  have hhigh : a < (2 : ℚ) ^ ((log2Aux a.num.natAbs a.num.natAbs : Int)
      - (log2Aux a.den a.den : Int) + 1) := by
    have e : (2 : ℚ) ^ ((log2Aux a.num.natAbs a.num.natAbs : Int)
        - (log2Aux a.den a.den : Int) + 1)
        = (2 : ℚ) ^ (log2Aux a.num.natAbs a.num.natAbs + 1)
          / (2 : ℚ) ^ log2Aux a.den a.den := by
      rw [← zpow_natCast, ← zpow_natCast, ← zpow_sub₀ (by norm_num : (2 : ℚ) ≠ 0)]
      congr 1
      push_cast
      ring
    rw [e]
    conv_lhs => rw [ea]
    exact div_lt_div₀ n2q d1q (by positivity) (by positivity)
  unfold ilog2
  simp only []
  split_ifs with h
  · exact ⟨h, hhigh⟩
  · refine ⟨hlow, ?_⟩
    have e : (log2Aux a.num.natAbs a.num.natAbs : Int) - (log2Aux a.den a.den : Int) - 1 + 1
        = (log2Aux a.num.natAbs a.num.natAbs : Int) - (log2Aux a.den a.den : Int) := by ring
    rw [e]
    exact not_le.1 h

theorem roundHalfEven_intCast (n : Int) : roundHalfEven (n : ℚ) = n := by
  unfold roundHalfEven
  simp

theorem roundHalfEven_nonneg (y : ℚ) (hy : 0 ≤ y) : 0 ≤ roundHalfEven y := by
  have hf : 0 ≤ ⌊y⌋ := Int.floor_nonneg.2 hy
  unfold roundHalfEven
  simp only []
  split_ifs <;> omega

/-- Rounding keeps the sign. -/
theorem roundTo_nonneg (p : Nat) (x : ℚ) (hx : 0 ≤ x) : 0 ≤ roundTo p x := by
  unfold roundTo
  split_ifs with h0 hpos
  · exact le_refl _
  · simp only []
    have h1 : 0 ≤ roundHalfEven (|x| / (2 : ℚ) ^ (ilog2 |x| - p + 1)) :=
      roundHalfEven_nonneg _ (div_nonneg (abs_nonneg x) (by positivity))
    have h2 : (0 : ℚ) ≤ (roundHalfEven (|x| / (2 : ℚ) ^ (ilog2 |x| - p + 1)) : ℚ) := by
      exact_mod_cast h1
    exact mul_nonneg h2 (by positivity)
  · exact absurd (lt_of_le_of_ne hx (Ne.symm h0)) hpos

/-- A number with at most `p` significant bits is not changed by rounding: `m * 2 ^ j`
    with `|m| < 2 ^ p`. -/
theorem roundTo_exact (p : Nat) (m j : Int) (hm : |m| < 2 ^ p) :
    roundTo p ((m : ℚ) * (2 : ℚ) ^ j) = (m : ℚ) * (2 : ℚ) ^ j := by
  by_cases hm0 : m = 0
  · subst hm0
    simp [roundTo]
  have h2 : (0 : ℚ) < (2 : ℚ) ^ j := by positivity
  have hx0 : (m : ℚ) * (2 : ℚ) ^ j ≠ 0 :=
    mul_ne_zero (by exact_mod_cast hm0) h2.ne'
  have habs : |(m : ℚ) * (2 : ℚ) ^ j| = ((|m| : Int) : ℚ) * (2 : ℚ) ^ j := by
    rw [abs_mul, abs_of_pos h2]
    push_cast
    rfl
  have hapos : 0 < |(m : ℚ) * (2 : ℚ) ^ j| := abs_pos.2 hx0
  obtain ⟨hlow, _⟩ := ilog2_spec _ hapos
  have hlt : |(m : ℚ) * (2 : ℚ) ^ j| < (2 : ℚ) ^ ((p : Int) + j) := by
    rw [habs, zpow_add₀ (by norm_num : (2 : ℚ) ≠ 0), zpow_natCast]
    have : ((|m| : Int) : ℚ) < (2 : ℚ) ^ p := by exact_mod_cast hm
    exact mul_lt_mul_of_pos_right this h2
  have he : ilog2 |(m : ℚ) * (2 : ℚ) ^ j| < (p : Int) + j := by
    have := lt_of_le_of_lt hlow hlt
    exact (zpow_lt_zpow_iff_right₀ (by norm_num : (1 : ℚ) < 2)).1 this
  unfold roundTo
  rw [if_neg hx0]
  generalize ilog2 |(m : ℚ) * (2 : ℚ) ^ j| = e at he
  obtain ⟨n, hn⟩ : ∃ n : Nat, (n : Int) = j - (e - p + 1) :=
    ⟨(j - (e - p + 1)).toNat, Int.toNat_of_nonneg (by omega)⟩
  have hscaled : |(m : ℚ) * (2 : ℚ) ^ j| / (2 : ℚ) ^ (e - p + 1)
      = ((|m| * 2 ^ n : Int) : ℚ) := by
    rw [habs, mul_div_assoc, ← zpow_sub₀ (by norm_num : (2 : ℚ) ≠ 0), ← hn, zpow_natCast]
    push_cast
    rfl
  have hback : ((|m| * 2 ^ n : Int) : ℚ) * (2 : ℚ) ^ (e - p + 1)
      = |(m : ℚ) * (2 : ℚ) ^ j| := by
    rw [← hscaled]
    field_simp
  simp only []
  rw [hscaled, roundHalfEven_intCast, hback]
  split_ifs with hpos
  · exact abs_of_pos hpos
  · rw [abs_of_neg (lt_of_le_of_ne (not_lt.1 hpos) hx0)]
    ring

/-- Integers below `2 ^ 24` in absolute value are `float` values. -/
theorem toFloat_int (z : Int) (h : |z| < 2 ^ 24) : toFloat (z : ℚ) = z := by
  have := roundTo_exact 24 z 0 h
  simpa [toFloat] using this

/-- Halves of integers below `2 ^ 24` in absolute value are `float` values. -/
theorem toFloat_half (z : Int) (h : |z| < 2 ^ 24) : toFloat ((z : ℚ) / 2) = (z : ℚ) / 2 := by
  have := roundTo_exact 24 z (-1) h
  have e : (z : ℚ) * (2 : ℚ) ^ (-1 : Int) = (z : ℚ) / 2 := by
    rw [zpow_neg_one]; ring
  rw [e] at this
  exact this

/-- Halves of integers below `2 ^ 53` in absolute value are `double` values. -/
theorem toDouble_half (z : Int) (h : |z| < 2 ^ 53) :
    toDouble ((z : ℚ) / 2) = (z : ℚ) / 2 := by
  have := roundTo_exact 53 z (-1) h
  have e : (z : ℚ) * (2 : ℚ) ^ (-1 : Int) = (z : ℚ) / 2 := by
    rw [zpow_neg_one]; ring
  rw [e] at this
  exact this

theorem toDouble_nonneg (x : ℚ) (hx : 0 ≤ x) : 0 ≤ toDouble x := roundTo_nonneg 53 x hx

end vpDot2

namespace vpDot2

/-! ### Freeman increments -/

/-- The steps `du`, `dv` that `computeFreemanParameters` writes are the unit step of the
    code, for every code in 0..7. -/
theorem computeFreemanParameters_step (d : vpDot2) (u_p v_p c : Int) (h0 : 0 ≤ c)
    (h7 : c ≤ 7) :
    (d.computeFreemanParameters u_p v_p c).du = (Green.unitStep c).1 ∧
    (d.computeFreemanParameters u_p v_p c).dv = (Green.unitStep c).2 := by
  interval_cases c <;>
    simp [computeFreemanParameters, Green.unitStep, updateFreemanPosition]

/-- The second-order increments agree with the boundary integrals for every code and
    increment except `dMu2` of code 3 and `dMv2` of code 5. -/
theorem computeFreemanParameters_second_order (d : vpDot2) (u_p v_p c : Int)
    (hm : d.compute_moment = true) (h0 : 0 ≤ c) (h7 : c ≤ 7) :
    (d.computeFreemanParameters u_p v_p c).dMuv
        = Green.dMuv (Green.unitStep c).1 (Green.unitStep c).2 u_p v_p ∧
    (c ≠ 3 → (d.computeFreemanParameters u_p v_p c).dMu2
        = Green.dMu2 (Green.unitStep c).1 (Green.unitStep c).2 u_p v_p) ∧
    (c ≠ 5 → (d.computeFreemanParameters u_p v_p c).dMv2
        = Green.dMv2 (Green.unitStep c).1 (Green.unitStep c).2 u_p v_p) := by
  interval_cases c <;> refine ⟨?_, ?_, ?_⟩ <;>
    simp [computeFreemanParameters, Green.unitStep, updateFreemanPosition, Green.dMuv,
      Green.dMu2, Green.dMv2, hm] <;> ring

/-- C1 (code defect): with moment computation enabled, at the border pixel (2, 5) the
    increment `dMu2` of code 3 is -17/12 while the boundary integral is -5/4, and the
    increment `dMv2` of code 5 is -371/12 while the boundary integral is -123/4: the constant
    1/12 has the wrong sign in both. -/
theorem freeman_second_order_defect :
    (Sample.momentDot.computeFreemanParameters 2 5 3).dMu2 = -17 / 12 ∧
    Green.dMu2 (Green.unitStep 3).1 (Green.unitStep 3).2 2 5 = -5 / 4 ∧
    (Sample.momentDot.computeFreemanParameters 2 5 5).dMv2 = -371 / 12 ∧
    Green.dMv2 (Green.unitStep 5).1 (Green.unitStep 5).2 2 5 = -123 / 4 := by
  decide!

/-- C2: for every code c in 0..7 and every previous border pixel (u_p, v_p), the step
    written by `computeFreemanParameters` is the unit step (du, dv) of c and the area and
    first-order increments are the boundary integrals dS = du*(v_p + dv/2),
    dMu = -dv*(u_p^2 + du*u_p + du^2/3)/2 and dMv = du*(v_p^2 + dv*v_p + dv^2/3)/2. -/
theorem freeman_first_order_exact (d : vpDot2) (u_p v_p c : Int) (h0 : 0 ≤ c) (h7 : c ≤ 7) :
    (d.computeFreemanParameters u_p v_p c).du = (Green.unitStep c).1 ∧
    (d.computeFreemanParameters u_p v_p c).dv = (Green.unitStep c).2 ∧
    (d.computeFreemanParameters u_p v_p c).dS
        = Green.dS (Green.unitStep c).1 (Green.unitStep c).2 u_p v_p ∧
    (d.computeFreemanParameters u_p v_p c).dMu
        = Green.dMu (Green.unitStep c).1 (Green.unitStep c).2 u_p v_p ∧
    (d.computeFreemanParameters u_p v_p c).dMv
        = Green.dMv (Green.unitStep c).1 (Green.unitStep c).2 u_p v_p := by
  interval_cases c <;> refine ⟨?_, ?_, ?_, ?_, ?_⟩ <;>
    simp [computeFreemanParameters, Green.unitStep, updateFreemanPosition, Green.dS,
      Green.dMu, Green.dMv] <;> ring

/-- Witness of C2: code 5 from the border pixel (3, 4). -/
theorem freeman_first_order_exact_witness :
    (Sample.momentDot.computeFreemanParameters 3 4 5).du = (Green.unitStep 5).1 ∧
    (Sample.momentDot.computeFreemanParameters 3 4 5).dv = (Green.unitStep 5).2 ∧
    (Sample.momentDot.computeFreemanParameters 3 4 5).dS
        = Green.dS (Green.unitStep 5).1 (Green.unitStep 5).2 (3 : Int) (4 : Int) ∧
    (Sample.momentDot.computeFreemanParameters 3 4 5).dMu
        = Green.dMu (Green.unitStep 5).1 (Green.unitStep 5).2 (3 : Int) (4 : Int) ∧
    (Sample.momentDot.computeFreemanParameters 3 4 5).dMv
        = Green.dMv (Green.unitStep 5).1 (Green.unitStep 5).2 (3 : Int) (4 : Int) :=
  freeman_first_order_exact Sample.momentDot 3 4 5 (by decide) (by decide)

/-! ### The search area -/

theorem isInArea_iff (d : vpDot2) (I : Image) (u v : Int) :
    d.isInArea I u v = true ↔
      d.area.u_min ≤ u ∧ u ≤ d.area.u_max ∧ d.area.v_min ≤ v ∧ v ≤ d.area.v_max := by
  unfold isInArea
  split_ifs <;> simp <;> omega

theorem hasGoodLevel_iff (d : vpDot2) (I : Image) (u v : Int) :
    d.hasGoodLevel I u v = true ↔ d.isInArea I u v = true ∧ d.inLevel < (I.pix u v : Int) := by
  unfold hasGoodLevel
  cases h : d.isInArea I u v <;> simp

theorem hasGoodLevel_isInArea {d : vpDot2} {I : Image} {u v : Int}
    (h : d.hasGoodLevel I u v = true) : d.isInArea I u v = true :=
  ((hasGoodLevel_iff d I u v).1 h).1

theorem chain_true_good {d : vpDot2} {I : Image} {u v e : Int}
    (h : (d.computeFreemanChainElement I u v e).1 = true) : d.hasGoodLevel I u v = true := by
  unfold computeFreemanChainElement at h
  by_contra hg
  simp [hg] at h

theorem chain_not_good (d : vpDot2) (I : Image) (u v e : Int)
    (h : d.hasGoodLevel I u v = false) :
    d.computeFreemanChainElement I u v e = (false, e) := by
  unfold computeFreemanChainElement
  simp [h]

@[simp] theorem clearBorder_isInArea (d : vpDot2) (I : Image) (u v : Int) :
    d.clearBorder.isInArea I u v = d.isInArea I u v := rfl

@[simp] theorem clearBorder_hasGoodLevel (d : vpDot2) (I : Image) (u v : Int) :
    d.clearBorder.hasGoodLevel I u v = d.hasGoodLevel I u v := rfl

/-- One iteration of the border-following loop whose chain element is not found. -/
theorem followBorder_succ_false (d : vpDot2) (I : Image) (fu fv fd : Int) (n : Nat)
    (s : BorderState) (e : Int)
    (h : d.computeFreemanChainElement I (d.advance s).border_u (d.advance s).border_v
      (d.advance s).dir = (false, e)) :
    d.followBorder I fu fv fd (n + 1) s = some (false, d.advance s) := by
  rw [followBorder]
  simp [h]

/-- One iteration of the border-following loop whose chain element is found: the loop exits
    exactly when the walk is back at the first border pixel with the first direction. -/
theorem followBorder_succ_true (d : vpDot2) (I : Image) (fu fv fd : Int) (n : Nat)
    (s : BorderState) (e : Int)
    (h : d.computeFreemanChainElement I (d.advance s).border_u (d.advance s).border_v
      (d.advance s).dir = (true, e)) :
    d.followBorder I fu fv fd (n + 1) s =
      if fu = (d.advance s).border_u ∧ fv = (d.advance s).border_v ∧ fd = e then
        some (true, { d.advance s with dir := e })
      else d.followBorder I fu fv fd n { d.advance s with dir := e } := by
  have hg : d.hasGoodLevel I (d.advance s).border_u (d.advance s).border_v = true :=
    chain_true_good (by rw [h])
  have ha := hasGoodLevel_isInArea hg
  rw [followBorder]
  simp only [h, ha, and_true]
  by_cases hc : fu = (d.advance s).border_u ∧ fv = (d.advance s).border_v ∧ fd = e
  · obtain ⟨h1, h2, h3⟩ := hc
    simp [h1, h2, h3]
  · rw [if_neg hc]
    have hc2 : fu ≠ (d.advance s).border_u ∨ fv ≠ (d.advance s).border_v ∨ fd ≠ e := by
      by_contra hn
      simp only [not_or, not_not] at hn
      exact hc hn
    simp [hc2]

/-- Induction principle for the border-following loop: if every completed iteration takes a
    loop-head state with `P` to a state with `Q`, and `Q` implies `P`, then `Q` holds at the
    normal exit, where moreover the walk is back at the first border pixel with the first
    direction. -/
theorem followBorder_true_induct (d : vpDot2) (I : Image) (fu fv fd : Int)
    (P Q : BorderState → Prop)
    (hstep : ∀ s e, P s →
      d.computeFreemanChainElement I (d.advance s).border_u (d.advance s).border_v
        (d.advance s).dir = (true, e) → Q { d.advance s with dir := e })
    (hQP : ∀ s, Q s → P s) :
    ∀ (fuel : Nat) (s r : BorderState), P s →
      d.followBorder I fu fv fd fuel s = some (true, r) →
      Q r ∧ r.border_u = fu ∧ r.border_v = fv ∧ r.dir = fd := by
  intro fuel
  induction fuel with
  | zero => intro s r _ h; simp [followBorder] at h
  | succ n ih =>
    intro s r hP h
    rcases hc : d.computeFreemanChainElement I (d.advance s).border_u (d.advance s).border_v
      (d.advance s).dir with ⟨b, e⟩
    cases b with
    | false =>
      rw [followBorder_succ_false d I fu fv fd n s e hc] at h
      simp at h
    | true =>
      rw [followBorder_succ_true d I fu fv fd n s e hc] at h
      split_ifs at h with hx
      · simp only [Option.some.injEq, Prod.mk.injEq, true_and] at h
        subst h
        exact ⟨hstep s e hP hc, hx.1.symm, hx.2.1.symm, hx.2.2.symm⟩
      · exact ih _ r (hQP _ (hstep s e hP hc)) h

theorem findFirstBorder_succ (d : vpDot2) (I : Image) (est_u : ℚ) (v : Int) (n : Nat)
    (x : Int) :
    d.findFirstBorder I est_u v (n + 1) x =
      if d.hasGoodLevel I (x + 1) v ∧ x < d.area.u_max then
        if d.width > 0 ∧ |est_u - (x : ℚ)| > d.width / d.accuracy then none
        else d.findFirstBorder I est_u v n (x + 1)
      else some x := by
  rw [findFirstBorder]

/-- The recursion depth given to the rightward scan is enough: once `n` covers the
    distance to `area.u_max`, one more unit changes nothing (at depth 0 the loop condition
    `firstBorder_u < area.u_max` is false). -/
theorem findFirstBorder_enough (d : vpDot2) (I : Image) (est_u : ℚ) (v : Int) :
    ∀ (n : Nat) (x : Int), d.area.u_max - x ≤ n →
      d.findFirstBorder I est_u v (n + 1) x = d.findFirstBorder I est_u v n x := by
  intro n
  induction n with
  | zero =>
    intro x h
    have hc : ¬ (d.hasGoodLevel I (x + 1) v = true ∧ x < d.area.u_max) := by
      intro hc; have := hc.2; omega
    rw [findFirstBorder_succ, if_neg hc]
    rfl
  | succ n ih =>
    intro x h
    rw [findFirstBorder_succ, ih (x + 1) (by omega), ← findFirstBorder_succ]

/-- More iterations allowed do not change the outcome of the border-following loop. -/
theorem followBorder_mono (d : vpDot2) (I : Image) (fu fv fd : Int) (k : Nat) :
    ∀ (fuel : Nat) (s : BorderState) (r : Bool × BorderState),
      d.followBorder I fu fv fd fuel s = some r →
      d.followBorder I fu fv fd (fuel + k) s = some r := by
  intro fuel
  induction fuel with
  | zero => intro s r h; simp [followBorder] at h
  | succ n ih =>
    intro s r h
    have e : n + 1 + k = (n + k) + 1 := by omega
    rw [e]
    rw [followBorder] at h ⊢
    simp only [] at h ⊢
    split_ifs at h ⊢ with h1 h2
    · exact h
    · exact ih _ r h
    · exact h

/-- More iterations allowed do not change the outcome of `computeParameters`: the value
    returned does not depend on the bound once the loop exits within it. -/
theorem computeParameters_mono (fuel k : Nat) (d : vpDot2) (I : Image) (_u _v : ℚ)
    (r : Bool × vpDot2) (h : computeParameters fuel d I _u _v = some r) :
    computeParameters (fuel + k) d I _u _v = some r := by
  unfold computeParameters at h ⊢
  simp only [] at h ⊢
  split_ifs at h ⊢ with h1 h2
  · exact h
  · exact h
  · split at h
    · exact h
    · split_ifs at h ⊢ with h3
      · exact h
      · split at h
        · simp at h
        · rename_i s1 hf
          rw [followBorder_mono _ _ _ _ _ k _ _ _ hf]
          exact h
        · rename_i s1 hf
          rw [followBorder_mono _ _ _ _ _ k _ _ _ hf]
          exact h

/-! ### The structure of `computeParameters` -/

/-- The rightward scan only moves over pixels of good level: started on one, it stops on
    one. -/
theorem findFirstBorder_good (d : vpDot2) (I : Image) (est_u : ℚ) (v : Int) :
    ∀ (n : Nat) (x fb : Int), d.hasGoodLevel I x v = true →
      d.findFirstBorder I est_u v n x = some fb → d.hasGoodLevel I fb v = true := by
  intro n
  induction n with
  | zero =>
    intro x fb hx h
    simp only [findFirstBorder, Option.some.injEq] at h
    rw [← h]; exact hx
  | succ n ih =>
    intro x fb hx h
    rw [findFirstBorder] at h
    split_ifs at h with h1 h2
    · exact ih (x + 1) fb h1.1 h
    · simp only [Option.some.injEq] at h
      rw [← h]; exact hx

/-- The body of `computeParameters` once the seed has a good level and the rightward scan
    has found the first border pixel. -/
theorem computeParameters_of_border (fuel : Nat) (d : vpDot2) (I : Image) (_u _v : ℚ)
    (fb : Int)
    (hg : d.hasGoodLevel I (toInt (estimate d.cog_ufloat _u))
      (toInt (estimate d.cog_vfloat _v)) = true)
    (hb : d.clearBorder.findFirstBorder I (estimate d.cog_ufloat _u)
      (toInt (estimate d.cog_vfloat _v))
      (d.area.u_max - toInt (estimate d.cog_ufloat _u)).toNat
      (toInt (estimate d.cog_ufloat _u)) = some fb) :
    computeParameters fuel d I _u _v =
      match d.clearBorder.followBorder I fb (toInt (estimate d.cog_vfloat _v))
          (d.clearBorder.computeFreemanChainElement I fb
            (toInt (estimate d.cog_vfloat _v)) 6).2 fuel
          (startState I fb (toInt (estimate d.cog_vfloat _v))
            (d.clearBorder.computeFreemanChainElement I fb
              (toInt (estimate d.cog_vfloat _v)) 6).2) with
      | none => none
      | some (false, s1) => some (false, d.clearBorder.store s1)
      | some (true, s1) =>
        some (finish (d.clearBorder.store s1) I s1.u_min s1.u_max s1.v_min s1.v_max) := by
  have ha := hasGoodLevel_isInArea hg
  have hfb : d.clearBorder.hasGoodLevel I fb (toInt (estimate d.cog_vfloat _v)) = true :=
    findFirstBorder_good d.clearBorder I _ _ _ _ fb hg hb
  have hfa := hasGoodLevel_isInArea hfb
  unfold computeParameters
  have e1 : d.clearBorder.cog_ufloat = d.cog_ufloat := rfl
  have e2 : d.clearBorder.cog_vfloat = d.cog_vfloat := rfl
  have e3 : d.clearBorder.area = d.area := rfl
  simp only [e1, e2, e3, clearBorder_isInArea, clearBorder_hasGoodLevel, ha, hg, hb,
    Bool.not_true, Bool.false_eq_true, if_false]
  simp only [clearBorder_isInArea] at hfa
  simp only [hfa, Bool.not_true, Bool.false_eq_true, if_false]

/-- What a successful `computeParameters` went through: a seed of good level, a first
    border pixel, a border walk that closed, and the final checks. -/
theorem computeParameters_true_inv {fuel : Nat} {d : vpDot2} {I : Image} {_u _v : ℚ}
    {d' : vpDot2} (h : computeParameters fuel d I _u _v = some (true, d')) :
    d.hasGoodLevel I (toInt (estimate d.cog_ufloat _u))
      (toInt (estimate d.cog_vfloat _v)) = true ∧
    ∃ fb s1,
      d.clearBorder.findFirstBorder I (estimate d.cog_ufloat _u)
        (toInt (estimate d.cog_vfloat _v))
        (d.area.u_max - toInt (estimate d.cog_ufloat _u)).toNat
        (toInt (estimate d.cog_ufloat _u)) = some fb ∧
      d.clearBorder.followBorder I fb (toInt (estimate d.cog_vfloat _v))
          (d.clearBorder.computeFreemanChainElement I fb
            (toInt (estimate d.cog_vfloat _v)) 6).2 fuel
          (startState I fb (toInt (estimate d.cog_vfloat _v))
            (d.clearBorder.computeFreemanChainElement I fb
              (toInt (estimate d.cog_vfloat _v)) 6).2) = some (true, s1) ∧
      finish (d.clearBorder.store s1) I s1.u_min s1.u_max s1.v_min s1.v_max = (true, d') := by
  by_cases hg : d.hasGoodLevel I (toInt (estimate d.cog_ufloat _u))
      (toInt (estimate d.cog_vfloat _v)) = true
  · refine ⟨hg, ?_⟩
    rcases hb : d.clearBorder.findFirstBorder I (estimate d.cog_ufloat _u)
      (toInt (estimate d.cog_vfloat _v))
      (d.area.u_max - toInt (estimate d.cog_ufloat _u)).toNat
      (toInt (estimate d.cog_ufloat _u)) with _ | fb
    · exfalso
      have ha := hasGoodLevel_isInArea hg
      unfold computeParameters at h
      have e1 : d.clearBorder.cog_ufloat = d.cog_ufloat := rfl
      have e2 : d.clearBorder.cog_vfloat = d.cog_vfloat := rfl
      have e3 : d.clearBorder.area = d.area := rfl
      simp [e1, e2, e3, ha, hg, hb] at h
    · rw [computeParameters_of_border fuel d I _u _v fb hg hb] at h
      refine ⟨fb, ?_⟩
      split at h
      · simp at h
      · simp at h
      · rename_i s1 hs
        exact ⟨s1, rfl, hs, by simpa using h⟩
  · exfalso
    unfold computeParameters at h
    have e1 : d.clearBorder.cog_ufloat = d.cog_ufloat := rfl
    have e2 : d.clearBorder.cog_vfloat = d.cog_vfloat := rfl
    simp only [e1, e2, clearBorder_isInArea, clearBorder_hasGoodLevel] at h
    simp only [Bool.not_eq_true] at hg
    simp [hg] at h

/-- What a successful final check of `computeParameters` establishes and writes. -/
theorem finish_true_inv {d : vpDot2} {I : Image} {u_min u_max v_min v_max : Int}
    {d' : vpDot2} (h : finish d I u_min u_max v_min v_max = (true, d')) :
    d.m00 ≠ 0 ∧ d.m00 ≠ 1 ∧
    d.hasGoodLevel I (toInt (d.m10 / d.m00)) (toInt (d.m01 / d.m00)) = true ∧
    d' = { d with cog_ufloat := d.m10 / d.m00, cog_vfloat := d.m01 / d.m00,
                  width := ((u_max - u_min : Int) : ℚ),
                  height := ((v_max - v_min : Int) : ℚ),
                  surface := d.m00 } := by
  simp only [finish] at h
  split_ifs at h with h1 h2
  · simp at h
  · simp at h
  · simp only [not_or] at h1
    simp only [Bool.not_eq_true', Bool.not_eq_false] at h2
    simp only [Prod.mk.injEq, true_and] at h
    exact ⟨h1.1, h1.2, h2, h.symm⟩

/-- A failed final check leaves the dot as the loop left it. -/
theorem finish_false_inv {d : vpDot2} {I : Image} {u_min u_max v_min v_max : Int}
    {d' : vpDot2} (h : finish d I u_min u_max v_min v_max = (false, d')) : d' = d := by
  simp only [finish] at h
  split_ifs at h with h1 h2
  · simp only [Prod.mk.injEq, true_and] at h; exact h.symm
  · simp only [Prod.mk.injEq, true_and] at h; exact h.symm
  · simp at h

/-- The chain element from direction 6 at a pixel none of whose eight neighbours has a good
    level: not found, direction unchanged. -/
theorem chain_isolated (d : vpDot2) (I : Image) (u v : Int)
    (h : ∀ du dv : Int, -1 ≤ du → du ≤ 1 → -1 ≤ dv → dv ≤ 1 → (du ≠ 0 ∨ dv ≠ 0) →
      d.hasGoodLevel I (u + du) (v + dv) = false) :
    d.computeFreemanChainElement I u v 6 = (false, 6) := by
  have p0 : d.probe I u v 0 = false := by
    simpa [probe, updateFreemanPosition] using h 1 0
  have p1 : d.probe I u v 1 = false := by
    simpa [probe, updateFreemanPosition] using h 1 1
  have p2 : d.probe I u v 2 = false := by
    simpa [probe, updateFreemanPosition] using h 0 1
  have p3 : d.probe I u v 3 = false := by
    simpa [probe, updateFreemanPosition, sub_eq_add_neg] using h (-1) 1
  have p4 : d.probe I u v 4 = false := by
    simpa [probe, updateFreemanPosition, sub_eq_add_neg] using h (-1) 0
  have p5 : d.probe I u v 5 = false := by
    simpa [probe, updateFreemanPosition, sub_eq_add_neg] using h (-1) (-1)
  have p6 : d.probe I u v 6 = false := by
    simpa [probe, updateFreemanPosition, sub_eq_add_neg] using h 0 (-1)
  have p7 : d.probe I u v 7 = false := by
    simpa [probe, updateFreemanPosition, sub_eq_add_neg] using h 1 (-1)
  unfold computeFreemanChainElement
  have t2 : Int.tmod (6 + 2) 8 = 0 := by decide
  have t1 : Int.tmod (6 + 1) 8 = 7 := by decide
  have t7 : Int.tmod (6 + 7) 8 = 5 := by decide
  have t6 : Int.tmod (6 + 6) 8 = 4 := by decide
  have t5 : Int.tmod (6 + 5) 8 = 3 := by decide
  have t4 : Int.tmod (6 + 4) 8 = 2 := by decide
  have t3 : Int.tmod (6 + 3) 8 = 1 := by decide
  simp only [t1, t2, t3, t4, t5, t6, t7, p0, p1, p2, p3, p4, p5, p6, p7]
  simp

/-- The rightward scan stops at once when the pixel on the right has no good level. -/
theorem findFirstBorder_stop (d : vpDot2) (I : Image) (est_u : ℚ) (v : Int) (n : Nat)
    (x : Int) (h : d.hasGoodLevel I (x + 1) v = false) :
    d.findFirstBorder I est_u v n x = some x := by
  cases n with
  | zero => rfl
  | succ n => rw [findFirstBorder]; simp [h]

/-- The dot a call of `computeParameters` can leave: on failure the dot with its border
    lists cleared, possibly with the members the loop writes; on success the result of the
    final step. -/
theorem computeParameters_cases {fuel : Nat} {d : vpDot2} {I : Image} {_u _v : ℚ}
    {b : Bool} {d' : vpDot2} (h : computeParameters fuel d I _u _v = some (b, d')) :
    (b = false ∧ (d' = d.clearBorder ∨ ∃ s, d' = d.clearBorder.store s)) ∨
    (b = true ∧ ∃ s, finish (d.clearBorder.store s) I s.u_min s.u_max s.v_min s.v_max
      = (true, d')) := by
  cases b with
  | true =>
    obtain ⟨_, fb, s1, _, _, hf⟩ := computeParameters_true_inv h
    exact Or.inr ⟨rfl, s1, hf⟩
  | false =>
    refine Or.inl ⟨rfl, ?_⟩
    unfold computeParameters at h
    simp only [] at h
    split_ifs at h with h1 h2
    · simp only [Option.some.injEq, Prod.mk.injEq, true_and] at h
      exact Or.inl h.symm
    · simp only [Option.some.injEq, Prod.mk.injEq, true_and] at h
      exact Or.inl h.symm
    · split at h
      · simp only [Option.some.injEq, Prod.mk.injEq, true_and] at h
        exact Or.inl h.symm
      · split_ifs at h with h3
        · simp only [Option.some.injEq, Prod.mk.injEq, true_and] at h
          exact Or.inl h.symm
        · split at h
          · simp at h
          · simp only [Option.some.injEq, Prod.mk.injEq, true_and] at h
            exact Or.inr ⟨_, h.symm⟩
          · simp only [Option.some.injEq] at h
            exact Or.inr ⟨_, finish_false_inv h⟩

/-- C5 (amended): whenever `computeParameters` returns false, the centre (cog_u, cog_v),
    the width, the height and the surface have the values they had before the call.  (The
    six moments are not covered: the call resets and accumulates them in place.) -/
theorem computeParameters_false_keeps (fuel : Nat) (d : vpDot2) (I : Image) (_u _v : ℚ)
    (d' : vpDot2) (h : computeParameters fuel d I _u _v = some (false, d')) :
    d'.cog_ufloat = d.cog_ufloat ∧ d'.cog_vfloat = d.cog_vfloat ∧ d'.width = d.width ∧
    d'.height = d.height ∧ d'.surface = d.surface := by
  rcases computeParameters_cases h with ⟨_, h1 | ⟨s, h1⟩⟩ | ⟨h1, _⟩
  · subst h1; exact ⟨rfl, rfl, rfl, rfl, rfl⟩
  · subst h1; exact ⟨rfl, rfl, rfl, rfl, rfl⟩
  · simp at h1

/-- C7: whenever `computeParameters` returns true, surface equals m00 and m00 is neither 0
    nor 1; conversely, whenever the call returns with an accumulated m00 (the member m00
    after the call) equal to 0 or 1 the returned boolean is false, and the final step of
    the call rejects every trace whose accumulated m00 is 0 or 1. -/
theorem computeParameters_surface_m00 (fuel : Nat) (d : vpDot2) (I : Image) (_u _v : ℚ)
    (b : Bool) (d' : vpDot2) (h : computeParameters fuel d I _u _v = some (b, d')) :
    (b = true → d'.surface = d'.m00 ∧ d'.m00 ≠ 0 ∧ d'.m00 ≠ 1) ∧
    ((d'.m00 = 0 ∨ d'.m00 = 1) → b = false) ∧
    (∀ (t : vpDot2) (u_min u_max v_min v_max : Int), (t.m00 = 0 ∨ t.m00 = 1) →
      finish t I u_min u_max v_min v_max = (false, t)) := by
  have key : b = true → d'.surface = d'.m00 ∧ d'.m00 ≠ 0 ∧ d'.m00 ≠ 1 := by
    intro hb
    subst hb
    rcases computeParameters_cases h with ⟨h1, _⟩ | ⟨_, s, hf⟩
    · simp at h1
    · obtain ⟨h0, h1, _, he⟩ := finish_true_inv hf
      subst he
      exact ⟨rfl, h0, h1⟩
  refine ⟨key, ?_, ?_⟩
  · intro hm
    cases b with
    | false => rfl
    | true =>
      obtain ⟨_, h0, h1⟩ := key rfl
      rcases hm with hm | hm
      · exact absurd hm h0
      · exact absurd hm h1
  · intro t a1 a2 a3 a4 ht
    simp only [finish]
    rw [if_pos ht]

/-- C9: for every image, search area and dot, if the seed pixel (the truncated estimated
    position) satisfies `hasGoodLevel` and none of its 8 neighbours does, then
    `computeParameters` returns false (for any positive number of allowed loop
    iterations); nothing is assumed on where the pixel lies in the area. -/
theorem isolated_pixel_fails (fuel : Nat) (d : vpDot2) (I : Image) (_u _v : ℚ)
    (hfuel : 1 ≤ fuel)
    (hseed : d.hasGoodLevel I (toInt (estimate d.cog_ufloat _u))
      (toInt (estimate d.cog_vfloat _v)) = true)
    (hnb : ∀ du dv : Int, -1 ≤ du → du ≤ 1 → -1 ≤ dv → dv ≤ 1 → (du ≠ 0 ∨ dv ≠ 0) →
      d.hasGoodLevel I (toInt (estimate d.cog_ufloat _u) + du)
        (toInt (estimate d.cog_vfloat _v) + dv) = false) :
    ∃ d', computeParameters fuel d I _u _v = some (false, d') := by
  obtain ⟨n, rfl⟩ : ∃ n, fuel = n + 1 := ⟨fuel - 1, by omega⟩
  have hr : d.hasGoodLevel I (toInt (estimate d.cog_ufloat _u) + 1)
      (toInt (estimate d.cog_vfloat _v)) = false := by
    simpa using hnb 1 0 (by decide) (by decide) (by decide) (by decide) (by decide)
  have hb := findFirstBorder_stop d.clearBorder I (estimate d.cog_ufloat _u)
    (toInt (estimate d.cog_vfloat _v))
    (d.area.u_max - toInt (estimate d.cog_ufloat _u)).toNat
    (toInt (estimate d.cog_ufloat _u)) hr
  rw [computeParameters_of_border (n + 1) d I _u _v _ hseed hb]
  have hc := chain_isolated d.clearBorder I _ _ hnb
  rw [hc]
  have hup : d.clearBorder.hasGoodLevel I
      (d.clearBorder.advance (startState I (toInt (estimate d.cog_ufloat _u))
        (toInt (estimate d.cog_vfloat _v)) 6)).border_u
      (d.clearBorder.advance (startState I (toInt (estimate d.cog_ufloat _u))
        (toInt (estimate d.cog_vfloat _v)) 6)).border_v = false := by
    simpa [advance, startState, computeFreemanParameters] using
      hnb 0 (-1) (by decide) (by decide) (by decide) (by decide) (by decide)
  rw [followBorder_succ_false _ I _ _ _ n _ _ (chain_not_good _ I _ _ _ hup)]
  exact ⟨_, rfl⟩

/-! ### Area and extent of the recorded border -/

theorem isInArea_congr {d1 d2 : vpDot2} (ha : d1.area = d2.area) (I : Image) (u v : Int) :
    d1.isInArea I u v = d2.isInArea I u v := by
  unfold isInArea; rw [ha]

theorem hasGoodLevel_congr {d1 d2 : vpDot2} (ha : d1.area = d2.area)
    (hl : d1.inLevel = d2.inLevel) (I : Image) (u v : Int) :
    d1.hasGoodLevel I u v = d2.hasGoodLevel I u v := by
  unfold hasGoodLevel; rw [isInArea_congr ha, hl]

theorem probe_congr {d1 d2 : vpDot2} (ha : d1.area = d2.area)
    (hl : d1.inLevel = d2.inLevel) (I : Image) (u v c : Int) :
    d1.probe I u v c = d2.probe I u v c := by
  unfold probe; rw [hasGoodLevel_congr ha hl]

theorem chain_congr {d1 d2 : vpDot2} (ha : d1.area = d2.area)
    (hl : d1.inLevel = d2.inLevel) (I : Image) (u v e : Int) :
    d1.computeFreemanChainElement I u v e = d2.computeFreemanChainElement I u v e := by
  unfold computeFreemanChainElement
  simp only [hasGoodLevel_congr ha hl, probe_congr ha hl]

theorem freemanParameters_congr {d1 d2 : vpDot2} (hm : d1.compute_moment = d2.compute_moment)
    (u v c : Int) : d1.computeFreemanParameters u v c = d2.computeFreemanParameters u v c := by
  unfold computeFreemanParameters; rw [hm]

theorem advance_congr {d1 d2 : vpDot2} (hm : d1.compute_moment = d2.compute_moment)
    (s : BorderState) : d1.advance s = d2.advance s := by
  unfold advance; rw [freemanParameters_congr hm, hm]

/-- The border-following loop reads the dot only through its area, its in level and its
    moment flag. -/
theorem followBorder_congr {d1 d2 : vpDot2} (ha : d1.area = d2.area)
    (hl : d1.inLevel = d2.inLevel) (hm : d1.compute_moment = d2.compute_moment)
    (I : Image) (fu fv fd : Int) :
    ∀ (fuel : Nat) (s : BorderState),
      d1.followBorder I fu fv fd fuel s = d2.followBorder I fu fv fd fuel s := by
  intro fuel
  induction fuel with
  | zero => intro s; rfl
  | succ n ih =>
    intro s
    rw [followBorder, followBorder]
    simp only [advance_congr hm, chain_congr ha hl, isInArea_congr ha, ih]

/-- Two dots with the same area and in level make the same rightward scan, unless the
    width bound stops one of them. -/
theorem findFirstBorder_congr {d1 d2 : vpDot2} (ha : d1.area = d2.area)
    (hl : d1.inLevel = d2.inLevel) (I : Image) (est_u : ℚ) (v : Int) :
    ∀ (n : Nat) (x fb : Int), d1.findFirstBorder I est_u v n x = some fb →
      (d2.findFirstBorder I est_u v n x).isSome = true →
      d2.findFirstBorder I est_u v n x = some fb := by
  intro n
  induction n with
  | zero => intro x fb h _; simpa [findFirstBorder] using h
  | succ n ih =>
    intro x fb h h2
    rw [findFirstBorder] at h h2 ⊢
    rw [hasGoodLevel_congr ha hl, ha] at h
    split_ifs at h h2 ⊢ with c1 c2 c3
    · simp at h2
    · exact ih (x + 1) fb h h2
    · exact h

/-- The final step succeeds when its checks pass. -/
theorem finish_of_checks (d : vpDot2) (I : Image) (u_min u_max v_min v_max : Int)
    (h0 : d.m00 ≠ 0) (h1 : d.m00 ≠ 1)
    (hg : d.hasGoodLevel I (toInt (d.m10 / d.m00)) (toInt (d.m01 / d.m00)) = true) :
    finish d I u_min u_max v_min v_max =
      (true, { d with cog_ufloat := d.m10 / d.m00, cog_vfloat := d.m01 / d.m00,
                      width := ((u_max - u_min : Int) : ℚ),
                      height := ((v_max - v_min : Int) : ℚ),
                      surface := d.m00 }) := by
  simp only [finish]
  rw [if_neg (by simp [h0, h1]), if_neg (by simp [hg])]

theorem estimate_ne (c x : ℚ) (h : x ≠ -1) : estimate c x = x := by
  unfold estimate; rw [if_neg h]

/-- Calling `computeParameters` twice in the exact layer: for a seed (u, v) with u and v
    other than the default value -1, if the first call returns true and the rightward scan
    of a second call on the resulting dot is not stopped by the width bound, the second
    call also returns true and leaves the dot as it is. -/
theorem computeParameters_idempotent_exact (fuel : Nat) (d : vpDot2) (I : Image) (_u _v : ℚ)
    (d1 : vpDot2) (hu : _u ≠ -1) (hv : _v ≠ -1)
    (h : computeParameters fuel d I _u _v = some (true, d1))
    (hscan : (d1.findFirstBorder I _u (toInt _v) (d1.area.u_max - toInt _u).toNat
      (toInt _u)).isSome = true) :
    computeParameters fuel d1 I _u _v = some (true, d1) := by
  obtain ⟨hg, fb, s1, hb, hf, hfin⟩ := computeParameters_true_inv h
  rw [estimate_ne _ _ hu, estimate_ne _ _ hv] at hg hb
  rw [estimate_ne _ _ hv] at hf
  obtain ⟨h0, h1, hc, he⟩ := finish_true_inv hfin
  have ea : d1.area = d.area := by rw [he]; rfl
  have el : d1.inLevel = d.inLevel := by rw [he]; rfl
  have em : d1.compute_moment = d.compute_moment := by rw [he]; rfl
  have ea' : d.clearBorder.area = d1.clearBorder.area := ea.symm
  have el' : d.clearBorder.inLevel = d1.clearBorder.inLevel := el.symm
  have em' : d.clearBorder.compute_moment = d1.clearBorder.compute_moment := em.symm
  have hg1 : d1.hasGoodLevel I (toInt (estimate d1.cog_ufloat _u))
      (toInt (estimate d1.cog_vfloat _v)) = true := by
    rw [estimate_ne _ _ hu, estimate_ne _ _ hv, hasGoodLevel_congr ea el]; exact hg
  have hscan' : (d1.clearBorder.findFirstBorder I _u (toInt _v)
      (d.area.u_max - toInt _u).toNat (toInt _u)).isSome = true := by
    rw [← ea]
    rw [← hscan]
    congr 1
    clear hscan
    generalize (d1.area.u_max - toInt _u).toNat = n
    generalize toInt _u = x
    induction n generalizing x with
    | zero => rfl
    | succ n ih =>
      rw [findFirstBorder, findFirstBorder]
      simp only [clearBorder_hasGoodLevel, ih]
      rfl
  have hb1 : d1.clearBorder.findFirstBorder I (estimate d1.cog_ufloat _u)
      (toInt (estimate d1.cog_vfloat _v))
      (d1.area.u_max - toInt (estimate d1.cog_ufloat _u)).toNat
      (toInt (estimate d1.cog_ufloat _u)) = some fb := by
    rw [estimate_ne _ _ hu, estimate_ne _ _ hv, ea]
    exact findFirstBorder_congr ea' el' I _u (toInt _v) _ _ fb hb hscan'
  rw [computeParameters_of_border fuel d1 I _u _v fb hg1 hb1]
  rw [estimate_ne _ _ hv, ← chain_congr ea' el', ← followBorder_congr ea' el' em', hf]
  simp only []
  have e00 : (d1.clearBorder.store s1).m00 = (d.clearBorder.store s1).m00 := rfl
  have e10 : (d1.clearBorder.store s1).m10 = (d.clearBorder.store s1).m10 := rfl
  have e01 : (d1.clearBorder.store s1).m01 = (d.clearBorder.store s1).m01 := rfl
  rw [finish_of_checks _ I _ _ _ _ (by rw [e00]; exact h0) (by rw [e00]; exact h1)
    (by rw [e00, e10, e01,
          @hasGoodLevel_congr (d1.clearBorder.store s1) (d.clearBorder.store s1) ea el]
        exact hc)]
  rw [he]
  rfl

/-! ### The square blob -/

theorem squareBlob_good {d : vpDot2} {I : Image} {u0 v0 m : Int}
    (hS : SquareBlob d I u0 v0 m) (x y : Int) :
    d.hasGoodLevel I x y = decide (u0 ≤ x ∧ x ≤ u0 + m ∧ v0 ≤ y ∧ y ≤ v0 + m) := by
  have h := hS.2.2.2.2.2 x y
  by_cases hp : u0 ≤ x ∧ x ≤ u0 + m ∧ v0 ≤ y ∧ y ≤ v0 + m
  · rw [decide_eq_true hp]; exact h.2 hp
  · rw [decide_eq_false hp]
    cases hb : d.hasGoodLevel I x y with
    | false => rfl
    | true => exact absurd (h.1 hb) hp

theorem probe_codes (d : vpDot2) (I : Image) (u v : Int) :
    d.probe I u v 0 = d.hasGoodLevel I (u + 1) v ∧
    d.probe I u v 1 = d.hasGoodLevel I (u + 1) (v + 1) ∧
    d.probe I u v 2 = d.hasGoodLevel I u (v + 1) ∧
    d.probe I u v 3 = d.hasGoodLevel I (u - 1) (v + 1) ∧
    d.probe I u v 4 = d.hasGoodLevel I (u - 1) v ∧
    d.probe I u v 5 = d.hasGoodLevel I (u - 1) (v - 1) ∧
    d.probe I u v 6 = d.hasGoodLevel I u (v - 1) ∧
    d.probe I u v 7 = d.hasGoodLevel I (u + 1) (v - 1) :=
  ⟨rfl, rfl, rfl, rfl, rfl, rfl, rfl, rfl⟩

/-- The cascade of `computeFreemanChainElement` for the incoming direction 6 (up). -/
theorem chain_from_6 (d : vpDot2) (I : Image) (u v : Int) :
    d.computeFreemanChainElement I u v 6 =
      if d.hasGoodLevel I u v then
        if d.hasGoodLevel I (u + 1) v then (true, 0)
        else if d.hasGoodLevel I (u + 1) (v - 1) then (true, 7)
        else if d.hasGoodLevel I u (v - 1) then (true, 6)
        else if d.hasGoodLevel I (u - 1) (v - 1) then (true, 5)
        else if d.hasGoodLevel I (u - 1) v then (true, 4)
        else if d.hasGoodLevel I (u - 1) (v + 1) then (true, 3)
        else if d.hasGoodLevel I u (v + 1) then (true, 2)
        else if d.hasGoodLevel I (u + 1) (v + 1) then (true, 1)
        else (false, 6)
      else (false, 6) := by
  obtain ⟨p0, p1, p2, p3, p4, p5, p6, p7⟩ := probe_codes d I u v
  have t1 : Int.tmod (6 + 1) 8 = 7 := by decide
  have t2 : Int.tmod (6 + 2) 8 = 0 := by decide
  have t3 : Int.tmod (6 + 3) 8 = 1 := by decide
  have t4 : Int.tmod (6 + 4) 8 = 2 := by decide
  have t5 : Int.tmod (6 + 5) 8 = 3 := by decide
  have t6 : Int.tmod (6 + 6) 8 = 4 := by decide
  have t7 : Int.tmod (6 + 7) 8 = 5 := by decide
  simp only [computeFreemanChainElement, t1, t2, t3, t4, t5, t6, t7, p0, p1, p2, p3, p4,
    p5, p6, p7]

/-- The cascade of `computeFreemanChainElement` for the incoming direction 4 (left). -/
theorem chain_from_4 (d : vpDot2) (I : Image) (u v : Int) :
    d.computeFreemanChainElement I u v 4 =
      if d.hasGoodLevel I u v then
        if d.hasGoodLevel I u (v - 1) then (true, 6)
        else if d.hasGoodLevel I (u - 1) (v - 1) then (true, 5)
        else if d.hasGoodLevel I (u - 1) v then (true, 4)
        else if d.hasGoodLevel I (u - 1) (v + 1) then (true, 3)
        else if d.hasGoodLevel I u (v + 1) then (true, 2)
        else if d.hasGoodLevel I (u + 1) (v + 1) then (true, 1)
        else if d.hasGoodLevel I (u + 1) v then (true, 0)
        else if d.hasGoodLevel I (u + 1) (v - 1) then (true, 7)
        else (false, 4)
      else (false, 4) := by
  obtain ⟨p0, p1, p2, p3, p4, p5, p6, p7⟩ := probe_codes d I u v
  have t1 : Int.tmod (4 + 1) 8 = 5 := by decide
  have t2 : Int.tmod (4 + 2) 8 = 6 := by decide
  have t3 : Int.tmod (4 + 3) 8 = 7 := by decide
  have t4 : Int.tmod (4 + 4) 8 = 0 := by decide
  have t5 : Int.tmod (4 + 5) 8 = 1 := by decide
  have t6 : Int.tmod (4 + 6) 8 = 2 := by decide
  have t7 : Int.tmod (4 + 7) 8 = 3 := by decide
  simp only [computeFreemanChainElement, t1, t2, t3, t4, t5, t6, t7, p0, p1, p2, p3, p4,
    p5, p6, p7]

/-- The cascade of `computeFreemanChainElement` for the incoming direction 2 (down). -/
theorem chain_from_2 (d : vpDot2) (I : Image) (u v : Int) :
    d.computeFreemanChainElement I u v 2 =
      if d.hasGoodLevel I u v then
        if d.hasGoodLevel I (u - 1) v then (true, 4)
        else if d.hasGoodLevel I (u - 1) (v + 1) then (true, 3)
        else if d.hasGoodLevel I u (v + 1) then (true, 2)
        else if d.hasGoodLevel I (u + 1) (v + 1) then (true, 1)
        else if d.hasGoodLevel I (u + 1) v then (true, 0)
        else if d.hasGoodLevel I (u + 1) (v - 1) then (true, 7)
        else if d.hasGoodLevel I u (v - 1) then (true, 6)
        else if d.hasGoodLevel I (u - 1) (v - 1) then (true, 5)
        else (false, 2)
      else (false, 2) := by
  obtain ⟨p0, p1, p2, p3, p4, p5, p6, p7⟩ := probe_codes d I u v
  have t1 : Int.tmod (2 + 1) 8 = 3 := by decide
  have t2 : Int.tmod (2 + 2) 8 = 4 := by decide
  have t3 : Int.tmod (2 + 3) 8 = 5 := by decide
  have t4 : Int.tmod (2 + 4) 8 = 6 := by decide
  have t5 : Int.tmod (2 + 5) 8 = 7 := by decide
  have t6 : Int.tmod (2 + 6) 8 = 0 := by decide
  have t7 : Int.tmod (2 + 7) 8 = 1 := by decide
  simp only [computeFreemanChainElement, t1, t2, t3, t4, t5, t6, t7, p0, p1, p2, p3, p4,
    p5, p6, p7]

/-- The cascade of `computeFreemanChainElement` for the incoming direction 0 (right). -/
theorem chain_from_0 (d : vpDot2) (I : Image) (u v : Int) :
    d.computeFreemanChainElement I u v 0 =
      if d.hasGoodLevel I u v then
        if d.hasGoodLevel I u (v + 1) then (true, 2)
        else if d.hasGoodLevel I (u + 1) (v + 1) then (true, 1)
        else if d.hasGoodLevel I (u + 1) v then (true, 0)
        else if d.hasGoodLevel I (u + 1) (v - 1) then (true, 7)
        else if d.hasGoodLevel I u (v - 1) then (true, 6)
        else if d.hasGoodLevel I (u - 1) (v - 1) then (true, 5)
        else if d.hasGoodLevel I (u - 1) v then (true, 4)
        else if d.hasGoodLevel I (u - 1) (v + 1) then (true, 3)
        else (false, 0)
      else (false, 0) := by
  obtain ⟨p0, p1, p2, p3, p4, p5, p6, p7⟩ := probe_codes d I u v
  have t1 : Int.tmod (0 + 1) 8 = 1 := by decide
  have t2 : Int.tmod (0 + 2) 8 = 2 := by decide
  have t3 : Int.tmod (0 + 3) 8 = 3 := by decide
  have t4 : Int.tmod (0 + 4) 8 = 4 := by decide
  have t5 : Int.tmod (0 + 5) 8 = 5 := by decide
  have t6 : Int.tmod (0 + 6) 8 = 6 := by decide
  have t7 : Int.tmod (0 + 7) 8 = 7 := by decide
  simp only [computeFreemanChainElement, t1, t2, t3, t4, t5, t6, t7, p0, p1, p2, p3, p4,
    p5, p6, p7]

theorem sq_good {d : vpDot2} {I : Image} {u0 v0 m : Int}
    (hS : SquareBlob d I u0 v0 m) (x y : Int)
    (h : u0 ≤ x ∧ x ≤ u0 + m ∧ v0 ≤ y ∧ y ≤ v0 + m) : d.hasGoodLevel I x y = true :=
  (hS.2.2.2.2.2 x y).2 h

theorem sq_bad {d : vpDot2} {I : Image} {u0 v0 m : Int}
    (hS : SquareBlob d I u0 v0 m) (x y : Int)
    (h : ¬ (u0 ≤ x ∧ x ≤ u0 + m ∧ v0 ≤ y ∧ y ≤ v0 + m)) : d.hasGoodLevel I x y = false := by
  rw [squareBlob_good hS, decide_eq_false h]

/-- The chain element on the right side of the square, coming up. -/
theorem square_chain_up {d : vpDot2} {I : Image} {u0 v0 m : Int}
    (hS : SquareBlob d I u0 v0 m) (y : Int) (hy : v0 ≤ y ∧ y ≤ v0 + m) :
    d.computeFreemanChainElement I (u0 + m) y 6 = (true, if y = v0 then 4 else 6) := by
  have hm := hS.1
  have g : d.hasGoodLevel I (u0 + m) y = true := sq_good hS _ _ (by omega)
  have g0 : d.hasGoodLevel I (u0 + m + 1) y = false := sq_bad hS _ _ (by omega)
  have g7 : d.hasGoodLevel I (u0 + m + 1) (y - 1) = false := sq_bad hS _ _ (by omega)
  by_cases h : y = v0
  · subst h
    have g6 : d.hasGoodLevel I (u0 + m) (y - 1) = false := sq_bad hS _ _ (by omega)
    have g5 : d.hasGoodLevel I (u0 + m - 1) (y - 1) = false := sq_bad hS _ _ (by omega)
    have g4 : d.hasGoodLevel I (u0 + m - 1) y = true := sq_good hS _ _ (by omega)
    simp [chain_from_6, g, g0, g7, g6, g5, g4]
  · have g6 : d.hasGoodLevel I (u0 + m) (y - 1) = true := sq_good hS _ _ (by omega)
    simp [chain_from_6, g, g0, g7, g6, h]

/-- The chain element on the top side of the square, coming left. -/
theorem square_chain_left {d : vpDot2} {I : Image} {u0 v0 m : Int}
    (hS : SquareBlob d I u0 v0 m) (x : Int) (hx : u0 ≤ x ∧ x ≤ u0 + m) :
    d.computeFreemanChainElement I x v0 4 = (true, if x = u0 then 2 else 4) := by
  have hm := hS.1
  have g : d.hasGoodLevel I x v0 = true := sq_good hS _ _ (by omega)
  have g6 : d.hasGoodLevel I x (v0 - 1) = false := sq_bad hS _ _ (by omega)
  have g5 : d.hasGoodLevel I (x - 1) (v0 - 1) = false := sq_bad hS _ _ (by omega)
  by_cases h : x = u0
  · subst h
    have g4 : d.hasGoodLevel I (x - 1) v0 = false := sq_bad hS _ _ (by omega)
    have g3 : d.hasGoodLevel I (x - 1) (v0 + 1) = false := sq_bad hS _ _ (by omega)
    have g2 : d.hasGoodLevel I x (v0 + 1) = true := sq_good hS _ _ (by omega)
    simp [chain_from_4, g, g6, g5, g4, g3, g2]
  · have g4 : d.hasGoodLevel I (x - 1) v0 = true := sq_good hS _ _ (by omega)
    simp [chain_from_4, g, g6, g5, g4, h]

/-- The chain element on the left side of the square, coming down. -/
theorem square_chain_down {d : vpDot2} {I : Image} {u0 v0 m : Int}
    (hS : SquareBlob d I u0 v0 m) (y : Int) (hy : v0 ≤ y ∧ y ≤ v0 + m) :
    d.computeFreemanChainElement I u0 y 2 = (true, if y = v0 + m then 0 else 2) := by
  have hm := hS.1
  have g : d.hasGoodLevel I u0 y = true := sq_good hS _ _ (by omega)
  have g4 : d.hasGoodLevel I (u0 - 1) y = false := sq_bad hS _ _ (by omega)
  have g3 : d.hasGoodLevel I (u0 - 1) (y + 1) = false := sq_bad hS _ _ (by omega)
  by_cases h : y = v0 + m
  · subst h
    have g2 : d.hasGoodLevel I u0 (v0 + m + 1) = false := sq_bad hS _ _ (by omega)
    have g1 : d.hasGoodLevel I (u0 + 1) (v0 + m + 1) = false := sq_bad hS _ _ (by omega)
    have g0 : d.hasGoodLevel I (u0 + 1) (v0 + m) = true := sq_good hS _ _ (by omega)
    simp [chain_from_2, g, g4, g3, g2, g1, g0]
  · have g2 : d.hasGoodLevel I u0 (y + 1) = true := sq_good hS _ _ (by omega)
    simp [chain_from_2, g, g4, g3, g2, h]

/-- The chain element on the bottom side of the square, coming right. -/
theorem square_chain_right {d : vpDot2} {I : Image} {u0 v0 m : Int}
    (hS : SquareBlob d I u0 v0 m) (x : Int) (hx : u0 ≤ x ∧ x ≤ u0 + m) :
    d.computeFreemanChainElement I x (v0 + m) 0 = (true, if x = u0 + m then 6 else 0) := by
  have hm := hS.1
  have g : d.hasGoodLevel I x (v0 + m) = true := sq_good hS _ _ (by omega)
  have g2 : d.hasGoodLevel I x (v0 + m + 1) = false := sq_bad hS _ _ (by omega)
  have g1 : d.hasGoodLevel I (x + 1) (v0 + m + 1) = false := sq_bad hS _ _ (by omega)
  by_cases h : x = u0 + m
  · subst h
    have g0 : d.hasGoodLevel I (u0 + m + 1) (v0 + m) = false := sq_bad hS _ _ (by omega)
    have g7 : d.hasGoodLevel I (u0 + m + 1) (v0 + m - 1) = false :=
      sq_bad hS _ _ (by omega)
    have g6 : d.hasGoodLevel I (u0 + m) (v0 + m - 1) = true := sq_good hS _ _ (by omega)
    simp [chain_from_0, g, g2, g1, g0, g7, g6]
  · have g0 : d.hasGoodLevel I (x + 1) (v0 + m) = true := sq_good hS _ _ (by omega)
    simp [chain_from_0, g, g2, g1, g0, h]

/-- A run of `k` iterations of the border-following loop none of which closes the walk,
    followed through an invariant indexed by the iteration. -/
theorem followBorder_run (d : vpDot2) (I : Image) (fu fv fd : Int)
    (Inv : Nat → BorderState → Prop) (k : Nat)
    (hstep : ∀ i s, i < k → Inv i s → ∃ e,
      d.computeFreemanChainElement I (d.advance s).border_u (d.advance s).border_v
        (d.advance s).dir = (true, e) ∧
      ¬ (fu = (d.advance s).border_u ∧ fv = (d.advance s).border_v ∧ fd = e) ∧
      Inv (i + 1) { d.advance s with dir := e }) :
    ∀ (fuel : Nat) (s : BorderState), Inv 0 s →
      ∃ s', Inv k s' ∧
        d.followBorder I fu fv fd (fuel + k) s = d.followBorder I fu fv fd fuel s' := by
  induction k with
  | zero => intro fuel s h0; exact ⟨s, h0, rfl⟩
  | succ k ih =>
    intro fuel s h0
    obtain ⟨s', hk, hf⟩ := ih (fun i s hi hs => hstep i s (by omega) hs) (fuel + 1) s h0
    obtain ⟨e, hc, hn, hi⟩ := hstep k s' (by omega) hk
    refine ⟨_, hi, ?_⟩
    have e1 : fuel + (k + 1) = fuel + 1 + k := by omega
    rw [e1, hf, followBorder_succ_true d I fu fv fd fuel s' e hc, if_neg hn]

/-- The increments of the four axis directions. -/
theorem freemanParameters_axis (d : vpDot2) (u v : Int) :
    ((d.computeFreemanParameters u v 6).du = 0 ∧ (d.computeFreemanParameters u v 6).dv = -1 ∧
      (d.computeFreemanParameters u v 6).dS = 0 ∧
      (d.computeFreemanParameters u v 6).dMu = (1 / 2) * u * u ∧
      (d.computeFreemanParameters u v 6).dMv = 0) ∧
    ((d.computeFreemanParameters u v 4).du = -1 ∧ (d.computeFreemanParameters u v 4).dv = 0 ∧
      (d.computeFreemanParameters u v 4).dS = -v ∧
      (d.computeFreemanParameters u v 4).dMu = 0 ∧
      (d.computeFreemanParameters u v 4).dMv = -(1 / 2) * v * v) ∧
    ((d.computeFreemanParameters u v 2).du = 0 ∧ (d.computeFreemanParameters u v 2).dv = 1 ∧
      (d.computeFreemanParameters u v 2).dS = 0 ∧
      (d.computeFreemanParameters u v 2).dMu = -(1 / 2) * u * u ∧
      (d.computeFreemanParameters u v 2).dMv = 0) ∧
    ((d.computeFreemanParameters u v 0).du = 1 ∧ (d.computeFreemanParameters u v 0).dv = 0 ∧
      (d.computeFreemanParameters u v 0).dS = v ∧
      (d.computeFreemanParameters u v 0).dMu = 0 ∧
      (d.computeFreemanParameters u v 0).dMv = (1 / 2) * v * v) := by
  refine ⟨⟨?_, ?_, ?_, ?_, ?_⟩, ⟨?_, ?_, ?_, ?_, ?_⟩, ⟨?_, ?_, ?_, ?_, ?_⟩,
    ⟨?_, ?_, ?_, ?_, ?_⟩⟩ <;> simp [computeFreemanParameters]

/-- One iteration of the walk around the square, from a state described by `SqInv` to the
    next one: the new pixel is in the square and the chain element there is `c'`. -/
theorem sq_step (d : vpDot2) (I : Image) (u0 v0 m : Int) (s : BorderState)
    (x y c x' y' c' : Int) (a00 a10 a01 b00 b10 b01 : ℚ)
    (L1 L2 L3 L4 M1 M2 M3 M4 : Prop)
    (hs : SqInv u0 v0 m x y c a00 a10 a01 L1 L2 L3 L4 s)
    (hx : x' = x + (d.computeFreemanParameters x y c).du)
    (hy : y' = y + (d.computeFreemanParameters x y c).dv)
    (h00 : b00 = a00 + (d.computeFreemanParameters x y c).dS)
    (h10 : b10 = a10 + (d.computeFreemanParameters x y c).dMu)
    (h01 : b01 = a01 + (d.computeFreemanParameters x y c).dMv)
    (hin : u0 ≤ x' ∧ x' ≤ u0 + m ∧ v0 ≤ y' ∧ y' ≤ v0 + m)
    (hch : d.computeFreemanChainElement I x' y' c = (true, c'))
    (hM1 : M1 → L1 ∨ x' = u0) (hM2 : M2 → L2 ∨ x' = u0 + m)
    (hM3 : M3 → L3 ∨ y' = v0) (hM4 : M4 → L4 ∨ y' = v0 + m) :
    d.computeFreemanChainElement I (d.advance s).border_u (d.advance s).border_v
        (d.advance s).dir = (true, c') ∧
    (d.advance s).border_u = x' ∧ (d.advance s).border_v = y' ∧
    SqInv u0 v0 m x' y' c' b00 b10 b01 M1 M2 M3 M4 { d.advance s with dir := c' } := by
  obtain ⟨s1, s2, s3, s4, s5, s6, s7, s8, s9, s10, s11, s12, s13, s14⟩ := hs
  have eu : (d.advance s).border_u = x' := by
    show s.border_u + (d.computeFreemanParameters s.border_u s.border_v s.dir).du = x'
    rw [s1, s2, s3, hx]
  have ev : (d.advance s).border_v = y' := by
    show s.border_v + (d.computeFreemanParameters s.border_u s.border_v s.dir).dv = y'
    rw [s1, s2, s3, hy]
  have ed : (d.advance s).dir = c := s3
  have e3 : (d.advance s).u_min = if x' < s.u_min then x' else s.u_min := by
    rw [← eu]; rfl
  have e4 : (d.advance s).u_max = if x' > s.u_max then x' else s.u_max := by
    rw [← eu]; rfl
  have e5 : (d.advance s).v_min = if y' < s.v_min then y' else s.v_min := by
    rw [← ev]; rfl
  have e6 : (d.advance s).v_max = if y' > s.v_max then y' else s.v_max := by
    rw [← ev]; rfl
  refine ⟨by rw [eu, ev, ed]; exact hch, eu, ev, eu, ev, rfl, ?_, ?_, ?_, ?_, ?_, ?_, ?_,
    ?_, ?_, ?_, ?_⟩
  · show s.m00 + (d.computeFreemanParameters s.border_u s.border_v s.dir).dS = b00
    rw [s1, s2, s3, s4, h00]
  · show s.m10 + (d.computeFreemanParameters s.border_u s.border_v s.dir).dMu = b10
    rw [s1, s2, s3, s5, h10]
  · show s.m01 + (d.computeFreemanParameters s.border_u s.border_v s.dir).dMv = b01
    rw [s1, s2, s3, s6, h01]
  · show u0 ≤ (d.advance s).u_min
    rw [e3]; omega
  · show (d.advance s).u_max ≤ u0 + m
    rw [e4]; omega
  · show v0 ≤ (d.advance s).v_min
    rw [e5]; omega
  · show (d.advance s).v_max ≤ v0 + m
    rw [e6]; omega
  · intro h
    show (d.advance s).u_min ≤ u0
    rw [e3]
    rcases hM1 h with h | h
    · have := s11 h; omega
    · omega
  · intro h
    show u0 + m ≤ (d.advance s).u_max
    rw [e4]
    rcases hM2 h with h | h
    · have := s12 h; omega
    · omega
  · intro h
    show (d.advance s).v_min ≤ v0
    rw [e5]
    rcases hM3 h with h | h
    · have := s13 h; omega
    · omega
  · intro h
    show v0 + m ≤ (d.advance s).v_max
    rw [e6]
    rcases hM4 h with h | h
    · have := s14 h; omega
    · omega

/-- A straight run of `k` iterations along the right side of the square, direction 6. -/
theorem square_run_up {d : vpDot2} {I : Image} {u0 v0 m : Int}
    (hS : SquareBlob d I u0 v0 m) (fu fv fd : Int) (L1 L2 L3 L4 : Prop)
    (y : Int) (a00 a10 a01 : ℚ) (k : Nat)
    (hlo : v0 < y - k) (hhi : y ≤ v0 + m)
    (hnc : ∀ j : Int, 1 ≤ j → j ≤ k → ¬ (fu = u0 + m ∧ fv = y - j))
    (fuel : Nat) (s : BorderState)
    (hs : SqInv u0 v0 m (u0 + m) y 6 a00 a10 a01 L1 L2 L3 L4 s) :
    ∃ s', SqInv u0 v0 m (u0 + m) (y - k) 6
        (a00 + k * (0)) (a10 + k * ((1 / 2) * ((u0 + m : Int) : ℚ) * ((u0 + m : Int) : ℚ))) (a01 + k * (0)) L1 L2 L3 L4 s' ∧
      d.followBorder I fu fv fd (fuel + k) s = d.followBorder I fu fv fd fuel s' := by
  have hm := hS.1
  have key := followBorder_run d I fu fv fd
    (fun i s => SqInv u0 v0 m (u0 + m) (y - i) 6
      (a00 + i * (0)) (a10 + i * ((1 / 2) * ((u0 + m : Int) : ℚ) * ((u0 + m : Int) : ℚ))) (a01 + i * (0)) L1 L2 L3 L4 s) k
  have h0 : SqInv u0 v0 m (u0 + m) (y - ((0 : Nat) : Int)) 6
      (a00 + ((0 : Nat) : ℚ) * (0)) (a10 + ((0 : Nat) : ℚ) * ((1 / 2) * ((u0 + m : Int) : ℚ) * ((u0 + m : Int) : ℚ)))
      (a01 + ((0 : Nat) : ℚ) * (0)) L1 L2 L3 L4 s := by
    simpa using hs
  refine key ?_ fuel s h0
  intro i s hi hinv
  have hch := square_chain_up hS (y - ((i + 1 : Nat) : Int)) (by omega)
  rw [if_neg (by omega)] at hch
  obtain ⟨⟨p1, p2, p3, p4, p5⟩, ⟨p6, p7, p8, p9, p10⟩, ⟨p11, p12, p13, p14, p15⟩,
    ⟨p16, p17, p18, p19, p20⟩⟩ := freemanParameters_axis d (u0 + m) (y - i)
  obtain ⟨r1, r2, r3, r4⟩ := sq_step d I u0 v0 m s (u0 + m) (y - i) 6
    (u0 + m) (y - ((i + 1 : Nat) : Int)) 6
    (a00 + i * (0)) (a10 + i * ((1 / 2) * ((u0 + m : Int) : ℚ) * ((u0 + m : Int) : ℚ))) (a01 + i * (0))
    (a00 + ((i + 1 : Nat) : ℚ) * (0)) (a10 + ((i + 1 : Nat) : ℚ) * ((1 / 2) * ((u0 + m : Int) : ℚ) * ((u0 + m : Int) : ℚ)))
    (a01 + ((i + 1 : Nat) : ℚ) * (0))
    L1 L2 L3 L4 L1 L2 L3 L4 hinv
    (by rw [p1]; ring) (by rw [p2]; push_cast; ring)
    (by rw [p3]; push_cast; ring) (by rw [p4]; push_cast; ring)
    (by rw [p5]; push_cast; ring)
    (by push_cast; omega) hch Or.inl Or.inl Or.inl Or.inl
  refine ⟨6, r1, ?_, r4⟩
  rw [r2, r3]
  intro hc
  have c1 := hc.1
  have c2 := hc.2.1
  exact hnc (i + 1) (by omega) (by omega) ⟨by omega, by omega⟩

/-- A straight run of `k` iterations along the top side of the square, direction 4. -/
theorem square_run_left {d : vpDot2} {I : Image} {u0 v0 m : Int}
    (hS : SquareBlob d I u0 v0 m) (fu fv fd : Int) (L1 L2 L3 L4 : Prop)
    (x : Int) (a00 a10 a01 : ℚ) (k : Nat)
    (hlo : u0 < x - k) (hhi : x ≤ u0 + m)
    (hnc : ∀ j : Int, 1 ≤ j → j ≤ k → ¬ (fu = x - j ∧ fv = v0))
    (fuel : Nat) (s : BorderState)
    (hs : SqInv u0 v0 m x v0 4 a00 a10 a01 L1 L2 L3 L4 s) :
    ∃ s', SqInv u0 v0 m (x - k) v0 4
        (a00 + k * (-(v0 : ℚ))) (a10 + k * (0)) (a01 + k * (-(1 / 2) * (v0 : ℚ) * (v0 : ℚ))) L1 L2 L3 L4 s' ∧
      d.followBorder I fu fv fd (fuel + k) s = d.followBorder I fu fv fd fuel s' := by
  have hm := hS.1
  have key := followBorder_run d I fu fv fd
    (fun i s => SqInv u0 v0 m (x - i) v0 4
      (a00 + i * (-(v0 : ℚ))) (a10 + i * (0)) (a01 + i * (-(1 / 2) * (v0 : ℚ) * (v0 : ℚ))) L1 L2 L3 L4 s) k
  have h0 : SqInv u0 v0 m (x - ((0 : Nat) : Int)) v0 4
      (a00 + ((0 : Nat) : ℚ) * (-(v0 : ℚ))) (a10 + ((0 : Nat) : ℚ) * (0))
      (a01 + ((0 : Nat) : ℚ) * (-(1 / 2) * (v0 : ℚ) * (v0 : ℚ))) L1 L2 L3 L4 s := by
    simpa using hs
  refine key ?_ fuel s h0
  intro i s hi hinv
  have hch := square_chain_left hS (x - ((i + 1 : Nat) : Int)) (by omega)
  rw [if_neg (by omega)] at hch
  obtain ⟨⟨p1, p2, p3, p4, p5⟩, ⟨p6, p7, p8, p9, p10⟩, ⟨p11, p12, p13, p14, p15⟩,
    ⟨p16, p17, p18, p19, p20⟩⟩ := freemanParameters_axis d (x - i) v0
  obtain ⟨r1, r2, r3, r4⟩ := sq_step d I u0 v0 m s (x - i) v0 4
    (x - ((i + 1 : Nat) : Int)) v0 4
    (a00 + i * (-(v0 : ℚ))) (a10 + i * (0)) (a01 + i * (-(1 / 2) * (v0 : ℚ) * (v0 : ℚ)))
    (a00 + ((i + 1 : Nat) : ℚ) * (-(v0 : ℚ))) (a10 + ((i + 1 : Nat) : ℚ) * (0))
    (a01 + ((i + 1 : Nat) : ℚ) * (-(1 / 2) * (v0 : ℚ) * (v0 : ℚ)))
    L1 L2 L3 L4 L1 L2 L3 L4 hinv
    (by rw [p6]; push_cast; ring) (by rw [p7]; ring)
    (by rw [p8]; push_cast; ring) (by rw [p9]; push_cast; ring)
    (by rw [p10]; push_cast; ring)
    (by push_cast; omega) hch Or.inl Or.inl Or.inl Or.inl
  refine ⟨4, r1, ?_, r4⟩
  rw [r2, r3]
  intro hc
  have c1 := hc.1
  have c2 := hc.2.1
  exact hnc (i + 1) (by omega) (by omega) ⟨by omega, by omega⟩

/-- A straight run of `k` iterations along the left side of the square, direction 2. -/
theorem square_run_down {d : vpDot2} {I : Image} {u0 v0 m : Int}
    (hS : SquareBlob d I u0 v0 m) (fu fv fd : Int) (L1 L2 L3 L4 : Prop)
    (y : Int) (a00 a10 a01 : ℚ) (k : Nat)
    (hlo : v0 ≤ y) (hhi : y + k < v0 + m)
    (hnc : ∀ j : Int, 1 ≤ j → j ≤ k → ¬ (fu = u0 ∧ fv = y + j))
    (fuel : Nat) (s : BorderState)
    (hs : SqInv u0 v0 m u0 y 2 a00 a10 a01 L1 L2 L3 L4 s) :
    ∃ s', SqInv u0 v0 m u0 (y + k) 2
        (a00 + k * (0)) (a10 + k * (-(1 / 2) * (u0 : ℚ) * (u0 : ℚ))) (a01 + k * (0)) L1 L2 L3 L4 s' ∧
      d.followBorder I fu fv fd (fuel + k) s = d.followBorder I fu fv fd fuel s' := by
  have hm := hS.1
  have key := followBorder_run d I fu fv fd
    (fun i s => SqInv u0 v0 m u0 (y + i) 2
      (a00 + i * (0)) (a10 + i * (-(1 / 2) * (u0 : ℚ) * (u0 : ℚ))) (a01 + i * (0)) L1 L2 L3 L4 s) k
  have h0 : SqInv u0 v0 m u0 (y + ((0 : Nat) : Int)) 2
      (a00 + ((0 : Nat) : ℚ) * (0)) (a10 + ((0 : Nat) : ℚ) * (-(1 / 2) * (u0 : ℚ) * (u0 : ℚ)))
      (a01 + ((0 : Nat) : ℚ) * (0)) L1 L2 L3 L4 s := by
    simpa using hs
  refine key ?_ fuel s h0
  intro i s hi hinv
  have hch := square_chain_down hS (y + ((i + 1 : Nat) : Int)) (by omega)
  rw [if_neg (by omega)] at hch
  obtain ⟨⟨p1, p2, p3, p4, p5⟩, ⟨p6, p7, p8, p9, p10⟩, ⟨p11, p12, p13, p14, p15⟩,
    ⟨p16, p17, p18, p19, p20⟩⟩ := freemanParameters_axis d u0 (y + i)
  obtain ⟨r1, r2, r3, r4⟩ := sq_step d I u0 v0 m s u0 (y + i) 2
    u0 (y + ((i + 1 : Nat) : Int)) 2
    (a00 + i * (0)) (a10 + i * (-(1 / 2) * (u0 : ℚ) * (u0 : ℚ))) (a01 + i * (0))
    (a00 + ((i + 1 : Nat) : ℚ) * (0)) (a10 + ((i + 1 : Nat) : ℚ) * (-(1 / 2) * (u0 : ℚ) * (u0 : ℚ)))
    (a01 + ((i + 1 : Nat) : ℚ) * (0))
    L1 L2 L3 L4 L1 L2 L3 L4 hinv
    (by rw [p11]; ring) (by rw [p12]; push_cast; ring)
    (by rw [p13]; push_cast; ring) (by rw [p14]; push_cast; ring)
    (by rw [p15]; push_cast; ring)
    (by push_cast; omega) hch Or.inl Or.inl Or.inl Or.inl
  refine ⟨2, r1, ?_, r4⟩
  rw [r2, r3]
  intro hc
  have c1 := hc.1
  have c2 := hc.2.1
  exact hnc (i + 1) (by omega) (by omega) ⟨by omega, by omega⟩

/-- A straight run of `k` iterations along the bottom side of the square, direction 0. -/
theorem square_run_right {d : vpDot2} {I : Image} {u0 v0 m : Int}
    (hS : SquareBlob d I u0 v0 m) (fu fv fd : Int) (L1 L2 L3 L4 : Prop)
    (x : Int) (a00 a10 a01 : ℚ) (k : Nat)
    (hlo : u0 ≤ x) (hhi : x + k < u0 + m)
    (hnc : ∀ j : Int, 1 ≤ j → j ≤ k → ¬ (fu = x + j ∧ fv = v0 + m))
    (fuel : Nat) (s : BorderState)
    (hs : SqInv u0 v0 m x (v0 + m) 0 a00 a10 a01 L1 L2 L3 L4 s) :
    ∃ s', SqInv u0 v0 m (x + k) (v0 + m) 0
        (a00 + k * (((v0 + m : Int) : ℚ))) (a10 + k * (0)) (a01 + k * ((1 / 2) * ((v0 + m : Int) : ℚ) * ((v0 + m : Int) : ℚ))) L1 L2 L3 L4 s' ∧
      d.followBorder I fu fv fd (fuel + k) s = d.followBorder I fu fv fd fuel s' := by
  have hm := hS.1
  have key := followBorder_run d I fu fv fd
    (fun i s => SqInv u0 v0 m (x + i) (v0 + m) 0
      (a00 + i * (((v0 + m : Int) : ℚ))) (a10 + i * (0)) (a01 + i * ((1 / 2) * ((v0 + m : Int) : ℚ) * ((v0 + m : Int) : ℚ))) L1 L2 L3 L4 s) k
  have h0 : SqInv u0 v0 m (x + ((0 : Nat) : Int)) (v0 + m) 0
      (a00 + ((0 : Nat) : ℚ) * (((v0 + m : Int) : ℚ))) (a10 + ((0 : Nat) : ℚ) * (0))
      (a01 + ((0 : Nat) : ℚ) * ((1 / 2) * ((v0 + m : Int) : ℚ) * ((v0 + m : Int) : ℚ))) L1 L2 L3 L4 s := by
    simpa using hs
  refine key ?_ fuel s h0
  intro i s hi hinv
  have hch := square_chain_right hS (x + ((i + 1 : Nat) : Int)) (by omega)
  rw [if_neg (by omega)] at hch
  obtain ⟨⟨p1, p2, p3, p4, p5⟩, ⟨p6, p7, p8, p9, p10⟩, ⟨p11, p12, p13, p14, p15⟩,
    ⟨p16, p17, p18, p19, p20⟩⟩ := freemanParameters_axis d (x + i) (v0 + m)
  obtain ⟨r1, r2, r3, r4⟩ := sq_step d I u0 v0 m s (x + i) (v0 + m) 0
    (x + ((i + 1 : Nat) : Int)) (v0 + m) 0
    (a00 + i * (((v0 + m : Int) : ℚ))) (a10 + i * (0)) (a01 + i * ((1 / 2) * ((v0 + m : Int) : ℚ) * ((v0 + m : Int) : ℚ)))
    (a00 + ((i + 1 : Nat) : ℚ) * (((v0 + m : Int) : ℚ))) (a10 + ((i + 1 : Nat) : ℚ) * (0))
    (a01 + ((i + 1 : Nat) : ℚ) * ((1 / 2) * ((v0 + m : Int) : ℚ) * ((v0 + m : Int) : ℚ)))
    L1 L2 L3 L4 L1 L2 L3 L4 hinv
    (by rw [p16]; push_cast; ring) (by rw [p17]; ring)
    (by rw [p18]; push_cast; ring) (by rw [p19]; push_cast; ring)
    (by rw [p20]; push_cast; ring)
    (by push_cast; omega) hch Or.inl Or.inl Or.inl Or.inl
  refine ⟨0, r1, ?_, r4⟩
  rw [r2, r3]
  intro hc
  have c1 := hc.1
  have c2 := hc.2.1
  exact hnc (i + 1) (by omega) (by omega) ⟨by omega, by omega⟩

/-- The top side of the square: from the top-right corner, direction 4, the walk reaches
    the top-left corner in `M` iterations and turns down. -/
theorem square_side_top {d : vpDot2} {I : Image} {u0 v0 : Int} {M : Nat} (hM : 1 ≤ M)
    (hS : SquareBlob d I u0 v0 M) (fv fd : Int) (L1 L2 L3 L4 : Prop)
    (a00 a10 a01 : ℚ) (fuel : Nat) (s : BorderState)
    (hs : SqInv u0 v0 M (u0 + M) v0 4 a00 a10 a01 L1 L2 L3 L4 s) :
    ∃ s', SqInv u0 v0 M u0 v0 2 (a00 - M * v0) a10 (a01 - M * ((1 / 2) * v0 * v0))
        True L2 True L4 s' ∧
      d.followBorder I (u0 + M) fv fd (fuel + M) s
        = d.followBorder I (u0 + M) fv fd fuel s' := by
  obtain ⟨s1, h1, f1⟩ := square_run_left hS (u0 + M) fv fd L1 L2 L3 L4 (u0 + M)
    a00 a10 a01 (M - 1) (by omega) (by omega) (fun j hj1 _ hc => by omega) (fuel + 1) s hs
  have hch := square_chain_left hS u0 (by omega)
  rw [if_pos rfl] at hch
  obtain ⟨_, ⟨p6, p7, p8, p9, p10⟩, _, _⟩ :=
    freemanParameters_axis d (u0 + M - ((M - 1 : Nat) : Int)) v0
  obtain ⟨r1, r2, r3, r4⟩ := sq_step d I u0 v0 M s1 (u0 + M - ((M - 1 : Nat) : Int)) v0 4
    u0 v0 2 _ _ _ (a00 - M * v0) a10 (a01 - M * ((1 / 2) * v0 * v0))
    L1 L2 L3 L4 True L2 True L4 h1
    (by rw [p6]; omega) (by rw [p7]; omega)
    (by rw [p8]; push_cast [Nat.cast_sub hM]; ring)
    (by rw [p9]; push_cast [Nat.cast_sub hM]; ring)
    (by rw [p10]; push_cast [Nat.cast_sub hM]; ring)
    (by omega) hch (fun _ => Or.inr rfl) Or.inl (fun _ => Or.inr rfl) Or.inl
  refine ⟨_, r4, ?_⟩
  have e1 : fuel + M = fuel + 1 + (M - 1) := by omega
  rw [e1, f1, followBorder_succ_true d I _ fv fd fuel s1 2 r1, if_neg]
  rw [r2]
  intro hc
  have := hc.1
  omega

/-- The left side of the square: from the top-left corner, direction 2, the walk reaches
    the bottom-left corner in `M` iterations and turns right. -/
theorem square_side_left {d : vpDot2} {I : Image} {u0 v0 : Int} {M : Nat} (hM : 1 ≤ M)
    (hS : SquareBlob d I u0 v0 M) (fv fd : Int) (L1 L2 L3 L4 : Prop)
    (a00 a10 a01 : ℚ) (fuel : Nat) (s : BorderState)
    (hs : SqInv u0 v0 M u0 v0 2 a00 a10 a01 L1 L2 L3 L4 s) :
    ∃ s', SqInv u0 v0 M u0 (v0 + M) 0 a00 (a10 - M * ((1 / 2) * u0 * u0)) a01
        L1 L2 L3 True s' ∧
      d.followBorder I (u0 + M) fv fd (fuel + M) s
        = d.followBorder I (u0 + M) fv fd fuel s' := by
  obtain ⟨s1, h1, f1⟩ := square_run_down hS (u0 + M) fv fd L1 L2 L3 L4 v0
    a00 a10 a01 (M - 1) (by omega) (by omega) (fun j hj1 _ hc => by omega) (fuel + 1) s hs
  have hch := square_chain_down hS (v0 + M) (by omega)
  rw [if_pos rfl] at hch
  obtain ⟨_, _, ⟨p11, p12, p13, p14, p15⟩, _⟩ :=
    freemanParameters_axis d u0 (v0 + ((M - 1 : Nat) : Int))
  obtain ⟨r1, r2, r3, r4⟩ := sq_step d I u0 v0 M s1 u0 (v0 + ((M - 1 : Nat) : Int)) 2
    u0 (v0 + M) 0 _ _ _ a00 (a10 - M * ((1 / 2) * u0 * u0)) a01
    L1 L2 L3 L4 L1 L2 L3 True h1
    (by rw [p11]; omega) (by rw [p12]; omega)
    (by rw [p13]; push_cast [Nat.cast_sub hM]; ring)
    (by rw [p14]; push_cast [Nat.cast_sub hM]; ring)
    (by rw [p15]; push_cast [Nat.cast_sub hM]; ring)
    (by omega) hch Or.inl Or.inl Or.inl (fun _ => Or.inr rfl)
  refine ⟨_, r4, ?_⟩
  have e1 : fuel + M = fuel + 1 + (M - 1) := by omega
  rw [e1, f1, followBorder_succ_true d I _ fv fd fuel s1 0 r1, if_neg]
  rw [r2]
  intro hc
  have := hc.1
  omega

/-- The bottom side of the square: from the bottom-left corner, direction 0, the walk
    reaches the bottom-right corner in `M` iterations and turns up; the loop exits there
    exactly when that corner is the first border pixel. -/
theorem square_side_bottom {d : vpDot2} {I : Image} {u0 v0 : Int} {M : Nat} (hM : 1 ≤ M)
    (hS : SquareBlob d I u0 v0 M) (fv fd : Int) (L1 L2 L3 L4 : Prop)
    (a00 a10 a01 : ℚ) (fuel : Nat) (s : BorderState)
    (hs : SqInv u0 v0 M u0 (v0 + M) 0 a00 a10 a01 L1 L2 L3 L4 s) :
    ∃ s', SqInv u0 v0 M (u0 + M) (v0 + M) 6 (a00 + M * ((v0 + M : Int) : ℚ)) a10
        (a01 + M * ((1 / 2) * ((v0 + M : Int) : ℚ) * ((v0 + M : Int) : ℚ)))
        L1 True L3 L4 s' ∧
      d.followBorder I (u0 + M) fv fd (fuel + M) s
        = if fv = v0 + M ∧ fd = 6 then some (true, s')
          else d.followBorder I (u0 + M) fv fd fuel s' := by
  obtain ⟨s1, h1, f1⟩ := square_run_right hS (u0 + M) fv fd L1 L2 L3 L4 u0
    a00 a10 a01 (M - 1) (by omega) (by omega) (fun j hj1 _ hc => by omega) (fuel + 1) s hs
  have hch := square_chain_right hS (u0 + M) (by omega)
  rw [if_pos rfl] at hch
  obtain ⟨_, _, _, ⟨p16, p17, p18, p19, p20⟩⟩ :=
    freemanParameters_axis d (u0 + ((M - 1 : Nat) : Int)) (v0 + M)
  obtain ⟨r1, r2, r3, r4⟩ := sq_step d I u0 v0 M s1 (u0 + ((M - 1 : Nat) : Int)) (v0 + M) 0
    (u0 + M) (v0 + M) 6 _ _ _ (a00 + M * ((v0 + M : Int) : ℚ)) a10
    (a01 + M * ((1 / 2) * ((v0 + M : Int) : ℚ) * ((v0 + M : Int) : ℚ)))
    L1 L2 L3 L4 L1 True L3 L4 h1
    (by rw [p16]; omega) (by rw [p17]; omega)
    (by rw [p18]; push_cast [Nat.cast_sub hM]; ring)
    (by rw [p19]; push_cast [Nat.cast_sub hM]; ring)
    (by rw [p20]; push_cast [Nat.cast_sub hM]; ring)
    (by omega) hch Or.inl (fun _ => Or.inr rfl) Or.inl Or.inl
  refine ⟨_, r4, ?_⟩
  have e1 : fuel + M = fuel + 1 + (M - 1) := by omega
  rw [e1, f1, followBorder_succ_true d I _ fv fd fuel s1 6 r1, r2, r3]
  simp only [true_and]

/-- The right side of the square, up to the top-right corner: from the pixel `a` rows
    below the corner, direction 6, the walk reaches the corner in `a` iterations and turns
    left. -/
theorem square_side_right {d : vpDot2} {I : Image} {u0 v0 : Int} {M : Nat}
    (hS : SquareBlob d I u0 v0 M) (fv fd : Int) (L1 L2 L3 L4 : Prop)
    (a : Nat) (ha1 : 1 ≤ a) (haM : a ≤ M) (hfv : v0 + a ≤ fv)
    (a00 a10 a01 : ℚ) (fuel : Nat) (s : BorderState)
    (hs : SqInv u0 v0 M (u0 + M) (v0 + a) 6 a00 a10 a01 L1 L2 L3 L4 s) :
    ∃ s', SqInv u0 v0 M (u0 + M) v0 4 a00
        (a10 + a * ((1 / 2) * ((u0 + M : Int) : ℚ) * ((u0 + M : Int) : ℚ))) a01
        L1 L2 L3 L4 s' ∧
      d.followBorder I (u0 + M) fv fd (fuel + a) s
        = d.followBorder I (u0 + M) fv fd fuel s' := by
  have hm := hS.1
  obtain ⟨s1, h1, f1⟩ := square_run_up hS (u0 + M) fv fd L1 L2 L3 L4 (v0 + a)
    a00 a10 a01 (a - 1) (by omega) (by omega) (fun j hj1 _ hc => by omega) (fuel + 1) s hs
  have hch := square_chain_up hS v0 (by omega)
  rw [if_pos rfl] at hch
  obtain ⟨⟨p1, p2, p3, p4, p5⟩, _, _, _⟩ :=
    freemanParameters_axis d (u0 + M) (v0 + a - ((a - 1 : Nat) : Int))
  obtain ⟨r1, r2, r3, r4⟩ := sq_step d I u0 v0 M s1 (u0 + M) (v0 + a - ((a - 1 : Nat) : Int))
    6 (u0 + M) v0 4 _ _ _ a00
    (a10 + a * ((1 / 2) * ((u0 + M : Int) : ℚ) * ((u0 + M : Int) : ℚ))) a01
    L1 L2 L3 L4 L1 L2 L3 L4 h1
    (by rw [p1]; omega) (by rw [p2]; omega)
    (by rw [p3]; push_cast [Nat.cast_sub ha1]; ring)
    (by rw [p4]; push_cast [Nat.cast_sub ha1]; ring)
    (by rw [p5]; push_cast [Nat.cast_sub ha1]; ring)
    (by omega) hch Or.inl Or.inl Or.inl Or.inl
  refine ⟨_, r4, ?_⟩
  have e1 : fuel + a = fuel + 1 + (a - 1) := by omega
  rw [e1, f1, followBorder_succ_true d I _ fv fd fuel s1 4 r1, if_neg]
  rw [r3]
  intro hc
  have := hc.2.1
  omega

/-- The right side of the square, from the bottom-right corner up to the first border
    pixel `a` rows below the top-right corner (`a < M`): the walk arrives there after
    `M - a` iterations with the first direction, and the loop exits. -/
theorem square_side_close {d : vpDot2} {I : Image} {u0 v0 : Int} {M : Nat}
    (hS : SquareBlob d I u0 v0 M) (L1 L2 L3 L4 : Prop)
    (a : Nat) (haM : a < M)
    (a00 a10 a01 : ℚ) (fuel : Nat) (s : BorderState)
    (hs : SqInv u0 v0 M (u0 + M) (v0 + M) 6 a00 a10 a01 L1 L2 L3 L4 s) :
    ∃ s', SqInv u0 v0 M (u0 + M) (v0 + a) (if v0 + (a : Int) = v0 then 4 else 6) a00
        (a10 + ((M - a : Nat) : ℚ) * ((1 / 2) * ((u0 + M : Int) : ℚ) * ((u0 + M : Int) : ℚ)))
        a01 L1 L2 L3 L4 s' ∧
      d.followBorder I (u0 + M) (v0 + a) (if v0 + (a : Int) = v0 then 4 else 6)
        (fuel + (M - a)) s = some (true, s') := by
  have hm := hS.1
  obtain ⟨s1, h1, f1⟩ := square_run_up hS (u0 + M) (v0 + a)
    (if v0 + (a : Int) = v0 then 4 else 6) L1 L2 L3 L4 (v0 + M)
    a00 a10 a01 (M - a - 1) (by omega) (by omega) (fun j hj1 _ hc => by omega)
    (fuel + 1) s hs
  have hch := square_chain_up hS (v0 + a) (by omega)
  have hk : 1 ≤ M - a := by omega
  obtain ⟨⟨p1, p2, p3, p4, p5⟩, _, _, _⟩ :=
    freemanParameters_axis d (u0 + M) (v0 + M - ((M - a - 1 : Nat) : Int))
  obtain ⟨r1, r2, r3, r4⟩ := sq_step d I u0 v0 M s1 (u0 + M)
    (v0 + M - ((M - a - 1 : Nat) : Int))
    6 (u0 + M) (v0 + a) (if v0 + (a : Int) = v0 then 4 else 6) _ _ _ a00
    (a10 + ((M - a : Nat) : ℚ) * ((1 / 2) * ((u0 + M : Int) : ℚ) * ((u0 + M : Int) : ℚ)))
    a01
    L1 L2 L3 L4 L1 L2 L3 L4 h1
    (by rw [p1]; omega) (by rw [p2]; omega)
    (by rw [p3]; ring)
    (by rw [p4, show M - a - 1 = (M - a) - 1 from rfl]; push_cast [Nat.cast_sub hk]; ring)
    (by rw [p5]; ring)
    (by omega) hch Or.inl Or.inl Or.inl Or.inl
  refine ⟨_, r4, ?_⟩
  have e1 : fuel + (M - a) = fuel + 1 + (M - a - 1) := by omega
  rw [e1, f1, followBorder_succ_true d I _ _ _ fuel s1 _ r1, if_pos]
  exact ⟨r2.symm, r3.symm, rfl⟩

/-- Top, left and bottom sides in a row: from the top-right corner to the bottom-right
    corner in `3 * M` iterations. -/
theorem square_three_sides {d : vpDot2} {I : Image} {u0 v0 : Int} {M : Nat} (hM : 1 ≤ M)
    (hS : SquareBlob d I u0 v0 M) (fv fd : Int) (L1 L2 L3 L4 : Prop)
    (a00 a10 a01 : ℚ) (fuel : Nat) (s : BorderState)
    (hs : SqInv u0 v0 M (u0 + M) v0 4 a00 a10 a01 L1 L2 L3 L4 s) :
    ∃ s', SqInv u0 v0 M (u0 + M) (v0 + M) 6
        (a00 - M * v0 + M * ((v0 + M : Int) : ℚ))
        (a10 - M * ((1 / 2) * u0 * u0))
        (a01 - M * ((1 / 2) * v0 * v0)
          + M * ((1 / 2) * ((v0 + M : Int) : ℚ) * ((v0 + M : Int) : ℚ)))
        True True True True s' ∧
      d.followBorder I (u0 + M) fv fd (fuel + M + M + M) s
        = if fv = v0 + M ∧ fd = 6 then some (true, s')
          else d.followBorder I (u0 + M) fv fd fuel s' := by
  obtain ⟨s2, h2, f2⟩ := square_side_top hM hS fv fd L1 L2 L3 L4 a00 a10 a01
    (fuel + M + M) s hs
  obtain ⟨s3, h3, f3⟩ := square_side_left hM hS fv fd True L2 True L4 _ _ _
    (fuel + M) s2 h2
  obtain ⟨s4, h4, f4⟩ := square_side_bottom hM hS fv fd True L2 True True _ _ _
    fuel s3 h3
  exact ⟨s4, h4, by rw [f2, f3, f4]⟩

/-- The whole walk around the square: started on the right side, `a` rows below the
    top-right corner, the loop exits normally after `4 * M` iterations with the moments and
    extremes of the square. -/
theorem square_walk {d : vpDot2} {I : Image} {u0 v0 : Int} {M : Nat} (hM : 1 ≤ M)
    (hS : SquareBlob d I u0 v0 M) (a : Nat) (haM : a ≤ M) (fuel : Nat) :
    ∃ r, d.followBorder I (u0 + M) (v0 + a) (if v0 + (a : Int) = v0 then 4 else 6)
        (fuel + 4 * M)
        (startState I (u0 + M) (v0 + a) (if v0 + (a : Int) = v0 then 4 else 6))
        = some (true, r) ∧
      r.m00 = (M : ℚ) * M ∧
      r.m10 = (M : ℚ) * M * (u0 + (M : ℚ) / 2) ∧
      r.m01 = (M : ℚ) * M * (v0 + (M : ℚ) / 2) ∧
      r.u_min = u0 ∧ r.u_max = u0 + M ∧ r.v_min = v0 ∧ r.v_max = v0 + M := by
  have hS2 := hS
  obtain ⟨_, hu0, hv0, hc, hr, _⟩ := hS2
  have h0 : SqInv u0 v0 M (u0 + M) (v0 + a) (if v0 + (a : Int) = v0 then 4 else 6) 0 0 0
      False False False False
      (startState I (u0 + M) (v0 + a) (if v0 + (a : Int) = v0 then 4 else 6)) :=
    ⟨rfl, rfl, rfl, rfl, rfl, rfl, by show u0 ≤ I.cols; omega, by show (0 : Int) ≤ u0 + M; omega,
      by show v0 ≤ I.rows; omega, by show (0 : Int) ≤ v0 + M; omega,
      False.elim, False.elim, False.elim, False.elim⟩
  have fin : ∀ (r : BorderState) (b10 : ℚ) (c y : Int),
      SqInv u0 v0 M (u0 + M) y c
        (0 - M * v0 + M * ((v0 + M : Int) : ℚ)) b10
        (0 - M * ((1 / 2) * v0 * v0)
          + M * ((1 / 2) * ((v0 + M : Int) : ℚ) * ((v0 + M : Int) : ℚ)))
        True True True True r →
      b10 = (M : ℚ) * ((1 / 2) * ((u0 + M : Int) : ℚ) * ((u0 + M : Int) : ℚ))
        - M * ((1 / 2) * u0 * u0) →
      r.m00 = (M : ℚ) * M ∧
      r.m10 = (M : ℚ) * M * (u0 + (M : ℚ) / 2) ∧
      r.m01 = (M : ℚ) * M * (v0 + (M : ℚ) / 2) ∧
      r.u_min = u0 ∧ r.u_max = u0 + M ∧ r.v_min = v0 ∧ r.v_max = v0 + M := by
    intro r b10 c y hr hb
    obtain ⟨_, _, _, r4, r5, r6, r7, r8, r9, r10, r11, r12, r13, r14⟩ := hr
    have := r11 trivial
    have := r12 trivial
    have := r13 trivial
    have := r14 trivial
    refine ⟨?_, ?_, ?_, by omega, by omega, by omega, by omega⟩
    · rw [r4]; push_cast; ring
    · rw [r5, hb]; push_cast; ring
    · rw [r6]; push_cast; ring
  by_cases ha0 : a = 0
  · subst ha0
    simp only [Nat.cast_zero, add_zero, if_true] at h0 ⊢
    obtain ⟨s4, h4, f4⟩ := square_three_sides hM hS (v0) 4 False False False False 0 0 0
      (fuel + M) _ h0
    rw [if_neg (by omega)] at f4
    obtain ⟨s5, h5, f5⟩ := square_side_close hS True True True True 0 (by omega)
      _ _ _ fuel s4 h4
    simp only [Nat.cast_zero, add_zero, if_true, Nat.sub_zero] at h5 f5
    refine ⟨s5, ?_, ?_⟩
    · have e : fuel + 4 * M = fuel + M + M + M + M := by omega
      rw [e, f4, f5]
    · exact fin s5 _ 4 _ h5 (by ring)
  · have hne : ¬ (v0 + (a : Int) = v0) := by omega
    rw [if_neg hne] at h0 ⊢
    by_cases haM2 : a = M
    · subst haM2
      obtain ⟨s1, h1, f1⟩ := square_side_right hS (v0 + a) 6 False False False False a
        (by omega) le_rfl le_rfl 0 0 0 (fuel + a + a + a) _ h0
      obtain ⟨s4, h4, f4⟩ := square_three_sides hM hS (v0 + a) 6 False False False False
        _ _ _ fuel s1 h1
      rw [if_pos ⟨rfl, rfl⟩] at f4
      refine ⟨s4, ?_, ?_⟩
      · have e : fuel + 4 * a = fuel + a + a + a + a := by omega
        rw [e, f1, f4]
      · exact fin s4 _ 6 _ h4 (by ring)
    · have hlt : a < M := by omega
      obtain ⟨s1, h1, f1⟩ := square_side_right hS (v0 + a) 6 False False False False a
        (by omega) haM le_rfl 0 0 0 (fuel + (M - a) + M + M + M) _ h0
      obtain ⟨s4, h4, f4⟩ := square_three_sides hM hS (v0 + a) 6 False False False False
        _ _ _ (fuel + (M - a)) s1 h1
      rw [if_neg (by omega)] at f4
      obtain ⟨s5, h5, f5⟩ := square_side_close hS True True True True a hlt
        _ _ _ fuel s4 h4
      rw [if_neg hne] at h5 f5
      refine ⟨s5, ?_, ?_⟩
      · have e : fuel + 4 * M = fuel + (M - a) + M + M + M + a := by omega
        rw [e, f1, f4, f5]
      · exact fin s5 _ 6 _ h5 (by push_cast [Nat.cast_sub haM]; ring)

theorem toInt_intCast (z : Int) : toInt (z : ℚ) = z := by
  simp [toInt]

/-- On a non-negative rational the cast `(int)` is the floor. -/
theorem toInt_of_nonneg (q : ℚ) (h : 0 ≤ q) : toInt q = ⌊q⌋ := by
  unfold toInt
  rw [Rat.floor_def, Int.tdiv_eq_ediv (Rat.num_nonneg.2 h) (by positivity)]

theorem toInt_between (q : ℚ) (a b : Int) (h0 : 0 ≤ q) (ha : (a : ℚ) ≤ q) (hb : q ≤ b) :
    a ≤ toInt q ∧ toInt q ≤ b := by
  rw [toInt_of_nonneg q h0]
  exact ⟨Int.le_floor.2 ha, Int.floor_le_iff.2 (by linarith)⟩

/-- The rightward scan across the square stops on its last column. -/
theorem square_scan {d : vpDot2} {I : Image} {u0 v0 : Int} {M : Nat}
    (hS : SquareBlob d I u0 v0 M) (hw : d.width = 0) (est_u : ℚ) (y : Int)
    (hy : v0 ≤ y ∧ y ≤ v0 + M) (hmax : u0 + M ≤ d.area.u_max) :
    ∀ (k : Nat) (x : Int), u0 ≤ x → x ≤ u0 + M → u0 + M - x ≤ k →
      d.findFirstBorder I est_u y k x = some (u0 + M) := by
  intro k
  induction k with
  | zero =>
    intro x h1 h2 h3
    have : x = u0 + M := by omega
    rw [this]; rfl
  | succ k ih =>
    intro x h1 h2 h3
    by_cases hx : x = u0 + M
    · rw [hx]
      exact findFirstBorder_stop d I est_u y _ _ (sq_bad hS _ _ (by omega))
    · have hg : d.hasGoodLevel I (x + 1) y = true := sq_good hS _ _ (by omega)
      rw [findFirstBorder, if_pos ⟨hg, by omega⟩, if_neg (by rw [hw]; simp)]
      exact ih (x + 1) (by omega) (by omega) (by omega)

/-- The square blob in the exact layer, whatever its coordinates: for every n >= 3 and
    every image whose pixels above inLevel, among the pixels of the search area, are exactly
    an axis-aligned n-by-n square of top-left pixel (u0, v0) lying inside the image and the
    search area, the exact `computeParameters` seeded at any pixel (su, sv) of the square on
    a dot whose width is still 0 returns true (given at least 4(n-1) loop iterations) with
    width = height = n-1, surface = m00 = (n-1)^2 and centre (u0 + (n-1)/2, v0 + (n-1)/2).
    In the rounded layer the same needs a bound on the coordinates. -/
theorem square_blob_exact (n : Nat) (hn : 3 ≤ n) (fuel : Nat)
    (hfuel : 4 * (n - 1) ≤ fuel) (d : vpDot2) (I : Image) (u0 v0 su sv : Int)
    (hw : d.width = 0)
    (himg : 0 ≤ u0 ∧ u0 + n ≤ I.cols ∧ 0 ≤ v0 ∧ v0 + n ≤ I.rows)
    (harea : d.area.u_min ≤ u0 ∧ u0 + n - 1 ≤ d.area.u_max ∧
      d.area.v_min ≤ v0 ∧ v0 + n - 1 ≤ d.area.v_max)
    (hpix : ∀ x y : Int, d.isInArea I x y = true →
      (d.inLevel < (I.pix x y : Int) ↔ (u0 ≤ x ∧ x < u0 + n ∧ v0 ≤ y ∧ y < v0 + n)))
    (hseed : u0 ≤ su ∧ su < u0 + n ∧ v0 ≤ sv ∧ sv < v0 + n) :
    ∃ d', computeParameters fuel d I su sv = some (true, d') ∧
      d'.width = (n : ℚ) - 1 ∧ d'.height = (n : ℚ) - 1 ∧
      d'.surface = ((n : ℚ) - 1) ^ 2 ∧ d'.m00 = ((n : ℚ) - 1) ^ 2 ∧
      d'.cog_ufloat = u0 + ((n : ℚ) - 1) / 2 ∧ d'.cog_vfloat = v0 + ((n : ℚ) - 1) / 2 := by
  obtain ⟨M, rfl⟩ : ∃ M, n = M + 1 := ⟨n - 1, by omega⟩
  have hM : 2 ≤ M := by omega
  simp only [Nat.add_sub_cancel] at hfuel
  push_cast at himg harea hpix hseed ⊢
  have hS : SquareBlob d.clearBorder I u0 v0 M := by
    refine ⟨by omega, by omega, by omega, by omega, by omega, ?_⟩
    intro x y
    rw [clearBorder_hasGoodLevel, hasGoodLevel_iff]
    constructor
    · rintro ⟨h1, h2⟩
      have := (hpix x y h1).1 h2
      omega
    · intro h
      have h1 : d.isInArea I x y = true := (isInArea_iff d I x y).2 (by omega)
      exact ⟨h1, (hpix x y h1).2 (by omega)⟩
  have hsu : estimate d.cog_ufloat (su : ℚ) = su := by
    apply estimate_ne
    have : (0 : ℚ) ≤ (su : ℚ) := by exact_mod_cast (by omega : 0 ≤ su)
    linarith
  have hsv : estimate d.cog_vfloat (sv : ℚ) = sv := by
    apply estimate_ne
    have : (0 : ℚ) ≤ (sv : ℚ) := by exact_mod_cast (by omega : 0 ≤ sv)
    linarith
  have hg : d.hasGoodLevel I (toInt (estimate d.cog_ufloat (su : ℚ)))
      (toInt (estimate d.cog_vfloat (sv : ℚ))) = true := by
    rw [hsu, hsv, toInt_intCast, toInt_intCast]
    exact sq_good hS su sv (by omega)
  have hb : d.clearBorder.findFirstBorder I (estimate d.cog_ufloat (su : ℚ))
      (toInt (estimate d.cog_vfloat (sv : ℚ)))
      (d.area.u_max - toInt (estimate d.cog_ufloat (su : ℚ))).toNat
      (toInt (estimate d.cog_ufloat (su : ℚ))) = some (u0 + M) := by
    rw [hsu, hsv, toInt_intCast, toInt_intCast]
    exact square_scan hS hw _ sv (by omega) (by show u0 + (M : Int) ≤ d.area.u_max; omega)
      _ su (by omega) (by omega) (by omega)
  rw [computeParameters_of_border fuel d I su sv _ hg hb, hsv, toInt_intCast]
  obtain ⟨a, rfl⟩ : ∃ a : Nat, sv = v0 + a := ⟨(sv - v0).toNat, by omega⟩
  have haM : a ≤ M := by omega
  rw [square_chain_up hS (v0 + a) (by omega)]
  obtain ⟨f, rfl⟩ : ∃ f, fuel = f + 4 * M := ⟨fuel - 4 * M, by omega⟩
  obtain ⟨r, hr, m00, m10, m01, b1, b2, b3, b4⟩ := square_walk (by omega) hS a haM f
  simp only []
  rw [hr]
  simp only []
  have hMq : (2 : ℚ) ≤ (M : ℚ) := by exact_mod_cast hM
  have hu0q : (0 : ℚ) ≤ (u0 : ℚ) := by exact_mod_cast himg.1
  have hv0q : (0 : ℚ) ≤ (v0 : ℚ) := by exact_mod_cast himg.2.2.1
  have hMM : (M : ℚ) * M ≠ 0 := by positivity
  have e00 : (d.clearBorder.store r).m00 = (M : ℚ) * M := m00
  have e10 : (d.clearBorder.store r).m10 = (M : ℚ) * M * (u0 + (M : ℚ) / 2) := m10
  have e01 : (d.clearBorder.store r).m01 = (M : ℚ) * M * (v0 + (M : ℚ) / 2) := m01
  have cu : (d.clearBorder.store r).m10 / (d.clearBorder.store r).m00
      = u0 + (M : ℚ) / 2 := by
    rw [e10, e00]; field_simp; ring
  have cv : (d.clearBorder.store r).m01 / (d.clearBorder.store r).m00
      = v0 + (M : ℚ) / 2 := by
    rw [e01, e00]; field_simp; ring
  have tu := toInt_between ((u0 : ℚ) + (M : ℚ) / 2) u0 (u0 + M) (by positivity)
    (by linarith) (by push_cast; linarith)
  have tv := toInt_between ((v0 : ℚ) + (M : ℚ) / 2) v0 (v0 + M) (by positivity)
    (by linarith) (by push_cast; linarith)
  rw [finish_of_checks _ I _ _ _ _ (by rw [e00]; exact hMM)
    (by rw [e00]; nlinarith)
    (by rw [cu, cv]; exact sq_good hS _ _ ⟨tu.1, tu.2, tv.1, tv.2⟩)]
  refine ⟨_, rfl, ?_, ?_, ?_, ?_, ?_, ?_⟩
  · show ((r.u_max - r.u_min : Int) : ℚ) = _
    rw [b1, b2]; push_cast; ring
  · show ((r.v_max - r.v_min : Int) : ℚ) = _
    rw [b3, b4]; push_cast; ring
  · show (d.clearBorder.store r).m00 = _
    rw [e00]; ring
  · show (d.clearBorder.store r).m00 = _
    rw [e00]; ring
  · show (d.clearBorder.store r).m10 / (d.clearBorder.store r).m00 = _
    rw [cu]; ring
  · show (d.clearBorder.store r).m01 / (d.clearBorder.store r).m00 = _
    rw [cv]; ring

/-! ### Closed statements on the sample images -/

/-- C5 as stated fails: the dot that tracked the 3 x 3 square (m00 = 4, m10 = 8, m01 = 8)
    is given the image with the single bright pixel (3, 2); `computeParameters` seeded there
    returns false and leaves m00 = 0, m10 = 9/2, m01 = 0. -/
theorem computeParameters_false_moments_counterexample :
    computeParameters 1 Sample.square3Dot Sample.single 3 2 = some (false, Sample.lostDot) ∧
    Sample.square3Dot.m00 = 4 ∧ Sample.lostDot.m00 = 0 ∧
    Sample.square3Dot.m10 = 8 ∧ Sample.lostDot.m10 = 9 / 2 ∧
    Sample.square3Dot.m01 = 8 ∧ Sample.lostDot.m01 = 0 := by
  decide!

/-- Witness of C5 (amended): the same failed call keeps centre, width, height and
    surface. -/
theorem computeParameters_false_keeps_witness :
    computeParameters 1 Sample.square3Dot Sample.single 3 2 = some (false, Sample.lostDot) ∧
    (Sample.lostDot.cog_ufloat = Sample.square3Dot.cog_ufloat ∧
     Sample.lostDot.cog_vfloat = Sample.square3Dot.cog_vfloat ∧
     Sample.lostDot.width = Sample.square3Dot.width ∧
     Sample.lostDot.height = Sample.square3Dot.height ∧
     Sample.lostDot.surface = Sample.square3Dot.surface) :=
  ⟨by decide!,
   computeParameters_false_keeps 1 Sample.square3Dot Sample.single 3 2 Sample.lostDot
     (by decide!)⟩

/-- Witness of C7: the successful call on the 3 x 3 square (surface = m00 = 4). -/
theorem computeParameters_surface_m00_witness :
    computeParameters 8 Sample.dot5 Sample.square3 2 2 = some (true, Sample.square3Dot) ∧
    ((true = true → Sample.square3Dot.surface = Sample.square3Dot.m00 ∧
        Sample.square3Dot.m00 ≠ 0 ∧ Sample.square3Dot.m00 ≠ 1) ∧
     ((Sample.square3Dot.m00 = 0 ∨ Sample.square3Dot.m00 = 1) → true = false) ∧
     (∀ (t : vpDot2) (u_min u_max v_min v_max : Int), (t.m00 = 0 ∨ t.m00 = 1) →
        finish t Sample.square3 u_min u_max v_min v_max = (false, t))) :=
  ⟨by decide!,
   computeParameters_surface_m00 8 Sample.dot5 Sample.square3 2 2 true Sample.square3Dot
     (by decide!)⟩

/-- The 2 x 2 square: the walk closes with m00 = 1 and `computeParameters` returns false. -/
theorem computeParameters_degenerate_square :
    computeParameters 8 Sample.dot5 Sample.square2 1 1 = some (false, Sample.square2Dot) ∧
    Sample.square2Dot.m00 = 1 := by
  decide!

/-- Witness of C9: the bright corner pixel (0, 0) of a 5 x 5 image, on the border row and
    column of the area. -/
theorem isolated_pixel_fails_witness :
    Sample.dot5.hasGoodLevel Sample.corner
      (toInt (estimate Sample.dot5.cog_ufloat 0)) (toInt (estimate Sample.dot5.cog_vfloat 0))
      = true ∧
    ∃ d', computeParameters 1 Sample.dot5 Sample.corner 0 0 = some (false, d') :=
  ⟨by decide!,
   isolated_pixel_fails 1 Sample.dot5 Sample.corner 0 0 (by decide) (by decide!)
    (by
      have e1 : toInt (estimate Sample.dot5.cog_ufloat 0) = 0 := by decide!
      have e2 : toInt (estimate Sample.dot5.cog_vfloat 0) = 0 := by decide!
      intro du dv h1 h2 h3 h4 h5
      rw [e1, e2]
      interval_cases du <;> interval_cases dv <;> first | decide | (exfalso; omega))⟩

end vpDot2

namespace vpDot2

/-! ### Setters, the clipped area and the grid -/

/-- The area set by `setArea` lies in the image. -/
theorem setArea_in_image (d : vpDot2) (I : Image) (u v w h : Int)
    (hc : 1 ≤ I.cols) (hr : 1 ≤ I.rows) :
    0 ≤ (d.setArea I u v w h).area.u_min ∧ (d.setArea I u v w h).area.u_max < I.cols ∧
    0 ≤ (d.setArea I u v w h).area.v_min ∧ (d.setArea I u v w h).area.v_max < I.rows := by
  simp only [setArea]
  refine ⟨?_, ?_, ?_, ?_⟩ <;> split_ifs <;> omega

/-- C12: for every integer x, after `setInLevel(x)` `getInLevel()` returns max(x, 70); in
    particular every x below 70 (written min(x, 69)) gives the level 70. -/
theorem setInLevel_getInLevel (d : vpDot2) (x : Int) :
    (d.setInLevel x).getInLevel = max x 70 ∧ (d.setInLevel (min x 69)).getInLevel = 70 := by
  simp only [setInLevel, getInLevel, MIN_IN_LEVEL]
  constructor <;> split_ifs <;> simp only [] <;> omega

/-- C13: for every value a, after `setAccuracy(a)` `getAccuracy()` returns 0.05 if a <= 0,
    1.0 if a > 1, and a itself if 0.05 <= a <= 1. -/
theorem setAccuracy_getAccuracy (d : vpDot2) (a : ℚ) :
    (a ≤ 0 → (d.setAccuracy a).getAccuracy = 5 / 100) ∧
    (1 < a → (d.setAccuracy a).getAccuracy = 1) ∧
    (5 / 100 ≤ a → a ≤ 1 → (d.setAccuracy a).getAccuracy = a) := by
  simp only [setAccuracy, getAccuracy]
  refine ⟨?_, ?_, ?_⟩
  · intro h
    rw [if_pos (by linarith)]
  · intro h
    rw [if_neg (by linarith), if_pos h]
  · intro h1 h2
    rw [if_neg (by linarith), if_neg (by linarith)]

/-- Witness of C13: the values -1, 2 and 0.5. -/
theorem setAccuracy_getAccuracy_witness :
    ((-1 : ℚ) ≤ 0 ∧ (1 : ℚ) < 2 ∧ (5 / 100 : ℚ) ≤ 1 / 2 ∧ (1 / 2 : ℚ) ≤ 1) ∧
    (Sample.dot5.setAccuracy (-1)).getAccuracy = 5 / 100 ∧
    (Sample.dot5.setAccuracy 2).getAccuracy = 1 ∧
    (Sample.dot5.setAccuracy (1 / 2)).getAccuracy = 1 / 2 :=
  ⟨by norm_num,
   (setAccuracy_getAccuracy Sample.dot5 (-1)).1 (by norm_num),
   (setAccuracy_getAccuracy Sample.dot5 2).2.1 (by norm_num),
   (setAccuracy_getAccuracy Sample.dot5 (1 / 2)).2.2 (by norm_num) (by norm_num)⟩

/-- The value used for `sqrt(2.)` is positive. -/
theorem sqrt2_pos : 0 < sqrt2 := by
  unfold sqrt2; norm_num

/-- The two sampling loops of `isValid` leave at the 17th and at the 22nd test of the loop
    condition: `15 * 0.4 < 2 * M_PI ≤ 16 * 0.4` and `20 * 0.3 < 2 * M_PI ≤ 21 * 0.3`. -/
theorem ring_exit :
    (15 : ℚ) * (4 / 10) < 2 * M_PI ∧ 2 * M_PI ≤ 16 * (4 / 10) ∧
    (20 : ℚ) * (3 / 10) < 2 * M_PI ∧ 2 * M_PI ≤ 21 * (3 / 10) := by
  unfold M_PI; norm_num

/-- The cast of the rounded quotient by `sqrt(2.)` of a rounded product of two non-negative
    numbers is not negative. -/
theorem toInt_grid_nonneg (w a : ℚ) (hw : 0 ≤ w) (ha : 0 ≤ a) :
    0 ≤ toInt (toDouble (toDouble (w * a) / sqrt2)) := by
  have h : 0 ≤ toDouble (toDouble (w * a) / sqrt2) :=
    toDouble_nonneg _ (div_nonneg (toDouble_nonneg _ (mul_nonneg hw ha)) sqrt2_pos.le)
  rw [toInt_of_nonneg _ h]
  exact Int.floor_nonneg.mpr h

end vpDot2

namespace vpDot2

/-! ### The list of candidates of `searchDotsInArea` -/

/-- The members `computeParameters` never writes. -/
theorem computeParameters_keeps {fuel : Nat} {d : vpDot2} {I : Image} {_u _v : ℚ}
    {b : Bool} {d' : vpDot2} (h : computeParameters fuel d I _u _v = some (b, d')) :
    d'.inLevel = d.inLevel ∧ d'.outLevel = d.outLevel ∧ d'.accuracy = d.accuracy ∧
    d'.area = d.area ∧ d'.graphics = d.graphics ∧ d'.compute_moment = d.compute_moment := by
  rcases computeParameters_cases h with ⟨_, h1 | ⟨s, h1⟩⟩ | ⟨_, s, h1⟩
  · subst h1; exact ⟨rfl, rfl, rfl, rfl, rfl, rfl⟩
  · subst h1; exact ⟨rfl, rfl, rfl, rfl, rfl, rfl⟩
  · obtain ⟨_, _, _, h2⟩ := finish_true_inv h1
    subst h2; exact ⟨rfl, rfl, rfl, rfl, rfl, rfl⟩

/-- After a successful `computeParameters` the truncated centre is a point of the area. -/
theorem computeParameters_true_centre {fuel : Nat} {d : vpDot2} {I : Image} {_u _v : ℚ}
    {d' : vpDot2} (h : computeParameters fuel d I _u _v = some (true, d')) :
    d.isInArea I (toInt d'.cog_ufloat) (toInt d'.cog_vfloat) = true := by
  rcases computeParameters_cases h with ⟨h0, _⟩ | ⟨_, s, h1⟩
  · simp at h0
  · obtain ⟨_, _, h2, h3⟩ := finish_true_inv h1
    subst h3
    have h4 := hasGoodLevel_isInArea h2
    rw [← h4]
    exact isInArea_congr rfl I _ _

/-- A point of an area set by `setArea` on an image of at least one pixel is in the
    image. -/
theorem isInArea_isInImage (d : vpDot2) (I : Image) (u v w h : Int)
    (hc : 1 ≤ I.cols) (hr : 1 ≤ I.rows) (d' : vpDot2) (x y : Int)
    (hxy : (d.setArea I u v w h).isInArea I x y = true) : d'.isInImage I x y = true := by
  obtain ⟨h1, h2, h3, h4⟩ := setArea_in_image d I u v w h hc hr
  rw [isInArea_iff] at hxy
  simp only [isInImage]
  rw [if_neg (by omega), if_neg (by omega)]

/-- The elements of the list after the insertion loop. -/
theorem mem_insertNice (a : vpAreaType) (c : vpDot2) :
    ∀ (L : List vpDot2) (x : vpDot2), x ∈ insertNice a c L → x = c ∨ x ∈ L := by
  intro L
  induction L with
  | nil =>
    intro x hx
    simp only [insertNice, List.mem_singleton] at hx
    exact Or.inl hx
  | cons tmp rest ih =>
    intro x hx
    simp only [insertNice] at hx
    split_ifs at hx with h1 h2
    · exact Or.inr hx
    · rcases List.mem_cons.1 hx with h3 | h3
      · exact Or.inl h3
      · exact Or.inr h3
    · rcases List.mem_cons.1 hx with h3 | h3
      · exact Or.inr (h3 ▸ List.mem_cons_self _ _)
      · rcases ih x h3 with h4 | h4
        · exact Or.inl h4
        · exact Or.inr (List.mem_cons_of_mem _ h4)

/-- The insertion loop keeps the list ordered by distance to the centre of the area. -/
theorem insertNice_sorted (a : vpAreaType) (c : vpDot2) :
    ∀ L : List vpDot2, L.Pairwise (fun x y => distSq a x ≤ distSq a y) →
      (insertNice a c L).Pairwise (fun x y => distSq a x ≤ distSq a y) := by
  intro L
  induction L with
  | nil => intro _; simp [insertNice]
  | cons tmp rest ih =>
    intro h
    have h0 := List.pairwise_cons.1 h
    simp only [insertNice]
    split_ifs with h1 h2
    · exact h
    · refine List.pairwise_cons.2 ⟨?_, h⟩
      intro y hy
      rcases List.mem_cons.1 hy with h3 | h3
      · rw [h3]; exact le_of_lt h2
      · exact le_trans (le_of_lt h2) (h0.1 y h3)
    · refine List.pairwise_cons.2 ⟨?_, ih h0.2⟩
      intro y hy
      rcases mem_insertNice a c rest y hy with h3 | h3
      · rw [h3]; exact not_lt.1 h2
      · exact h0.1 y h3

/-- The insertion loop keeps this: of two dots of the list whose centres are less than
    three pixels apart along both axes, the first is strictly nearer to the centre of the
    area. -/
theorem insertNice_near (a : vpAreaType) (c : vpDot2) :
    ∀ L : List vpDot2, L.Pairwise (fun x y => distSq a x ≤ distSq a y) →
      L.Pairwise (fun x y => sameCentre x y = true → distSq a x < distSq a y) →
      (insertNice a c L).Pairwise
        (fun x y => sameCentre x y = true → distSq a x < distSq a y) := by
  intro L
  induction L with
  | nil => intro _ _; simp [insertNice]
  | cons tmp rest ih =>
    intro hs h
    have hs0 := List.pairwise_cons.1 hs
    have h0 := List.pairwise_cons.1 h
    simp only [insertNice]
    split_ifs with h1 h2
    · exact h
    · refine List.pairwise_cons.2 ⟨?_, h⟩
      intro y hy _
      rcases List.mem_cons.1 hy with h3 | h3
      · rw [h3]; exact h2
      · exact lt_of_lt_of_le h2 (hs0.1 y h3)
    · refine List.pairwise_cons.2 ⟨?_, ih hs0.2 h0.2⟩
      intro y hy hsame
      rcases mem_insertNice a c rest y hy with h3 | h3
      · rw [h3] at hsame; exact absurd hsame h1
      · exact h0.1 y h3 hsame

/-- An invariant of the list of valid dots: it holds after the body of the search loops if
    it held before and every insertion of a valid candidate keeps it. -/
theorem testGerm_nice {t : Trig} {fuel : Nat} {d : vpDot2} {I : Image} {u v : Int}
    {lists r : List vpDot2 × List vpDot2} (P : List vpDot2 → Prop)
    (hstep : ∀ c L, P L →
      (d.newCandidate u v).computeParameters fuel I (-1) (-1) = some (true, c) →
      c.isValid t I d = true → P (insertNice d.area c L))
    (hP : P lists.1) (h : testGerm t fuel d I u v lists = some r) : P r.1 := by
  unfold testGerm at h
  split_ifs at h with h1 h2 h3
  · cases h; exact hP
  · cases h; exact hP
  · cases h; exact hP
  · split at h
    · simp at h
    · cases h; exact hP
    · rename_i c hc
      split_ifs at h with hv
      · cases h; exact hstep c _ hP hc hv
      · cases h; exact hP

/-- The invariant of `testGerm_nice` along a row of the grid. -/
theorem scanRow_nice {t : Trig} {fuel : Nat} {d : vpDot2} {I : Image} {gridWidth v : Int}
    (P : List vpDot2 → Prop)
    (hstep : ∀ u c L, P L →
      (d.newCandidate u v).computeParameters fuel I (-1) (-1) = some (true, c) →
      c.isValid t I d = true → P (insertNice d.area c L)) :
    ∀ (n : Nat) (u : Int) (lists r : List vpDot2 × List vpDot2), P lists.1 →
      scanRow t fuel d I gridWidth v n u lists = some r → P r.1 := by
  intro n
  induction n with
  | zero =>
    intro u lists r hP h
    simp only [scanRow] at h
    split_ifs at h
    cases h; exact hP
  | succ n ih =>
    intro u lists r hP h
    simp only [scanRow] at h
    split_ifs at h with h1
    · split at h
      · simp at h
      · rename_i lists1 h2
        exact ih _ lists1 r (testGerm_nice P (hstep u) hP h2) h
    · cases h; exact hP

/-- The invariant of `testGerm_nice` along the grid. -/
theorem scanGrid_nice {t : Trig} {fuel : Nat} {d : vpDot2} {I : Image}
    {gridWidth gridHeight : Int} (P : List vpDot2 → Prop)
    (hstep : ∀ u v c L, P L →
      (d.newCandidate u v).computeParameters fuel I (-1) (-1) = some (true, c) →
      c.isValid t I d = true → P (insertNice d.area c L)) :
    ∀ (n : Nat) (v : Int) (lists r : List vpDot2 × List vpDot2), P lists.1 →
      scanGrid t fuel d I gridWidth gridHeight n v lists = some r → P r.1 := by
  intro n
  induction n with
  | zero =>
    intro v lists r hP h
    simp only [scanGrid] at h
    split_ifs at h
    cases h; exact hP
  | succ n ih =>
    intro v lists r hP h
    simp only [scanGrid] at h
    split_ifs at h with h1
    · split at h
      · simp at h
      · rename_i lists1 h2
        exact ih _ lists1 r (scanRow_nice P (fun u => hstep u v) _ _ _ _ hP h2) h
    · cases h; exact hP

/-- What `searchDotsInArea` returns: the dot with the area set, and a list that has every
    property the empty list has and the insertion of a valid candidate keeps. -/
theorem searchDotsInArea_nice {t : Trig} {fuel : Nat} {d : vpDot2} {I : Image}
    {u v w h : Int} {r : vpDot2 × List vpDot2} (P : List vpDot2 → Prop) (hnil : P [])
    (hstep : ∀ x y c L, P L →
      ((d.setArea I u v w h).newCandidate x y).computeParameters fuel I (-1) (-1)
        = some (true, c) →
      c.isValid t I (d.setArea I u v w h) = true →
      P (insertNice (d.setArea I u v w h).area c L))
    (hr : d.searchDotsInArea t fuel I u v w h = some r) :
    r.1 = d.setArea I u v w h ∧ P r.2 := by
  unfold searchDotsInArea at hr
  simp only [] at hr
  split at hr
  · simp at hr
  · rename_i lists h1
    cases hr
    exact ⟨rfl, scanGrid_nice P hstep _ _ _ _ hnil h1⟩

/-- The levels and the accuracy of a fresh candidate. -/
theorem newCandidate_levels (d : vpDot2) (u v : Int) :
    (d.newCandidate u v).inLevel = max d.inLevel 70 ∧
    (d.newCandidate u v).outLevel = d.outLevel ∧
    (d.newCandidate u v).accuracy = 65 / 100 ∧
    (d.newCandidate u v).area = d.area := by
  simp only [newCandidate, setAreaType, setComputeMoments, setGraphics, setOutLevel,
    setInLevel, getInLevel, getOutLevel, MIN_IN_LEVEL]
  refine ⟨?_, ?_, ?_, ?_⟩
  · split_ifs with h1
    · simp only []; omega
    · simp only []; omega
  · trivial
  · split_ifs <;> rfl
  · trivial

/-- The test of line 942 spelled out. -/
theorem sameCentre_iff (x y : vpDot2) :
    sameCentre x y = true ↔
      |x.cog_ufloat - y.cog_ufloat| < 3 ∧ |x.cog_vfloat - y.cog_vfloat| < 3 := by
  simp [sameCentre, get_u, get_v]

/-- C16: for every image, reference dot and window, the list returned by
    `searchDotsInArea` is ordered nearest first: the Euclidean distance from a candidate's
    centre to the centre of the clipped search area (the point (cog_u, cog_v) that
    `setArea` stores in the area of the dot) is at most that of every candidate that comes
    later in the list. -/
theorem searchDotsInArea_sorted (t : Trig) (fuel : Nat) (d : vpDot2) (I : Image)
    (u v w h : Int) (r : vpDot2 × List vpDot2)
    (hr : d.searchDotsInArea t fuel I u v w h = some r) :
    r.2.Pairwise (fun c1 c2 =>
      Real.sqrt (((c1.cog_ufloat - r.1.area.cog_u) ^ 2
          + (c1.cog_vfloat - r.1.area.cog_v) ^ 2 : ℚ) : ℝ)
        ≤ Real.sqrt (((c2.cog_ufloat - r.1.area.cog_u) ^ 2
          + (c2.cog_vfloat - r.1.area.cog_v) ^ 2 : ℚ) : ℝ)) := by
  obtain ⟨h1, h2⟩ := searchDotsInArea_nice
    (fun L => L.Pairwise (fun x y => distSq (d.setArea I u v w h).area x
      ≤ distSq (d.setArea I u v w h).area y))
    List.Pairwise.nil (fun _ _ c L hL _ _ => insertNice_sorted _ c L hL) hr
  rw [h1]
  refine h2.imp ?_
  intro c1 c2 h3
  apply Real.sqrt_le_sqrt
  have h4 : ((distSq (d.setArea I u v w h).area c1 : ℚ) : ℝ)
      ≤ ((distSq (d.setArea I u v w h).area c2 : ℚ) : ℝ) := by exact_mod_cast h3
  simp only [distSq, get_u, get_v] at h4
  simp only [pow_two]
  exact h4

end vpDot2

namespace vpDot2

/-- The run of `searchDotsInArea(I, 0, 0, 8, 8)` on the image `blobs`. -/
theorem blobSearch_eq :
    Sample.blobRef.searchDotsInArea Sample.trig 100 Sample.blobs 0 0 8 8
      = some Sample.blobSearch := by
  decide!

/-- The run of `searchDotsInArea(I, 0, 0, 13, 13)` on the image `square11`. -/
theorem search11_eq :
    Sample.ref11.searchDotsInArea Sample.trig 100 Sample.square11 0 0 13 13
      = some Sample.search11 := by
  decide!

/-- Witness of C16: on the image `blobs` the search returns the three blobs, the centres
    (7/3, 7/3), (19/3, 1/3), (1/3, 1/3) at the squared distances 50/9, 170/9, 242/9 from
    the centre (4, 4) of the area. -/
theorem searchDotsInArea_sorted_witness :
    Sample.blobRef.searchDotsInArea Sample.trig 100 Sample.blobs 0 0 8 8
      = some Sample.blobSearch ∧
    Sample.blobSearch.2.map (fun c => (c.cog_ufloat, c.cog_vfloat))
      = [(7 / 3, 7 / 3), (19 / 3, 1 / 3), (1 / 3, 1 / 3)] ∧
    Sample.blobSearch.2.Pairwise (fun c1 c2 =>
      Real.sqrt (((c1.cog_ufloat - Sample.blobSearch.1.area.cog_u) ^ 2
          + (c1.cog_vfloat - Sample.blobSearch.1.area.cog_v) ^ 2 : ℚ) : ℝ)
        ≤ Real.sqrt (((c2.cog_ufloat - Sample.blobSearch.1.area.cog_u) ^ 2
          + (c2.cog_vfloat - Sample.blobSearch.1.area.cog_v) ^ 2 : ℚ) : ℝ)) :=
  ⟨blobSearch_eq, by decide!,
   searchDotsInArea_sorted Sample.trig 100 Sample.blobRef Sample.blobs 0 0 8 8
     Sample.blobSearch blobSearch_eq⟩

/-- C17 as stated fails: on the image `blobs` the search returns three candidates whose
    first and last, the blobs at (7/3, 7/3) and (1/3, 1/3), have centres 2 pixels apart
    along both axes.  The blob at (1/3, 1/3) is found first, the blob at (19/3, 1/3)
    second; the blob at (7/3, 7/3) is nearer to the centre of the area than both, so it is
    inserted before the head of the list and never compared with the last one. -/
theorem searchDotsInArea_near_counterexample :
    Sample.blobRef.searchDotsInArea Sample.trig 100 Sample.blobs 0 0 8 8
      = some Sample.blobSearch ∧
    Sample.blobSearch.2.map (fun c => (c.cog_ufloat, c.cog_vfloat))
      = [(7 / 3, 7 / 3), (19 / 3, 1 / 3), (1 / 3, 1 / 3)] ∧
    ¬ Sample.blobSearch.2.Pairwise (fun c1 c2 =>
      ¬ (|c1.cog_ufloat - c2.cog_ufloat| < 3 ∧ |c1.cog_vfloat - c2.cog_vfloat| < 3)) := by
  decide!

/-- C17 (amended): for every image, reference dot and window, the list returned by
    `searchDotsInArea` contains no two candidates with the same centre, and whenever two
    candidates of the list have centres that differ by less than 3 pixels in both u and v,
    the one that comes first in the list is strictly nearer to the centre of the search
    area than the other. -/
theorem searchDotsInArea_near (t : Trig) (fuel : Nat) (d : vpDot2) (I : Image)
    (u v w h : Int) (r : vpDot2 × List vpDot2)
    (hr : d.searchDotsInArea t fuel I u v w h = some r) :
    r.2.Pairwise (fun c1 c2 =>
      ¬ (c1.cog_ufloat = c2.cog_ufloat ∧ c1.cog_vfloat = c2.cog_vfloat)) ∧
    r.2.Pairwise (fun c1 c2 =>
      |c1.cog_ufloat - c2.cog_ufloat| < 3 ∧ |c1.cog_vfloat - c2.cog_vfloat| < 3 →
        (c1.cog_ufloat - r.1.area.cog_u) ^ 2 + (c1.cog_vfloat - r.1.area.cog_v) ^ 2
          < (c2.cog_ufloat - r.1.area.cog_u) ^ 2 + (c2.cog_vfloat - r.1.area.cog_v) ^ 2) := by
  obtain ⟨h1, h2, h3⟩ := searchDotsInArea_nice
    (fun L => L.Pairwise (fun x y => distSq (d.setArea I u v w h).area x
        ≤ distSq (d.setArea I u v w h).area y) ∧
      L.Pairwise (fun x y => sameCentre x y = true →
        distSq (d.setArea I u v w h).area x < distSq (d.setArea I u v w h).area y))
    ⟨List.Pairwise.nil, List.Pairwise.nil⟩
    (fun _ _ c L hL _ _ => ⟨insertNice_sorted _ c L hL.1, insertNice_near _ c L hL.1 hL.2⟩) hr
  rw [h1]
  have key : r.2.Pairwise (fun c1 c2 =>
      |c1.cog_ufloat - c2.cog_ufloat| < 3 ∧ |c1.cog_vfloat - c2.cog_vfloat| < 3 →
        (c1.cog_ufloat - (d.setArea I u v w h).area.cog_u) ^ 2
            + (c1.cog_vfloat - (d.setArea I u v w h).area.cog_v) ^ 2
          < (c2.cog_ufloat - (d.setArea I u v w h).area.cog_u) ^ 2
            + (c2.cog_vfloat - (d.setArea I u v w h).area.cog_v) ^ 2) := by
    refine h3.imp ?_
    intro c1 c2 h4 h5
    have h6 := h4 ((sameCentre_iff c1 c2).2 h5)
    simp only [distSq, get_u, get_v] at h6
    simp only [pow_two]
    exact h6
  refine ⟨key.imp ?_, key⟩
  intro c1 c2 h4 h5
  have h6 := h4 (by rw [h5.1, h5.2]; norm_num)
  rw [h5.1, h5.2] at h6
  exact lt_irrefl _ h6

/-- Witness of C17 (amended): the run on the image `blobs`, where the two candidates that
    are 2 pixels apart stand at the squared distances 50/9 and 242/9. -/
theorem searchDotsInArea_near_witness :
    Sample.blobRef.searchDotsInArea Sample.trig 100 Sample.blobs 0 0 8 8
      = some Sample.blobSearch ∧
    Sample.blobSearch.2.length = 3 ∧
    Sample.blobSearch.2.Pairwise (fun c1 c2 =>
      ¬ (c1.cog_ufloat = c2.cog_ufloat ∧ c1.cog_vfloat = c2.cog_vfloat)) :=
  ⟨blobSearch_eq, by decide!,
   (searchDotsInArea_near Sample.trig 100 Sample.blobRef Sample.blobs 0 0 8 8
     Sample.blobSearch blobSearch_eq).1⟩

/-- C18 as stated fails: the reference dot `ref11` has accuracy 0.5 after
    `setAccuracy(0.5)`; the one candidate its search returns on `square11` has the
    accuracy 0.65 of the default constructor. -/
theorem searchDotsInArea_accuracy_counterexample :
    Sample.ref11.searchDotsInArea Sample.trig 100 Sample.square11 0 0 13 13
      = some Sample.search11 ∧
    Sample.search11.2.map (fun c => (c.inLevel, c.outLevel, c.accuracy))
      = [(210, 150, 65 / 100)] ∧
    Sample.ref11.accuracy = 1 / 2 ∧
    ¬ (∀ c ∈ Sample.search11.2, c.accuracy = Sample.ref11.accuracy) := by
  decide!

/-- C18 (amended): every candidate returned by `searchDotsInArea` carries the outLevel of
    the dot on which the search was called and its inLevel raised to at least 70,
    max(inLevel, 70), which is that inLevel whenever it is at least 70; its accuracy is the
    0.65 of a default-constructed dot, whatever the accuracy of the reference dot. -/
theorem searchDotsInArea_levels (t : Trig) (fuel : Nat) (d : vpDot2) (I : Image)
    (u v w h : Int) (r : vpDot2 × List vpDot2)
    (hr : d.searchDotsInArea t fuel I u v w h = some r) :
    ∀ c ∈ r.2, c.getInLevel = max d.getInLevel 70 ∧ c.getOutLevel = d.getOutLevel ∧
      c.getAccuracy = 65 / 100 ∧ (70 ≤ d.getInLevel → c.getInLevel = d.getInLevel) := by
  have key := (searchDotsInArea_nice
    (fun L => ∀ c ∈ L, c.inLevel = max d.inLevel 70 ∧ c.outLevel = d.outLevel ∧
      c.accuracy = 65 / 100)
    (fun c hc => absurd hc (List.not_mem_nil c))
    (fun x y c L hL hc _ c1 hc1 => by
      rcases mem_insertNice _ c L c1 hc1 with h1 | h1
      · subst h1
        obtain ⟨k1, k2, k3, _⟩ := computeParameters_keeps hc
        obtain ⟨n1, n2, n3, _⟩ := newCandidate_levels (d.setArea I u v w h) x y
        rw [k1, k2, k3, n1, n2, n3]
        exact ⟨rfl, rfl, rfl⟩
      · exact hL c1 h1) hr).2
  intro c hc
  obtain ⟨h1, h2, h3⟩ := key c hc
  simp only [getInLevel, getOutLevel, getAccuracy]
  refine ⟨h1, h2, h3, ?_⟩
  intro h4
  rw [h1]
  exact max_eq_left h4

/-- Witness of C18 (amended): the run on `square11` for the reference dot `ref11`, whose
    inLevel is 210. -/
theorem searchDotsInArea_levels_witness :
    Sample.ref11.searchDotsInArea Sample.trig 100 Sample.square11 0 0 13 13
      = some Sample.search11 ∧
    Sample.search11.2.length = 1 ∧
    ∀ c ∈ Sample.search11.2, c.getInLevel = max Sample.ref11.getInLevel 70 ∧
      c.getOutLevel = Sample.ref11.getOutLevel ∧ c.getAccuracy = 65 / 100 ∧
      (70 ≤ Sample.ref11.getInLevel → c.getInLevel = Sample.ref11.getInLevel) :=
  ⟨search11_eq, by decide!,
   searchDotsInArea_levels Sample.trig 100 Sample.ref11 Sample.square11 0 0 13 13
     Sample.search11 search11_eq⟩

end vpDot2

namespace vpDot2

/-! ### `track` -/

/-- Where `track` reaches its final test, the truncated centre of the dot is in the
    image. -/
theorem locate_isInImage (t : Trig) (fuel : Nat) (d : vpDot2) (I : Image)
    (hc : 1 ≤ I.cols) (hr : 1 ≤ I.rows) (d3 : vpDot2)
    (h : d.locate t fuel I = some (TrackResult.returned d3)) :
    d3.isInImageCog I = true := by
  unfold locate at h
  simp only [] at h
  split at h
  · simp at h
  · rename_i d1 h1
    simp only [Option.some.injEq, TrackResult.returned.injEq] at h
    subst h
    have h2 := computeParameters_true_centre h1
    exact isInArea_isInImage _ I 0 0 I.cols I.rows hc hr _ _ _ h2
  · rename_i d1 h1
    split at h
    · simp at h
    · simp at h
    · rename_i d2 movingDot rest h2
      simp only [Option.some.injEq, TrackResult.returned.injEq] at h
      subst h
      unfold searchLost at h2
      simp only [] at h2
      have key := (searchDotsInArea_nice
        (fun L => ∀ c ∈ L, c.isInImageCog I = true)
        (fun c hc0 => absurd hc0 (List.not_mem_nil c))
        (fun x y c L hL hcp _ c1 hc1 => by
          rcases mem_insertNice _ c L c1 hc1 with h3 | h3
          · subst h3
            have h4 := computeParameters_true_centre hcp
            rw [isInArea_congr (newCandidate_levels _ x y).2.2.2 I] at h4
            exact isInArea_isInImage _ I _ _ _ _ hc hr _ _ _ h4
          · exact hL c1 h3) h2).2
      exact key movingDot (List.mem_cons_self _ _)

/-- The exception of line 367 is thrown exactly when `computeParameters` fails and the
    search returns the empty list. -/
theorem locate_lost_iff (t : Trig) (fuel : Nat) (d : vpDot2) (I : Image) :
    (∃ d2, d.locate t fuel I = some (TrackResult.featureLostError d2)) ↔
      ∃ d1 d2, (d.trackStart I).computeParameters fuel I d.get_u d.get_v = some (false, d1) ∧
        d1.searchLost t fuel I = some (d2, []) := by
  constructor
  · rintro ⟨d2, h⟩
    unfold locate at h
    simp only [] at h
    split at h
    · simp at h
    · simp at h
    · rename_i d1 h1
      split at h
      · simp at h
      · rename_i d2a h2
        exact ⟨d1, d2a, h1, h2⟩
      · simp at h
  · rintro ⟨d1, d2, h1, h2⟩
    refine ⟨d2, ?_⟩
    unfold locate
    simp only [h1, h2]

/-- What the end of `track` writes when it returns. -/
theorem trackEnd_returned {d : vpDot2} {I : Image} {d' : vpDot2}
    (h : trackEnd d I = TrackResult.returned d') :
    d'.cog_ufloat = d.cog_ufloat ∧ d'.cog_vfloat = d.cog_vfloat ∧ d'.accuracy = d.accuracy ∧
    d'.outLevel
      = toInt (toDouble ((I.pix (toInt d.cog_ufloat) (toInt d.cog_vfloat) : ℚ) * d.accuracy)) ∧
    d'.inLevel
      = max 70
        (toInt (toDouble ((I.pix (toInt d.cog_ufloat) (toInt d.cog_vfloat) : ℚ)
          * d.accuracy))) := by
  unfold trackEnd at h
  split_ifs at h with h1
  simp only [TrackResult.returned.injEq] at h
  subst h
  simp only [setOutLevel, setInLevel, get_u, get_v, MIN_IN_LEVEL]
  split_ifs with h2
  · refine ⟨rfl, rfl, rfl, rfl, ?_⟩
    simp only []; omega
  · refine ⟨rfl, rfl, rfl, rfl, ?_⟩
    simp only []; omega

/-- The accuracy of the dot is the same all along `track`. -/
theorem locate_accuracy (t : Trig) (fuel : Nat) (d : vpDot2) (I : Image) (r : TrackResult)
    (h : d.locate t fuel I = some r) : r.dot.accuracy = d.accuracy := by
  unfold locate at h
  simp only [] at h
  split at h
  · simp at h
  · rename_i d1 h1
    cases h
    exact (computeParameters_keeps h1).2.2.1
  · rename_i d1 h1
    have h3 : d1.accuracy = d.accuracy := (computeParameters_keeps h1).2.2.1
    split at h
    · simp at h
    · rename_i d2 h2
      cases h
      unfold searchLost at h2
      have h4 := (searchDotsInArea_nice (fun _ => True) trivial
        (fun _ _ _ _ _ _ _ => trivial) h2).1
      simp only [] at h4
      simp only [TrackResult.dot]
      rw [h4]
      exact h3
    · rename_i d2 movingDot rest h2
      cases h
      unfold searchLost at h2
      have h4 := (searchDotsInArea_nice (fun _ => True) trivial
        (fun _ _ _ _ _ _ _ => trivial) h2).1
      simp only [] at h4
      simp only [TrackResult.dot]
      rw [h4]
      exact h3

/-- C14: on an image of at least one pixel, a call of `track(I)` that ends raises
    featureLostError if and only if `computeParameters` at the last known centre over the
    full-image area fails and `searchDotsInArea` over the fallback window returns an empty
    list; whenever `track` reaches the final `isInImage` test on the centre, the test
    passes. -/
theorem track_lost_iff (t : Trig) (fuel : Nat) (d : vpDot2) (I : Image)
    (hc : 1 ≤ I.cols) (hr : 1 ≤ I.rows) (r : TrackResult)
    (h : d.track t fuel I = some r) :
    (r.raised = true ↔
      ∃ d1 d2, (d.trackStart I).computeParameters fuel I d.get_u d.get_v = some (false, d1) ∧
        d1.searchLost t fuel I = some (d2, [])) ∧
    (∀ d3, d.locate t fuel I = some (TrackResult.returned d3) →
      d3.isInImageCog I = true) := by
  refine ⟨?_, fun d3 h3 => locate_isInImage t fuel d I hc hr d3 h3⟩
  rw [← locate_lost_iff]
  unfold track at h
  split at h
  · simp at h
  · rename_i d1 h1
    cases h
    simp only [TrackResult.raised, true_iff]
    exact ⟨d1, h1⟩
  · rename_i d1 h1
    have h2 := locate_isInImage t fuel d I hc hr d1 h1
    simp only [trackEnd, h2, Bool.not_true, Bool.false_eq_true, if_false,
      Option.some.injEq] at h
    subst h
    simp only [TrackResult.raised, Bool.false_eq_true, false_iff]
    rintro ⟨d2, h3⟩
    rw [h1] at h3
    simp at h3

/-- C15 (amended): whenever `track(I)` returns without raising, for a dot whose accuracy is
    not negative (every constructor and `setAccuracy` give an accuracy in [0.05, 1]), with
    p the intensity of the pixel at the truncated final centre and a the accuracy of the
    dot, outLevel equals floor(fl(p*a)) and inLevel equals max(70, floor(fl(p*a))), where
    fl(p*a) is the product rounded to the nearest `double`, which is what the source
    casts. -/
theorem track_levels (t : Trig) (fuel : Nat) (d : vpDot2) (I : Image) (d' : vpDot2)
    (ha : 0 ≤ d.accuracy) (h : d.track t fuel I = some (TrackResult.returned d')) :
    d'.getAccuracy = d.getAccuracy ∧
    d'.getOutLevel
      = ⌊toDouble ((I.pix (toInt d'.get_u) (toInt d'.get_v) : ℚ) * d'.getAccuracy)⌋ ∧
    d'.getInLevel
      = max 70 ⌊toDouble ((I.pix (toInt d'.get_u) (toInt d'.get_v) : ℚ) * d'.getAccuracy)⌋ := by
  unfold track at h
  split at h
  · simp at h
  · simp at h
  · rename_i d1 h1
    simp only [Option.some.injEq] at h
    have h2 : d1.accuracy = d.accuracy := locate_accuracy t fuel d I _ h1
    obtain ⟨e1, e2, e3, e4, e5⟩ := trackEnd_returned h
    simp only [getAccuracy, getOutLevel, getInLevel, get_u, get_v]
    rw [e1, e2, e3, e4, e5, h2]
    have h3 : (0 : ℚ)
        ≤ toDouble ((I.pix (toInt d1.cog_ufloat) (toInt d1.cog_vfloat) : ℚ) * d.accuracy) :=
      toDouble_nonneg _ (mul_nonneg (Nat.cast_nonneg _) ha)
    rw [toInt_of_nonneg _ h3]
    exact ⟨rfl, rfl, rfl⟩

/-- The run of `track` on `square11` for the dot `dot06`. -/
theorem track06_eq :
    Sample.dot06.track Sample.trig 100 Sample.square11
      = some (TrackResult.returned Sample.track06.dot) := by
  decide!

/-- C15 as stated fails: the dot `dot06`, of accuracy the `double` nearest to 0.6, sits at
    the centre (6, 6) of the square of `square11`, of intensity 255; `track` returns with
    the centre (6, 6) and both levels at 153, while floor(p*a) = 152: the product
    152.99999999999999433... is rounded to the `double` 153 before the cast.  The call of
    `computeParameters` in this run gives the same dot in the rounded layer. -/
theorem track_levels_counterexample :
    (5 / 100 ≤ Sample.dot06.accuracy ∧ Sample.dot06.accuracy ≤ 1) ∧
    Sample.dot06.track Sample.trig 100 Sample.square11
      = some (TrackResult.returned Sample.track06.dot) ∧
    (Sample.track06.dot.get_u = 6 ∧ Sample.track06.dot.get_v = 6 ∧
      Sample.square11.pix (toInt Sample.track06.dot.get_u) (toInt Sample.track06.dot.get_v)
        = 255) ∧
    ⌊(Sample.square11.pix (toInt Sample.track06.dot.get_u)
        (toInt Sample.track06.dot.get_v) : ℚ) * Sample.track06.dot.getAccuracy⌋ = 152 ∧
    Sample.track06.dot.getOutLevel = 153 ∧ Sample.track06.dot.getInLevel = 153 ∧
    Rounded.computeParameters 100 (Sample.dot06.trackStart Sample.square11) Sample.square11
        Sample.dot06.get_u Sample.dot06.get_v
      = (Sample.dot06.trackStart Sample.square11).computeParameters 100 Sample.square11
          Sample.dot06.get_u Sample.dot06.get_v := by
  refine ⟨⟨?_, ?_⟩, track06_eq, ⟨?_, ?_, ?_⟩, ?_, ?_, ?_, ?_⟩ <;> decide!

/-- The run of `track` on `square11` for the dot `flatDot`. -/
theorem flatTrack_eq :
    Sample.flatDot.track Sample.trig 100 Sample.square11 = some Sample.flatTrack := by
  decide!

/-- The run of `track` on `square11` for the dot `strayDot`. -/
theorem strayTrack_eq :
    Sample.strayDot.track Sample.trig 100 Sample.square11 = some Sample.strayTrack := by
  decide!

/-- Witness of C14: the dot `flatDot` sits on a dark pixel of `square11` and no blob of the
    image is valid for its width 0: `track` raises, `computeParameters` having failed and
    the search having returned the empty list. -/
theorem track_lost_iff_witness :
    (1 ≤ Sample.square11.cols ∧ 1 ≤ Sample.square11.rows ∧
      Sample.flatDot.track Sample.trig 100 Sample.square11 = some Sample.flatTrack ∧
      Sample.flatTrack.raised = true) ∧
    ∃ d1 d2, (Sample.flatDot.trackStart Sample.square11).computeParameters 100
        Sample.square11 Sample.flatDot.get_u Sample.flatDot.get_v = some (false, d1) ∧
      d1.searchLost Sample.trig 100 Sample.square11 = some (d2, []) :=
  ⟨⟨by decide, by decide, flatTrack_eq, by decide!⟩,
   (track_lost_iff Sample.trig 100 Sample.flatDot Sample.square11 (by decide) (by decide)
     Sample.flatTrack flatTrack_eq).1.1 (by decide!)⟩

/-- The outcome of `track` on `square11` for the dot `strayDot`. -/
theorem strayTrack_returned :
    Sample.strayTrack = TrackResult.returned Sample.strayTrack.dot := by
  decide!

/-- Witness of C15 (amended): the dot `strayDot` of accuracy 0.5 sits on a dark pixel of
    `square11`; `track` finds the square, centre (6, 6) of intensity 255, and returns with
    both levels at floor(255 * 0.5) = 127. -/
theorem track_levels_witness :
    (0 ≤ Sample.strayDot.accuracy ∧
      Sample.strayDot.track Sample.trig 100 Sample.square11
        = some (TrackResult.returned Sample.strayTrack.dot)) ∧
    (Sample.strayTrack.dot.get_u = 6 ∧ Sample.strayTrack.dot.get_v = 6 ∧
      Sample.strayTrack.dot.getOutLevel = 127 ∧ Sample.strayTrack.dot.getInLevel = 127) ∧
    Sample.strayTrack.dot.getOutLevel
      = ⌊toDouble ((Sample.square11.pix (toInt Sample.strayTrack.dot.get_u)
          (toInt Sample.strayTrack.dot.get_v) : ℚ) * Sample.strayTrack.dot.getAccuracy)⌋ :=
  ⟨⟨by decide!, strayTrack_eq.trans (congrArg some strayTrack_returned)⟩, by decide!,
   (track_levels Sample.trig 100 Sample.strayDot Sample.square11 Sample.strayTrack.dot
     (by decide!) (strayTrack_eq.trans (congrArg some strayTrack_returned))).2.1⟩

end vpDot2

namespace vpDot2

/-! ### The loops of `searchDotsInArea` end -/

/-- The body of the search loops ends when the border following of the candidate does. -/
theorem testGerm_ends {t : Trig} {fuel : Nat} {d : vpDot2} {I : Image} {u v : Int}
    (lists : List vpDot2 × List vpDot2)
    (hc : (d.newCandidate u v).computeParameters fuel I (-1) (-1) ≠ none) :
    testGerm t fuel d I u v lists ≠ none := by
  unfold testGerm
  split_ifs
  · simp
  · simp
  · simp
  · split
    · rename_i h; exact absurd h hc
    · simp
    · split_ifs <;> simp

/-- With a positive step the row loop ends within `area.u_max - u` iterations. -/
theorem scanRow_ends {t : Trig} {fuel : Nat} {d : vpDot2} {I : Image} {gridWidth v : Int}
    (hg : 1 ≤ gridWidth)
    (hc : ∀ u, (d.newCandidate u v).computeParameters fuel I (-1) (-1) ≠ none) :
    ∀ (n : Nat) (u : Int) (lists : List vpDot2 × List vpDot2), d.area.u_max - u ≤ n →
      scanRow t fuel d I gridWidth v n u lists ≠ none := by
  intro n
  induction n with
  | zero =>
    intro u lists hn
    simp only [scanRow]
    rw [if_neg (by omega)]
    simp
  | succ n ih =>
    intro u lists hn
    simp only [scanRow]
    split_ifs with h1
    · split
      · rename_i h2; exact absurd h2 (testGerm_ends lists (hc u))
      · exact ih _ _ (by omega)
    · simp

/-- With positive steps the grid loop ends within `area.v_max - v` iterations. -/
theorem scanGrid_ends {t : Trig} {fuel : Nat} {d : vpDot2} {I : Image}
    {gridWidth gridHeight : Int} (hg : 1 ≤ gridWidth) (hh : 1 ≤ gridHeight)
    (hc : ∀ u v, (d.newCandidate u v).computeParameters fuel I (-1) (-1) ≠ none) :
    ∀ (n : Nat) (v : Int) (lists : List vpDot2 × List vpDot2), d.area.v_max - v ≤ n →
      scanGrid t fuel d I gridWidth gridHeight n v lists ≠ none := by
  intro n
  induction n with
  | zero =>
    intro v lists hn
    simp only [scanGrid]
    rw [if_neg (by omega)]
    simp
  | succ n ih =>
    intro v lists hn
    simp only [scanGrid]
    split_ifs with h1
    · split
      · rename_i h2
        exact absurd h2 (scanRow_ends hg (fun u => hc u v) _ _ _ (by omega))
      · exact ih _ _ (by omega)
    · simp

/-- The grid steps of a dot of non-negative width, height and accuracy are positive. -/
theorem getGridSize_pos (d : vpDot2) (hw : 0 ≤ d.width) (hh : 0 ≤ d.height)
    (ha : 0 ≤ d.accuracy) : 1 ≤ d.getGridSize.1 ∧ 1 ≤ d.getGridSize.2 := by
  have h1 : 0 ≤ toInt (toDouble (toDouble (d.width * d.accuracy) / sqrt2)) :=
    toInt_grid_nonneg _ _ hw ha
  have h2 : 0 ≤ toInt (toDouble (toDouble (d.height * d.accuracy) / sqrt2)) :=
    toInt_grid_nonneg _ _ hh ha
  simp only [getGridSize, getWidth, getHeight, getAccuracy]
  constructor <;> split_ifs <;> omega

/-- For a dot of non-negative width, height and accuracy `searchDotsInArea` returns as soon
    as the border following of every candidate ends within `fuel` steps. -/
theorem searchDotsInArea_ends (t : Trig) (fuel : Nat) (d : vpDot2) (I : Image)
    (u v w h : Int) (hw : 0 ≤ d.width) (hh : 0 ≤ d.height) (ha : 0 ≤ d.accuracy)
    (hc : ∀ x y, ((d.setArea I u v w h).newCandidate x y).computeParameters fuel I (-1) (-1)
      ≠ none) :
    d.searchDotsInArea t fuel I u v w h ≠ none := by
  obtain ⟨g1, g2⟩ := getGridSize_pos (d.setArea I u v w h) hw hh ha
  unfold searchDotsInArea
  simp only []
  split
  · rename_i h1
    exact absurd h1 (scanGrid_ends g1 g2 hc _ _ _ (by omega))
  · simp

/-- For a dot of non-negative width, height and accuracy `track` ends, by returning or by
    raising, as soon as every border following on the image ends within `fuel` steps. -/
theorem track_ends (t : Trig) (fuel : Nat) (d : vpDot2) (I : Image)
    (hw : 0 ≤ d.width) (hh : 0 ≤ d.height) (ha : 0 ≤ d.accuracy)
    (hc : ∀ (c : vpDot2) (x y : ℚ), c.computeParameters fuel I x y ≠ none) :
    d.track t fuel I ≠ none := by
  have hl : d.locate t fuel I ≠ none := by
    unfold locate
    simp only []
    split
    · rename_i h1; exact absurd h1 (hc _ _ _)
    · simp
    · rename_i d1 h1
      have hk : d1.width = d.width ∧ d1.height = d.height ∧ d1.accuracy = d.accuracy := by
        rcases computeParameters_cases h1 with ⟨_, h2 | ⟨s, h2⟩⟩ | ⟨h2, _⟩
        · subst h2; exact ⟨rfl, rfl, rfl⟩
        · subst h2; exact ⟨rfl, rfl, rfl⟩
        · simp at h2
      have hs : d1.searchLost t fuel I ≠ none := by
        unfold searchLost
        exact searchDotsInArea_ends t fuel d1 I _ _ _ _ (hk.1 ▸ hw) (hk.2.1 ▸ hh)
          (hk.2.2 ▸ ha) (fun _ _ => hc _ _ _)
      split
      · rename_i h3; exact absurd h3 hs
      · simp
      · simp
  unfold track
  split
  · rename_i h1; exact absurd h1 hl
  · simp
  · simp

/-- A scan that does not end: the dot of width -5 has the column step -2, and the model of
    `searchDotsInArea` on a 10 x 10 image answers `none`. -/
theorem searchDotsInArea_negative_step :
    Sample.negDot.getGridSize = (-2, 1) ∧
    Sample.negDot.searchDotsInArea Sample.trig 100 Sample.dark10 0 0 10 10 = none := by
  decide!

end vpDot2

namespace vpDot2

/-! ### The whole-image search -/

/-- C21 fails: on the 13 x 13 image `edge11`, whose 11 x 11 square touches the last
    column, `searchDotsInArea(I)` sets the area to [0, 11] x [0, 11] and returns the square
    cut to 10 columns (centre (13/2, 6), width 9, surface 90), while
    `searchDotsInArea(I, 0, 0, I.getCols(), I.getRows())` sets the area to
    [0, 12] x [0, 12] and returns the whole square (centre (7, 6), width 10, surface 100). -/
theorem searchDotsInAreaImage_misses_last_column :
    (Sample.ref11.searchDotsInAreaImage Sample.trig 100 Sample.edge11).map
        (fun r => (r.1.area.u_min, r.1.area.u_max, r.1.area.v_min, r.1.area.v_max))
      = some (0, 11, 0, 11) ∧
    (Sample.ref11.searchDotsInAreaImage Sample.trig 100 Sample.edge11).map
        (fun r => r.2.map (fun c => (c.cog_ufloat, c.cog_vfloat, c.width, c.surface)))
      = some [(13 / 2, 6, 9, 90)] ∧
    (Sample.ref11.searchDotsInArea Sample.trig 100 Sample.edge11 0 0
        Sample.edge11.cols Sample.edge11.rows).map
        (fun r => (r.1.area.u_min, r.1.area.u_max, r.1.area.v_min, r.1.area.v_max))
      = some (0, 12, 0, 12) ∧
    (Sample.ref11.searchDotsInArea Sample.trig 100 Sample.edge11 0 0
        Sample.edge11.cols Sample.edge11.rows).map
        (fun r => r.2.map (fun c => (c.cog_ufloat, c.cog_vfloat, c.width, c.surface)))
      = some [(7, 6, 10, 100)] := by
  refine ⟨?_, ?_, ?_, ?_⟩ <;> decide!

/-- The area that `searchDotsInArea(I)` sets on an image of at least two columns and two
    rows is [0, cols-2] x [0, rows-2]. -/
theorem searchDotsInAreaImage_area (t : Trig) (fuel : Nat) (d : vpDot2) (I : Image)
    (hc : 2 ≤ I.cols) (hr : 2 ≤ I.rows) (r : vpDot2 × List vpDot2)
    (h : d.searchDotsInAreaImage t fuel I = some r) :
    r.1.area.u_min = 0 ∧ r.1.area.u_max = I.cols - 2 ∧
    r.1.area.v_min = 0 ∧ r.1.area.v_max = I.rows - 2 := by
  unfold searchDotsInAreaImage at h
  have h1 := (searchDotsInArea_nice (fun _ => True) trivial
    (fun _ _ _ _ _ _ _ => trivial) h).1
  rw [h1]
  simp only [setArea]
  refine ⟨?_, ?_, ?_, ?_⟩ <;> split_ifs <;> omega

/-! ### The chain element -/

/-- The cascade of `computeFreemanChainElement` as a search through the list of the codes
    it tries. -/
theorem chain_eq_find (d : vpDot2) (I : Image) (u v e : Int) :
    d.computeFreemanChainElement I u v e =
      if d.hasGoodLevel I u v then
        match [Int.tmod (e + 2) 8, Int.tmod (e + 1) 8, e, Int.tmod (e + 7) 8,
            Int.tmod (e + 6) 8, Int.tmod (e + 5) 8, Int.tmod (e + 4) 8,
            Int.tmod (e + 3) 8].find? (fun c => d.probe I u v c) with
        | some c => (true, c)
        | none => (false, e)
      else (false, e) := by
  unfold computeFreemanChainElement
  simp only [List.find?_cons, List.find?_nil]
  split_ifs <;> simp [*]

/-- For a code in 0..7 the truncated remainders of the source are the codes of the
    priority order. -/
theorem priorityOrder_eq (e : Int) (h0 : 0 ≤ e) (h7 : e ≤ 7) :
    [Int.tmod (e + 2) 8, Int.tmod (e + 1) 8, e, Int.tmod (e + 7) 8,
      Int.tmod (e + 6) 8, Int.tmod (e + 5) 8, Int.tmod (e + 4) 8, Int.tmod (e + 3) 8]
      = priorityOrder e := by
  interval_cases e <;> decide

/-- The priority order lists each of the codes 0..7. -/
theorem mem_priorityOrder (e : Int) (h0 : 0 ≤ e) (h7 : e ≤ 7) (c : Int) :
    c ∈ priorityOrder e ↔ 0 ≤ c ∧ c ≤ 7 := by
  interval_cases e <;> simp [priorityOrder] <;> omega

/-- C23: for every image, area, pixel (u, v) and incoming code e in 0..7,
    `computeFreemanChainElement` returns true iff (u, v) satisfies `hasGoodLevel` and at
    least one of its 8 neighbours does; on true the new code is the first d in the priority
    order (e+2, e+1, e, e+7, e+6, e+5, e+4, e+3) mod 8 whose neighbour (u, v) + step(d)
    satisfies `hasGoodLevel`, and it lies in 0..7; on false the code is left unchanged. -/
theorem computeFreemanChainElement_spec (d : vpDot2) (I : Image) (u v e : Int)
    (h0 : 0 ≤ e) (h7 : e ≤ 7) :
    ((d.computeFreemanChainElement I u v e).1 = true ↔
      d.hasGoodLevel I u v = true ∧
        ∃ q ∈ neighbours8 u v, d.hasGoodLevel I q.1 q.2 = true) ∧
    ((d.computeFreemanChainElement I u v e).1 = true →
      (priorityOrder e).find? (fun c =>
          d.hasGoodLevel I (updateFreemanPosition u v c).1 (updateFreemanPosition u v c).2)
        = some (d.computeFreemanChainElement I u v e).2 ∧
      0 ≤ (d.computeFreemanChainElement I u v e).2 ∧
      (d.computeFreemanChainElement I u v e).2 ≤ 7) ∧
    ((d.computeFreemanChainElement I u v e).1 = false →
      (d.computeFreemanChainElement I u v e).2 = e) := by
  have hn : (∃ q ∈ neighbours8 u v, d.hasGoodLevel I q.1 q.2 = true) ↔
      ∃ c ∈ priorityOrder e, d.probe I u v c = true := by
    constructor
    · rintro ⟨q, hq, hg⟩
      have hq2 : q ∈ [0, 1, 2, 3, 4, 5, 6, 7].map (fun c => updateFreemanPosition u v c) := hq
      obtain ⟨c, hc, rfl⟩ := List.mem_map.1 hq2
      refine ⟨c, (mem_priorityOrder e h0 h7 c).2 ?_, hg⟩
      simp only [List.mem_cons, List.mem_singleton, List.not_mem_nil, or_false] at hc
      omega
    · rintro ⟨c, hc, hg⟩
      have hc2 := (mem_priorityOrder e h0 h7 c).1 hc
      refine ⟨updateFreemanPosition u v c, ?_, hg⟩
      have hq2 : updateFreemanPosition u v c
          ∈ [0, 1, 2, 3, 4, 5, 6, 7].map (fun c => updateFreemanPosition u v c) := by
        refine List.mem_map.2 ⟨c, ?_, rfl⟩
        simp only [List.mem_cons, List.mem_singleton, List.not_mem_nil, or_false]
        omega
      exact hq2
  have hq : (fun c => d.hasGoodLevel I (updateFreemanPosition u v c).1
      (updateFreemanPosition u v c).2) = fun c => d.probe I u v c := rfl
  rw [hn, hq, chain_eq_find, priorityOrder_eq e h0 h7]
  cases hb : d.hasGoodLevel I u v
  · simp
  · simp only [if_true, true_and]
    cases hf : (priorityOrder e).find? (fun c => d.probe I u v c) with
    | none =>
      simp only [Bool.false_eq_true, false_iff, false_implies, true_and, implies_true,
        and_true, not_exists, not_and]
      intro c hc
      have := List.find?_eq_none.1 hf c hc
      simpa using this
    | some c =>
      have hc1 := List.mem_of_find?_eq_some hf
      have hc2 := List.find?_some hf
      have hc3 := (mem_priorityOrder e h0 h7 c).1 hc1
      simp only [true_iff, true_implies, Bool.true_eq_false, false_implies, and_true]
      exact ⟨⟨c, hc1, hc2⟩, trivial, hc3.1, hc3.2⟩

/-- Witness of C23: the corner pixel (1, 1) of the 3 x 3 square of `square3` with the
    incoming code 6 (up): the neighbour on the right is the first of the priority order
    with a good level, and the new code is 0. -/
theorem computeFreemanChainElement_spec_witness :
    ((0 : Int) ≤ 6 ∧ (6 : Int) ≤ 7) ∧
    Sample.dot5.computeFreemanChainElement Sample.square3 1 1 6 = (true, 0) ∧
    (priorityOrder 6).find? (fun c =>
        Sample.dot5.hasGoodLevel Sample.square3 (updateFreemanPosition 1 1 c).1
          (updateFreemanPosition 1 1 c).2)
      = some (Sample.dot5.computeFreemanChainElement Sample.square3 1 1 6).2 :=
  ⟨by decide, by decide,
   ((computeFreemanChainElement_spec Sample.dot5 Sample.square3 1 1 6 (by decide)
     (by decide)).2.1 (by decide)).1⟩

/-! ### The error branch of the border loop -/

/-- C24 fails: on the 5 x 5 image `corner`, whose only bright pixel is (0, 0), a
    default-constructed dot searching the whole image and seeded at (0, 0) takes the branch
    "Not in area: Should not occur".  The first `computeFreemanChainElement` returns false
    and leaves the code 6 (up), the loop steps to (0, -1), outside the area, records it in
    the border lists, and only then returns false. -/
theorem computeParameters_leaves_area :
    Sample.dot5.computeParametersErrorTraced 10 Sample.corner 0 0 = true ∧
    (Sample.dot5.computeFreemanChainElement Sample.corner 0 0 6).1 = false ∧
    Sample.dot5.isInArea Sample.corner 0 (-1) = false ∧
    (computeParameters 10 Sample.dot5 Sample.corner 0 0).map
        (fun r => (r.1, r.2.u_list, r.2.v_list, r.2.direction_list))
      = some (false, [0, 0], [0, -1], [6, 6]) := by
  refine ⟨?_, ?_, ?_, ?_⟩ <;> decide!

/-! ### Pixel reads stay inside the image -/

/-- C27 fails: with the moments enabled, the dMu2 increment of code 3 from the pixel (2, 5)
    plus the dMu2 increment of the opposite code 7 from the pixel reached, (1, 6), is -1/6,
    not 0; likewise the dMv2 increments of code 5 from (2, 5) and of code 1 from (1, 4)
    add up to -1/6.  (The same two constants are the ones that differ from the boundary
    integrals of the Green theorem.) -/
theorem freeman_reversal_defect :
    Sample.momentDot.compute_moment = true ∧
    updateFreemanPosition 2 5 3 = (1, 6) ∧ Int.tmod (3 + 4) 8 = 7 ∧
    (Sample.momentDot.computeFreemanParameters 2 5 3).dMu2
      + (Sample.momentDot.computeFreemanParameters 1 6 7).dMu2 = -1 / 6 ∧
    updateFreemanPosition 2 5 5 = (1, 4) ∧ Int.tmod (5 + 4) 8 = 1 ∧
    (Sample.momentDot.computeFreemanParameters 2 5 5).dMv2
      + (Sample.momentDot.computeFreemanParameters 1 4 1).dMv2 = -1 / 6 := by
  refine ⟨?_, ?_, ?_, ?_, ?_, ?_, ?_⟩ <;> decide!

end vpDot2

namespace vpDot2

/-! ### One step of the border loop -/

/-- The position reached by the unit step of a code. -/
theorem updateFreemanPosition_add (u v c : Int) :
    updateFreemanPosition u v c
      = (u + (updateFreemanPosition 0 0 c).1, v + (updateFreemanPosition 0 0 c).2) := by
  unfold updateFreemanPosition
  split_ifs <;> simp <;> omega

/-- The statements of the loop body move the border position by the unit step of the
    current code and leave the code as it is. -/
theorem advance_position (d : vpDot2) (s : BorderState) (h0 : 0 ≤ s.dir) (h7 : s.dir ≤ 7) :
    (d.advance s).border_u = (updateFreemanPosition s.border_u s.border_v s.dir).1 ∧
    (d.advance s).border_v = (updateFreemanPosition s.border_u s.border_v s.dir).2 ∧
    (d.advance s).dir = s.dir := by
  obtain ⟨h1, h2⟩ := computeFreemanParameters_step d s.border_u s.border_v s.dir h0 h7
  rw [updateFreemanPosition_add]
  refine ⟨?_, ?_, rfl⟩
  · show s.border_u + (d.computeFreemanParameters s.border_u s.border_v s.dir).du = _
    rw [h1]; rfl
  · show s.border_v + (d.computeFreemanParameters s.border_u s.border_v s.dir).dv = _
    rw [h2]; rfl

/-- A chain element found for an incoming code in 0..7 is a code in 0..7 whose neighbour
    has a good level. -/
theorem chain_true_probe {d : vpDot2} {I : Image} {u v e0 e : Int}
    (h0 : 0 ≤ e0) (h7 : e0 ≤ 7)
    (h : d.computeFreemanChainElement I u v e0 = (true, e)) :
    d.probe I u v e = true ∧ 0 ≤ e ∧ e ≤ 7 := by
  rw [chain_eq_find, priorityOrder_eq e0 h0 h7] at h
  split_ifs at h with hb
  · split at h
    · rename_i c hf
      simp only [Prod.mk.injEq, true_and] at h
      subst h
      have hc3 := (mem_priorityOrder e0 h0 h7 c).1 (List.mem_of_find?_eq_some hf)
      exact ⟨List.find?_some hf, hc3.1, hc3.2⟩
    · simp at h
  · simp at h

/-- For an incoming code in 0..7 the code after `computeFreemanChainElement` is in 0..7,
    whatever the call returns. -/
theorem chain_code_range (d : vpDot2) (I : Image) (u v e0 : Int) (h0 : 0 ≤ e0)
    (h7 : e0 ≤ 7) :
    0 ≤ (d.computeFreemanChainElement I u v e0).2 ∧
      (d.computeFreemanChainElement I u v e0).2 ≤ 7 := by
  rcases hb : d.computeFreemanChainElement I u v e0 with ⟨b, e⟩
  cases b with
  | true => exact (chain_true_probe h0 h7 hb).2
  | false =>
    rw [chain_eq_find] at hb
    split_ifs at hb
    · split at hb
      · simp at hb
      · simp only [Prod.mk.injEq, true_and] at hb
        subst hb; exact ⟨h0, h7⟩
    · simp only [Prod.mk.injEq, true_and] at hb
      subst hb; exact ⟨h0, h7⟩

/-- From a state that heads for a pixel of good level the step reaches that pixel. -/
theorem heading_advance_good {d : vpDot2} {I : Image} {s : BorderState}
    (h : Heading d I s) :
    d.hasGoodLevel I (d.advance s).border_u (d.advance s).border_v = true := by
  obtain ⟨h0, h7, hp⟩ := h
  obtain ⟨e1, e2, _⟩ := advance_position d s h0 h7
  rw [e1, e2]
  exact hp

/-- The chain element computed after the step gives a state that heads for a pixel of good
    level again. -/
theorem heading_step {d : vpDot2} {I : Image} {s : BorderState} {e : Int}
    (h : Heading d I s)
    (hc : d.computeFreemanChainElement I (d.advance s).border_u (d.advance s).border_v
      (d.advance s).dir = (true, e)) :
    Heading d I { d.advance s with dir := e } := by
  obtain ⟨h0, h7, _⟩ := h
  obtain ⟨_, _, e3⟩ := advance_position d s h0 h7
  obtain ⟨p, q0, q7⟩ := chain_true_probe (e3 ▸ h0) (e3 ▸ h7) hc
  exact ⟨q0, q7, p⟩

/-- From a pixel of good level that has a neighbour of good level the chain element is
    found. -/
theorem chain_of_probe {d : vpDot2} {I : Image} {u v e0 c : Int}
    (h0 : 0 ≤ e0) (h7 : e0 ≤ 7) (hg : d.hasGoodLevel I u v = true)
    (c0 : 0 ≤ c) (c7 : c ≤ 7) (hp : d.probe I u v c = true) :
    (d.computeFreemanChainElement I u v e0).1 = true := by
  rw [chain_eq_find, priorityOrder_eq e0 h0 h7, hg]
  simp only [if_true]
  split
  · rfl
  · rename_i hf
    have := List.find?_eq_none.1 hf c ((mem_priorityOrder e0 h0 h7 c).2 ⟨c0, c7⟩)
    simp [hp] at this

/-- The pixel a step comes from is the neighbour of the opposite code. -/
theorem probe_back (d : vpDot2) (I : Image) (u v c : Int) (h0 : 0 ≤ c) (h7 : c ≤ 7) :
    d.probe I (updateFreemanPosition u v c).1 (updateFreemanPosition u v c).2
      (Int.tmod (c + 4) 8) = d.hasGoodLevel I u v := by
  interval_cases c <;> simp [probe, updateFreemanPosition, Int.tmod]

/-- After a step from a pixel of good level the chain element is always found: the pixel
    the step came from is a neighbour of good level. -/
theorem heading_chain_true {d : vpDot2} {I : Image} {s : BorderState}
    (h : Heading d I s) (hg : d.hasGoodLevel I s.border_u s.border_v = true) :
    (d.computeFreemanChainElement I (d.advance s).border_u (d.advance s).border_v
      (d.advance s).dir).1 = true := by
  have hgood := heading_advance_good h
  obtain ⟨h0, h7, _⟩ := h
  obtain ⟨e1, e2, e3⟩ := advance_position d s h0 h7
  rw [e3]
  refine chain_of_probe h0 h7 hgood (c := Int.tmod (s.dir + 4) 8) ?_ ?_ ?_
  · have := h0; have := h7
    interval_cases s.dir <;> decide
  · have := h0; have := h7
    interval_cases s.dir <;> decide
  · rw [e1, e2, probe_back d I _ _ _ h0 h7]
    exact hg

/-! ### When the error branch is taken -/

/-- No iteration that starts in a state heading for a pixel of good level takes the branch
    "Not in area: Should not occur". -/
theorem errorTraced_heading (d : vpDot2) (I : Image) (fu fv fd : Int) :
    ∀ (fuel : Nat) (s : BorderState), Heading d I s →
      d.errorTraced I fu fv fd fuel s = false := by
  intro fuel
  induction fuel with
  | zero => intro s _; rfl
  | succ n ih =>
    intro s hs
    have hg := heading_advance_good hs
    have ha := hasGoodLevel_isInArea hg
    rw [errorTraced]
    simp only [notInAreaBranch, ha, Bool.not_true, Bool.false_eq_true, if_false]
    split_ifs with h1 h2
    · rfl
    · have hc : d.computeFreemanChainElement I (d.advance s).border_u (d.advance s).border_v
          (d.advance s).dir = (true, (d.computeFreemanChainElement I (d.advance s).border_u
            (d.advance s).border_v (d.advance s).dir).2) := by
        rw [Prod.ext_iff]
        simp only [Bool.not_eq_false] at h1
        exact ⟨h1, rfl⟩
      exact ih _ (heading_step hs hc)
    · rfl

/-- The branch "Not in area: Should not occur" can only be taken when the first
    `computeFreemanChainElement`, whose result line 1320 does not test, has returned
    false. -/
theorem computeParametersErrorTraced_first_chain (fuel : Nat) (d : vpDot2) (I : Image)
    (_u _v : ℚ) (h : d.computeParametersErrorTraced fuel I _u _v = true) :
    ∃ fb : Int, (d.clearBorder.computeFreemanChainElement I fb
      (toInt (estimate d.clearBorder.cog_vfloat _v)) 6).1 = false := by
  unfold computeParametersErrorTraced at h
  simp only [] at h
  split_ifs at h with h1 h2
  split at h
  · simp at h
  · rename_i fb hfb
    split_ifs at h with h3
    refine ⟨fb, ?_⟩
    by_contra hne
    simp only [Bool.not_eq_false] at hne
    have hc : d.clearBorder.computeFreemanChainElement I fb
        (toInt (estimate d.clearBorder.cog_vfloat _v)) 6
        = (true, (d.clearBorder.computeFreemanChainElement I fb
          (toInt (estimate d.clearBorder.cog_vfloat _v)) 6).2) := by
      rw [Prod.ext_iff]; exact ⟨hne, rfl⟩
    obtain ⟨p, q0, q7⟩ := chain_true_probe (by decide) (by decide) hc
    have hH : Heading d.clearBorder I (startState I fb
        (toInt (estimate d.clearBorder.cog_vfloat _v))
        (d.clearBorder.computeFreemanChainElement I fb
          (toInt (estimate d.clearBorder.cog_vfloat _v)) 6).2) := ⟨q0, q7, p⟩
    rw [errorTraced_heading d.clearBorder I _ _ _ fuel _ hH] at h
    simp at h

/-! ### Reversing a step, where it works -/

/-- With the moments enabled, an increment for a code c from a pixel plus the same
    increment for the opposite code from the pixel reached is zero for dS, dMu, dMv and
    dMuv and every code, for dMu2 and every code but 3 and 7, and for dMv2 and every code
    but 1 and 5; the four remaining sums are -1/6. -/
theorem freeman_reversal (d : vpDot2) (u v c : Int) (hm : d.compute_moment = true)
    (h0 : 0 ≤ c) (h7 : c ≤ 7) :
    (d.computeFreemanParameters u v c).dS
      + (d.computeFreemanParameters (updateFreemanPosition u v c).1
          (updateFreemanPosition u v c).2 (Int.tmod (c + 4) 8)).dS = 0 ∧
    (d.computeFreemanParameters u v c).dMu
      + (d.computeFreemanParameters (updateFreemanPosition u v c).1
          (updateFreemanPosition u v c).2 (Int.tmod (c + 4) 8)).dMu = 0 ∧
    (d.computeFreemanParameters u v c).dMv
      + (d.computeFreemanParameters (updateFreemanPosition u v c).1
          (updateFreemanPosition u v c).2 (Int.tmod (c + 4) 8)).dMv = 0 ∧
    (d.computeFreemanParameters u v c).dMuv
      + (d.computeFreemanParameters (updateFreemanPosition u v c).1
          (updateFreemanPosition u v c).2 (Int.tmod (c + 4) 8)).dMuv = 0 ∧
    (d.computeFreemanParameters u v c).dMu2
      + (d.computeFreemanParameters (updateFreemanPosition u v c).1
          (updateFreemanPosition u v c).2 (Int.tmod (c + 4) 8)).dMu2
      = (if c = 3 ∨ c = 7 then -1 / 6 else 0) ∧
    (d.computeFreemanParameters u v c).dMv2
      + (d.computeFreemanParameters (updateFreemanPosition u v c).1
          (updateFreemanPosition u v c).2 (Int.tmod (c + 4) 8)).dMv2
      = (if c = 1 ∨ c = 5 then -1 / 6 else 0) := by
  interval_cases c <;> refine ⟨?_, ?_, ?_, ?_, ?_, ?_⟩ <;>
    simp [computeFreemanParameters, updateFreemanPosition, Int.tmod, hm] <;> ring

end vpDot2

namespace vpDot2

/-! ### The area of a closed chain -/

theorem chainPixels_ne_nil (d : vpDot2) (u v : Int) (cs : List Int) :
    d.chainPixels u v cs ≠ [] := by
  cases cs <;> simp [chainPixels]

end vpDot2

namespace vpDot2

/-! ### The recorded border is a closed chain -/

/-- Three lists of the same length, each extended by one element, zip to the zipped lists
    extended by one entry. -/
theorem zip3_snoc (tu tv td : List Int) (a b c : Int) (h1 : tu.length = tv.length)
    (h2 : tv.length = td.length) :
    List.zip (tu ++ [a]) (List.zip (tv ++ [b]) (td ++ [c]))
      = List.zip tu (List.zip tv td) ++ [(a, b, c)] := by
  rw [List.zip_append h2, List.zip_append (by rw [List.length_zip, ← h2, Nat.min_self, h1])]
  rfl

theorem chainInv_start (d : vpDot2) (I : Image) (fu fv dir : Int) (h0 : 0 ≤ dir)
    (h7 : dir ≤ 7) (hg : d.hasGoodLevel I fu fv = true) :
    ChainInv d I fu fv (startState I fu fv dir) := by
  refine ⟨h0, h7, [], [], [], dir, rfl, rfl, rfl, rfl, rfl, ⟨[], [], rfl, rfl⟩, ?_, ?_⟩
  · intro p hp
    simp only [startState, List.zip_cons_cons, List.zip_nil_right, List.mem_singleton] at hp
    subst hp
    exact hg
  · simp [startState]

theorem chainInv_step (d : vpDot2) (I : Image) (fu fv : Int) (s : BorderState) (e : Int)
    (h : ChainInv d I fu fv s)
    (hc : d.computeFreemanChainElement I (d.advance s).border_u (d.advance s).border_v
      (d.advance s).dir = (true, e)) :
    ChainInv d I fu fv { d.advance s with dir := e } := by
  obtain ⟨h0, h7, tu, tv, td, c, e1, e2, e3, l1, l2, ⟨ru, rv, r1, r2⟩, hgood, hchain⟩ := h
  obtain ⟨a1, a2, a3⟩ := advance_position d s h0 h7
  have hg : d.hasGoodLevel I (d.advance s).border_u (d.advance s).border_v = true :=
    chain_true_good (by rw [hc])
  obtain ⟨_, q0, q7⟩ := chain_true_probe (a3 ▸ h0) (a3 ▸ h7) hc
  have n1 : (d.advance s).u_list = s.u_list ++ [(d.advance s).border_u] := rfl
  have n2 : (d.advance s).v_list = s.v_list ++ [(d.advance s).border_v] := rfl
  have n3 : (d.advance s).direction_list = s.direction_list ++ [s.dir] := rfl
  have k1 : s.u_list.length = s.v_list.length := by
    rw [e1, e2, List.length_append, List.length_append, l1, List.length_singleton,
      List.length_singleton]
  have k2 : s.v_list.length = s.direction_list.length := by
    rw [e2, e3, List.length_append, List.length_append, l2, List.length_singleton,
      List.length_singleton]
  have hz : List.zip (d.advance s).u_list
      (List.zip (d.advance s).v_list (d.advance s).direction_list)
      = List.zip s.u_list (List.zip s.v_list s.direction_list)
        ++ [((d.advance s).border_u, (d.advance s).border_v, s.dir)] := by
    rw [n1, n2, n3]
    exact zip3_snoc _ _ _ _ _ _ k1 k2
  have hlast : (List.zip s.u_list (List.zip s.v_list s.direction_list)).getLast?
      = some (s.border_u, s.border_v, c) := by
    rw [e1, e2, e3, zip3_snoc _ _ _ _ _ _ l1 l2]
    simp
  refine ⟨q0, q7, s.u_list, s.v_list, s.direction_list, s.dir, n1, n2, n3, k1, k2,
    ⟨ru ++ [(d.advance s).border_u], rv ++ [(d.advance s).border_v], ?_, ?_⟩, ?_, ?_⟩
  · show (d.advance s).u_list = _
    rw [n1, r1]; rfl
  · show (d.advance s).v_list = _
    rw [n2, r2]; rfl
  · show ∀ p ∈ List.zip (d.advance s).u_list
      (List.zip (d.advance s).v_list (d.advance s).direction_list), _
    rw [hz]
    intro p hp
    rcases List.mem_append.1 hp with hp | hp
    · exact hgood p hp
    · rw [List.mem_singleton] at hp
      subst hp
      exact hg
  · show (List.zip (d.advance s).u_list
      (List.zip (d.advance s).v_list (d.advance s).direction_list)).Chain' StepTo
    rw [hz, List.chain'_append]
    refine ⟨hchain, List.chain'_singleton _, ?_⟩
    intro x hx y hy
    rw [hlast] at hx
    simp only [Option.mem_def, Option.some.injEq] at hx
    simp only [List.head?_cons, Option.mem_def, Option.some.injEq] at hy
    subst hx
    subst hy
    refine ⟨?_, h0, h7⟩
    show ((d.advance s).border_u, (d.advance s).border_v)
      = updateFreemanPosition s.border_u s.border_v s.dir
    rw [a1, a2]

/-- C28: whenever `computeParameters` returns true, the recorded border (u_list, v_list,
    direction_list) is a closed 8-connected chain of dot pixels: the three lists have the
    same length, every recorded pixel satisfies `hasGoodLevel`, every recorded pixel but the
    first equals the pixel recorded before it plus the unit step of the direction recorded
    with it (a code in 0..7), and the last recorded pixel equals the first. -/
theorem computeParameters_border_chain (fuel : Nat) (d : vpDot2) (I : Image) (_u _v : ℚ)
    (d' : vpDot2) (h : computeParameters fuel d I _u _v = some (true, d')) :
    d'.u_list.length = d'.v_list.length ∧ d'.v_list.length = d'.direction_list.length ∧
    (∀ p ∈ d'.recorded, d'.hasGoodLevel I p.1 p.2.1 = true) ∧
    d'.recorded.Chain' StepTo ∧
    d'.u_list ≠ [] ∧ d'.u_list.getLast? = d'.u_list.head? ∧
    d'.v_list.getLast? = d'.v_list.head? := by
  obtain ⟨hg0, fb, s1, hfb, hf, hfin⟩ := computeParameters_true_inv h
  have hgfb : d.clearBorder.hasGoodLevel I fb (toInt (estimate d.cog_vfloat _v)) = true :=
    findFirstBorder_good d.clearBorder I _ _ _ _ fb (by rw [clearBorder_hasGoodLevel]; exact hg0)
      hfb
  have hdir := chain_code_range d.clearBorder I fb (toInt (estimate d.cog_vfloat _v)) 6
    (by decide) (by decide)
  obtain ⟨hinv, hu, hv, _⟩ := followBorder_true_induct d.clearBorder I fb _ _
    (ChainInv d.clearBorder I fb (toInt (estimate d.cog_vfloat _v)))
    (ChainInv d.clearBorder I fb (toInt (estimate d.cog_vfloat _v)))
    (fun s e hs hc => chainInv_step d.clearBorder I fb _ s e hs hc) (fun _ hs => hs)
    fuel _ s1 (chainInv_start d.clearBorder I fb _ _ hdir.1 hdir.2 hgfb) hf
  obtain ⟨_, _, _, he⟩ := finish_true_inv hfin
  obtain ⟨_, _, tu, tv, td, c, e1, e2, e3, l1, l2, ⟨ru, rv, r1, r2⟩, hgood, hchain⟩ := hinv
  subst he
  have x1 : s1.u_list.length = s1.v_list.length := by
    rw [e1, e2, List.length_append, List.length_append, l1, List.length_singleton,
      List.length_singleton]
  have x2 : s1.v_list.length = s1.direction_list.length := by
    rw [e2, e3, List.length_append, List.length_append, l2, List.length_singleton,
      List.length_singleton]
  refine ⟨x1, x2, ?_, hchain, ?_, ?_, ?_⟩
  · intro p hp
    have := hgood p hp
    rw [← this]
    exact hasGoodLevel_congr rfl rfl I _ _
  · show s1.u_list ≠ []
    rw [e1]; simp
  · show s1.u_list.getLast? = s1.u_list.head?
    rw [r1, List.head?_cons, ← r1, e1, List.getLast?_append, hu]
    simp
  · show s1.v_list.getLast? = s1.v_list.head?
    rw [r2, List.head?_cons, ← r2, e2, List.getLast?_append, hv]
    simp

/-- Witness of C28: the call on the image `square3` seeded at (2, 2) returns true; the nine
    recorded entries walk from (3, 2) round the 3 x 3 square and back to (3, 2). -/
theorem computeParameters_border_chain_witness :
    computeParameters 20 Sample.dot5 Sample.square3 2 2 = some (true, Sample.square3Dot) ∧
    Sample.square3Dot.recorded
      = [(3, 2, 6), (3, 1, 6), (2, 1, 4), (1, 1, 4), (1, 2, 2), (1, 3, 2), (2, 3, 0),
         (3, 3, 0), (3, 2, 6)] ∧
    Sample.square3Dot.recorded.Chain' StepTo ∧
    Sample.square3Dot.u_list.getLast? = Sample.square3Dot.u_list.head? :=
  ⟨by decide!, by decide,
   (computeParameters_border_chain 20 Sample.dot5 Sample.square3 2 2 Sample.square3Dot
     (by decide!)).2.2.2.1,
   (computeParameters_border_chain 20 Sample.dot5 Sample.square3 2 2 Sample.square3Dot
     (by decide!)).2.2.2.2.2.1⟩

end vpDot2

namespace vpDot2

/-! ### The graphics flag

Under the flag the source only calls the draw functions of `vpDisplay` (lines 405-411,
842-847, 1059-1062, 1075-1078, 1353-1356), which take the image by constant reference and
are not part of these sources; the embedding has no counterpart for them.  What is proved
here is that nothing else depends on the flag: the functions never branch on it, and it is
only copied, to the candidates and to the dot left. -/

theorem findFirstBorder_setGraphics (d : vpDot2) (g : Bool) (I : Image) (est_u : ℚ)
    (v : Int) :
    ∀ (n : Nat) (x : Int),
      (d.setGraphics g).findFirstBorder I est_u v n x = d.findFirstBorder I est_u v n x := by
  intro n
  induction n with
  | zero => intro x; rfl
  | succ n ih =>
    intro x
    rw [findFirstBorder, findFirstBorder, ih]
    rfl

theorem followBorder_setGraphics (d : vpDot2) (g : Bool) (I : Image) (fu fv fd : Int)
    (fuel : Nat) (s : BorderState) :
    (d.setGraphics g).followBorder I fu fv fd fuel s = d.followBorder I fu fv fd fuel s :=
  @followBorder_congr (d.setGraphics g) d rfl rfl rfl I fu fv fd fuel s

theorem finish_setGraphics (d : vpDot2) (g : Bool) (I : Image) (a b c e : Int) :
    finish (d.setGraphics g) I a b c e
      = ((finish d I a b c e).1, (finish d I a b c e).2.setGraphics g) := by
  have e1 : (d.setGraphics g).m00 = d.m00 := rfl
  have e2 : ∀ x y, (d.setGraphics g).hasGoodLevel I x y = d.hasGoodLevel I x y :=
    fun _ _ => rfl
  have e3 : (d.setGraphics g).m10 = d.m10 := rfl
  have e4 : (d.setGraphics g).m01 = d.m01 := rfl
  simp only [finish, e1, e2, e3, e4]
  split_ifs <;> rfl

/-- `computeParameters` on a dot with another graphics flag: the same boolean, and the same
    dot up to the flag. -/
theorem computeParameters_setGraphics (fuel : Nat) (d : vpDot2) (g : Bool) (I : Image)
    (_u _v : ℚ) :
    computeParameters fuel (d.setGraphics g) I _u _v
      = (computeParameters fuel d I _u _v).map (fun r => (r.1, r.2.setGraphics g)) := by
  unfold computeParameters
  have e1 : (d.setGraphics g).clearBorder = d.clearBorder.setGraphics g := rfl
  have e2 : (d.clearBorder.setGraphics g).cog_ufloat = d.clearBorder.cog_ufloat := rfl
  have e3 : (d.clearBorder.setGraphics g).cog_vfloat = d.clearBorder.cog_vfloat := rfl
  have e4 : (d.clearBorder.setGraphics g).area = d.clearBorder.area := rfl
  have e5 : ∀ x y, (d.clearBorder.setGraphics g).isInArea I x y = d.clearBorder.isInArea I x y :=
    fun _ _ => rfl
  have e6 : ∀ x y, (d.clearBorder.setGraphics g).hasGoodLevel I x y
      = d.clearBorder.hasGoodLevel I x y := fun _ _ => rfl
  have e7 : ∀ x y c, (d.clearBorder.setGraphics g).computeFreemanChainElement I x y c
      = d.clearBorder.computeFreemanChainElement I x y c := fun _ _ _ => rfl
  simp only [e1, e2, e3, e4, e5, e6, e7, findFirstBorder_setGraphics,
    followBorder_setGraphics]
  split_ifs with h1 h2
  · rfl
  · rfl
  · split
    · rfl
    · split_ifs with h3
      · rfl
      · split
        · rfl
        · rfl
        · rename_i s1 _
          have e8 : (d.clearBorder.setGraphics g).store s1
              = (d.clearBorder.store s1).setGraphics g := rfl
          rw [e8, finish_setGraphics]
          rfl

theorem innerRing_setGraphics (t : Trig) (d w : vpDot2) (g1 g2 : Bool) (I : Image) :
    ∀ (n : Nat) (alpha : ℚ),
      innerRing t (d.setGraphics g1) I (w.setGraphics g2) n alpha
        = innerRing t d I w n alpha := by
  intro n
  induction n with
  | zero => intro _; rfl
  | succ n ih =>
    intro alpha
    rw [innerRing, innerRing, ih]
    rfl

theorem outerRing_setGraphics (t : Trig) (d w : vpDot2) (g1 g2 : Bool) (I : Image) :
    ∀ (n : Nat) (alpha : ℚ),
      outerRing t (d.setGraphics g1) I (w.setGraphics g2) n alpha
        = outerRing t d I w n alpha := by
  intro n
  induction n with
  | zero => intro _; rfl
  | succ n ih =>
    intro alpha
    rw [outerRing, outerRing, ih]
    rfl

/-- `isValid` does not read the graphics flag of either dot. -/
theorem isValid_setGraphics (t : Trig) (d w : vpDot2) (g1 g2 : Bool) (I : Image) :
    (d.setGraphics g1).isValid t I (w.setGraphics g2) = d.isValid t I w := by
  unfold isValid
  rw [innerRing_setGraphics, outerRing_setGraphics]
  rfl

theorem insertNice_setGraphics (a : vpAreaType) (c : vpDot2) (g : Bool) :
    ∀ L : List vpDot2,
      insertNice a (c.setGraphics g) (L.map (fun x => x.setGraphics g))
        = (insertNice a c L).map (fun x => x.setGraphics g) := by
  intro L
  induction L with
  | nil => rfl
  | cons x L ih =>
    have e1 : sameCentre (x.setGraphics g) (c.setGraphics g) = sameCentre x c := rfl
    have e2 : distSq a (x.setGraphics g) = distSq a x := rfl
    have e3 : distSq a (c.setGraphics g) = distSq a c := rfl
    simp only [List.map_cons, insertNice, e1, e2, e3]
    split_ifs
    · rfl
    · rfl
    · rw [ih]; rfl

theorem insertBad_setGraphics (c : vpDot2) (g : Bool) (L : List vpDot2) :
    insertBad (c.setGraphics g) (L.map (fun x => x.setGraphics g))
      = (insertBad c L).map (fun x => x.setGraphics g) := by
  cases L <;> rfl

theorem any_germInBox_setGraphics (g : Bool) (u v : Int) (L : List vpDot2) :
    (L.map (fun x => x.setGraphics g)).any (fun tmpDot => germInBox tmpDot u v)
      = L.any (fun tmpDot => germInBox tmpDot u v) := by
  rw [List.any_map]
  rfl

/-- The body of the search loops on a dot with another graphics flag, the candidates found
    so far carrying that flag too. -/
theorem testGerm_setGraphics (t : Trig) (fuel : Nat) (d : vpDot2) (g : Bool) (I : Image)
    (u v : Int) (lists : List vpDot2 × List vpDot2) :
    testGerm t fuel (d.setGraphics g) I u v
        (lists.1.map (fun x => x.setGraphics g), lists.2.map (fun x => x.setGraphics g))
      = (testGerm t fuel d I u v lists).map (fun r =>
          (r.1.map (fun x => x.setGraphics g), r.2.map (fun x => x.setGraphics g))) := by
  unfold testGerm
  have e1 : (d.setGraphics g).hasGoodLevel I u v = d.hasGoodLevel I u v := rfl
  have e2 : (d.setGraphics g).newCandidate u v = (d.newCandidate u v).setGraphics g := rfl
  have e3 : (d.setGraphics g).area = d.area := rfl
  simp only [e1, e2, e3, any_germInBox_setGraphics, computeParameters_setGraphics]
  split_ifs with h1 h2 h3
  · rfl
  · rfl
  · rfl
  · rcases hc : (d.newCandidate u v).computeParameters fuel I (-1) (-1) with _ | ⟨b, c⟩
    · rfl
    · cases b with
      | false => rfl
      | true =>
        simp only [Option.map_some']
        have e4 : (c.setGraphics g).isValid t I (d.setGraphics g) = c.isValid t I d :=
          isValid_setGraphics t c d g g I
        rw [e4]
        split_ifs
        · simp only [Option.map_some', insertNice_setGraphics]
        · simp only [Option.map_some', insertBad_setGraphics]

theorem scanRow_setGraphics (t : Trig) (fuel : Nat) (d : vpDot2) (g : Bool) (I : Image)
    (gridWidth v : Int) :
    ∀ (n : Nat) (u : Int) (lists : List vpDot2 × List vpDot2),
      scanRow t fuel (d.setGraphics g) I gridWidth v n u
          (lists.1.map (fun x => x.setGraphics g), lists.2.map (fun x => x.setGraphics g))
        = (scanRow t fuel d I gridWidth v n u lists).map (fun r =>
            (r.1.map (fun x => x.setGraphics g), r.2.map (fun x => x.setGraphics g))) := by
  intro n
  have e3 : (d.setGraphics g).area = d.area := rfl
  induction n with
  | zero =>
    intro u lists
    simp only [scanRow, e3]
    split_ifs <;> rfl
  | succ n ih =>
    intro u lists
    simp only [scanRow, e3, testGerm_setGraphics]
    split_ifs
    · rcases testGerm t fuel d I u v lists with _ | lists1
      · rfl
      · exact ih _ lists1
    · rfl

theorem scanGrid_setGraphics (t : Trig) (fuel : Nat) (d : vpDot2) (g : Bool) (I : Image)
    (gridWidth gridHeight : Int) :
    ∀ (n : Nat) (v : Int) (lists : List vpDot2 × List vpDot2),
      scanGrid t fuel (d.setGraphics g) I gridWidth gridHeight n v
          (lists.1.map (fun x => x.setGraphics g), lists.2.map (fun x => x.setGraphics g))
        = (scanGrid t fuel d I gridWidth gridHeight n v lists).map (fun r =>
            (r.1.map (fun x => x.setGraphics g), r.2.map (fun x => x.setGraphics g))) := by
  intro n
  have e3 : (d.setGraphics g).area = d.area := rfl
  induction n with
  | zero =>
    intro v lists
    simp only [scanGrid, e3]
    split_ifs <;> rfl
  | succ n ih =>
    intro v lists
    simp only [scanGrid, e3, scanRow_setGraphics]
    split_ifs
    · rcases scanRow t fuel d I gridWidth v (d.area.u_max - d.area.u_min).toNat d.area.u_min
        lists with _ | lists1
      · rfl
      · exact ih _ lists1
    · rfl

/-- `searchDotsInArea` on a dot with another graphics flag: the same dot and the same
    candidates up to the flag. -/
theorem searchDotsInArea_setGraphics (t : Trig) (fuel : Nat) (d : vpDot2) (g : Bool)
    (I : Image) (u v w h : Int) :
    (d.setGraphics g).searchDotsInArea t fuel I u v w h
      = (d.searchDotsInArea t fuel I u v w h).map (fun r =>
          (r.1.setGraphics g, r.2.map (fun x => x.setGraphics g))) := by
  unfold searchDotsInArea
  have e1 : (d.setGraphics g).setArea I u v w h = (d.setArea I u v w h).setGraphics g := rfl
  have e2 : ((d.setArea I u v w h).setGraphics g).getGridSize
      = (d.setArea I u v w h).getGridSize := rfl
  have e3 : ((d.setArea I u v w h).setGraphics g).area = (d.setArea I u v w h).area := rfl
  have e4 := scanGrid_setGraphics t fuel (d.setArea I u v w h) g I
    (d.setArea I u v w h).getGridSize.1 (d.setArea I u v w h).getGridSize.2
    ((d.setArea I u v w h).area.v_max - (d.setArea I u v w h).area.v_min).toNat
    (d.setArea I u v w h).area.v_min ([], [])
  simp only [List.map_nil] at e4
  simp only [e1, e2, e3, e4]
  rcases scanGrid t fuel (d.setArea I u v w h) I (d.setArea I u v w h).getGridSize.1
    (d.setArea I u v w h).getGridSize.2
    ((d.setArea I u v w h).area.v_max - (d.setArea I u v w h).area.v_min).toNat
    (d.setArea I u v w h).area.v_min ([], []) with _ | lists
  · rfl
  · rfl

theorem trackEnd_setGraphics (d : vpDot2) (g : Bool) (I : Image) :
    trackEnd (d.setGraphics g) I = (trackEnd d I).map (fun x => x.setGraphics g) := by
  unfold trackEnd
  have e1 : (d.setGraphics g).isInImageCog I = d.isInImageCog I := rfl
  have e2 : ∀ x : vpDot2, (x.setGraphics g).get_u = x.get_u := fun _ => rfl
  have e3 : ∀ x : vpDot2, (x.setGraphics g).get_v = x.get_v := fun _ => rfl
  have e4 : ∀ x : vpDot2, (x.setGraphics g).accuracy = x.accuracy := fun _ => rfl
  have e5 : ∀ (x : vpDot2) (L : Int),
      (x.setGraphics g).setInLevel L = (x.setInLevel L).setGraphics g := by
    intro x L
    unfold setInLevel
    split_ifs <;> rfl
  simp only [e1, e2, e3, e4, e5]
  split_ifs
  · rfl
  · rfl

/-- `track` on a dot with another graphics flag: the same outcome and the same dot up to
    the flag. -/
theorem track_setGraphics (t : Trig) (fuel : Nat) (d : vpDot2) (g : Bool) (I : Image) :
    (d.setGraphics g).track t fuel I
      = (d.track t fuel I).map (TrackResult.map (fun x => x.setGraphics g)) := by
  have hl : (d.setGraphics g).locate t fuel I
      = (d.locate t fuel I).map (TrackResult.map (fun x => x.setGraphics g)) := by
    unfold locate
    have e1 : (d.setGraphics g).trackStart I = (d.trackStart I).setGraphics g := rfl
    have e2 : (d.setGraphics g).get_u = d.get_u := rfl
    have e3 : (d.setGraphics g).get_v = d.get_v := rfl
    simp only [e1, e2, e3, computeParameters_setGraphics]
    rcases (d.trackStart I).computeParameters fuel I d.get_u d.get_v with _ | ⟨b, d1⟩
    · rfl
    · cases b with
      | true => rfl
      | false =>
        simp only [Option.map_some']
        have e4 : (d1.setGraphics g).searchLost t fuel I
            = (d1.searchLost t fuel I).map (fun r =>
                (r.1.setGraphics g, r.2.map (fun x => x.setGraphics g))) := by
          unfold searchLost
          exact searchDotsInArea_setGraphics t fuel d1 g I _ _ _ _
        rw [e4]
        rcases d1.searchLost t fuel I with _ | ⟨d2, L⟩
        · rfl
        · cases L with
          | nil => rfl
          | cons m L => rfl
  unfold track
  rw [hl]
  rcases d.locate t fuel I with _ | r
  · rfl
  · cases r with
    | featureLostError d1 => rfl
    | returned d1 =>
      simp only [Option.map_some', TrackResult.map, trackEnd_setGraphics]

/-- C22: the graphics flag never affects the tracking outcome: for every image, every dot
    state and every value g of the flag, `computeParameters`, `isValid`,
    `searchDotsInArea` and `track` on the dot with the flag set to g return what they
    return on the dot itself (same boolean, same raised failure, same candidate list up to
    the candidates' flag), and leave the dot they leave on the dot itself with the flag
    set to g: the same centre, width, height, surface, levels and moments. -/
theorem graphics_no_effect (t : Trig) (fuel : Nat) (d : vpDot2) (g : Bool) (I : Image)
    (_u _v : ℚ) (u v w h : Int) (cand ref : vpDot2) (g1 g2 : Bool) :
    computeParameters fuel (d.setGraphics g) I _u _v
      = (computeParameters fuel d I _u _v).map (fun r => (r.1, r.2.setGraphics g)) ∧
    (cand.setGraphics g1).isValid t I (ref.setGraphics g2) = cand.isValid t I ref ∧
    (d.setGraphics g).searchDotsInArea t fuel I u v w h
      = (d.searchDotsInArea t fuel I u v w h).map (fun r =>
          (r.1.setGraphics g, r.2.map (fun x => x.setGraphics g))) ∧
    (d.setGraphics g).track t fuel I
      = (d.track t fuel I).map (TrackResult.map (fun x => x.setGraphics g)) ∧
    (∀ x : vpDot2, (x.setGraphics g).cog_ufloat = x.cog_ufloat ∧
      (x.setGraphics g).cog_vfloat = x.cog_vfloat ∧ (x.setGraphics g).width = x.width ∧
      (x.setGraphics g).height = x.height ∧ (x.setGraphics g).surface = x.surface ∧
      (x.setGraphics g).inLevel = x.inLevel ∧ (x.setGraphics g).outLevel = x.outLevel ∧
      (x.setGraphics g).m00 = x.m00 ∧ (x.setGraphics g).m10 = x.m10 ∧
      (x.setGraphics g).m01 = x.m01 ∧ (x.setGraphics g).m11 = x.m11 ∧
      (x.setGraphics g).m20 = x.m20 ∧ (x.setGraphics g).m02 = x.m02) :=
  ⟨computeParameters_setGraphics fuel d g I _u _v, isValid_setGraphics t cand ref g1 g2 I,
   searchDotsInArea_setGraphics t fuel d g I u v w h, track_setGraphics t fuel d g I,
   fun _ => ⟨rfl, rfl, rfl, rfl, rfl, rfl, rfl, rfl, rfl, rfl, rfl, rfl, rfl⟩⟩

end vpDot2

namespace vpDot2

/-! ### The bounds of the in level and of the accuracy -/

/-- On a number `DoubleArg.setAccuracy` stores the accuracy that `vpDot2.setAccuracy`
    gives the dot. -/
theorem setAccuracy_number (d : vpDot2) (a : ℚ) :
    DoubleArg.setAccuracy (DoubleArg.number a) = DoubleArg.number (d.setAccuracy a).accuracy := by
  unfold DoubleArg.setAccuracy setAccuracy
  simp only [DoubleArg.lt, DoubleArg.gt, decide_eq_true_eq, gt_iff_lt]
  split_ifs <;> rfl

/-- With a number as argument `setAccuracyArg` is `vpDot2.setAccuracy`. -/
theorem setAccuracyArg_number (d : vpDot2) (a : ℚ) :
    d.setAccuracyArg (DoubleArg.number a) = some (d.setAccuracy a) := by
  unfold setAccuracyArg
  rw [setAccuracy_number d a]
  simp only [setAccuracy]
  split_ifs <;> rfl

/-- An infinite argument is stored as the bound on its side: 1 for plus infinity, 0.05 for
    minus infinity. -/
theorem setAccuracyArg_infinite (d : vpDot2) :
    d.setAccuracyArg DoubleArg.posInf = some (d.setAccuracy 2) ∧
    d.setAccuracyArg DoubleArg.negInf = some (d.setAccuracy 0) := by
  have h2 : d.setAccuracy 2 = { d with accuracy := 1 } := by
    unfold setAccuracy; norm_num
  have h0 : d.setAccuracy 0 = { d with accuracy := 5 / 100 } := by
    unfold setAccuracy; norm_num
  rw [h2, h0]
  exact ⟨rfl, rfl⟩

/-- What `setAccuracyArg` stores, when it is a number, lies between 0.05 and 1, and the
    in level is kept. -/
theorem setAccuracyArg_bounds (d e : vpDot2) (a : DoubleArg)
    (h : d.setAccuracyArg a = some e) :
    e.inLevel = d.inLevel ∧ 5 / 100 ≤ e.accuracy ∧ e.accuracy ≤ 1 := by
  cases a with
  | number x =>
    rw [setAccuracyArg_number] at h
    cases h
    unfold setAccuracy
    simp only []
    split_ifs with h1 h2
    · exact ⟨rfl, le_refl _, by norm_num⟩
    · exact ⟨rfl, by norm_num, le_refl _⟩
    · exact ⟨rfl, not_lt.1 h1, not_lt.1 h2⟩
  | posInf =>
    have h2 : d.setAccuracyArg DoubleArg.posInf = some { d with accuracy := 1 } := rfl
    rw [h2] at h
    cases h
    exact ⟨rfl, by norm_num, le_refl _⟩
  | negInf =>
    have h2 : d.setAccuracyArg DoubleArg.negInf = some { d with accuracy := 5 / 100 } := rfl
    rw [h2] at h
    cases h
    exact ⟨rfl, le_refl _, by norm_num⟩
  | nan =>
    have h2 : d.setAccuracyArg DoubleArg.nan = none := rfl
    rw [h2] at h
    cases h

/-- C29 as stated fails: `setAccuracy` called with NaN stores NaN, since both comparisons
    `accuracy < epsilon` and `accuracy > 1` are false, and neither 0.05 <= NaN nor
    NaN <= 1 holds; the dot after the call is none of the embedding. -/
theorem setAccuracy_nan_counterexample :
    DoubleArg.setAccuracy DoubleArg.nan = DoubleArg.nan ∧
    (DoubleArg.number (5 / 100)).le (DoubleArg.setAccuracy DoubleArg.nan) = false ∧
    (DoubleArg.setAccuracy DoubleArg.nan).le (DoubleArg.number 1) = false ∧
    (∀ d : vpDot2, d.setAccuracyArg DoubleArg.nan = none) := by
  refine ⟨?_, ?_, ?_, ?_⟩
  · rfl
  · rfl
  · rfl
  · intro d; rfl

theorem setInLevel_bounds (d : vpDot2) (l : Int) :
    70 ≤ (d.setInLevel l).inLevel ∧ (d.setInLevel l).accuracy = d.accuracy := by
  unfold setInLevel MIN_IN_LEVEL
  split_ifs with h
  · exact ⟨by simp only []; omega, rfl⟩
  · exact ⟨le_refl _, rfl⟩

theorem setAccuracy_bounds (d : vpDot2) (a : ℚ) :
    (d.setAccuracy a).inLevel = d.inLevel ∧ 5 / 100 ≤ (d.setAccuracy a).accuracy ∧
    (d.setAccuracy a).accuracy ≤ 1 := by
  unfold setAccuracy
  simp only []
  split_ifs with h1 h2
  · exact ⟨rfl, le_refl _, by norm_num⟩
  · exact ⟨rfl, by norm_num, le_refl _⟩
  · exact ⟨rfl, not_lt.1 h1, not_lt.1 h2⟩

/-- The in level of the dot is the same all along the first part of `track`. -/
theorem locate_inLevel (t : Trig) (fuel : Nat) (d : vpDot2) (I : Image) (r : TrackResult)
    (h : d.locate t fuel I = some r) : r.dot.inLevel = d.inLevel := by
  unfold locate at h
  simp only [] at h
  split at h
  · simp at h
  · rename_i d1 h1
    cases h
    exact (computeParameters_keeps h1).1
  · rename_i d1 h1
    have h3 : d1.inLevel = d.inLevel := (computeParameters_keeps h1).1
    split at h
    · simp at h
    · rename_i d2 h2
      cases h
      unfold searchLost at h2
      have h4 := (searchDotsInArea_nice (fun _ => True) trivial
        (fun _ _ _ _ _ _ _ => trivial) h2).1
      simp only [] at h4
      simp only [TrackResult.dot]
      rw [h4]
      exact h3
    · rename_i d2 movingDot rest h2
      cases h
      unfold searchLost at h2
      have h4 := (searchDotsInArea_nice (fun _ => True) trivial
        (fun _ _ _ _ _ _ _ => trivial) h2).1
      simp only [] at h4
      simp only [TrackResult.dot]
      rw [h4]
      exact h3

/-- The bounds pass through `track`. -/
theorem track_bounds (t : Trig) (fuel : Nat) (d : vpDot2) (I : Image) (r : TrackResult)
    (hd : 70 ≤ d.inLevel ∧ 5 / 100 ≤ d.accuracy ∧ d.accuracy ≤ 1)
    (h : d.track t fuel I = some r) :
    70 ≤ r.dot.inLevel ∧ 5 / 100 ≤ r.dot.accuracy ∧ r.dot.accuracy ≤ 1 := by
  unfold track at h
  split at h
  · simp at h
  · rename_i d1 h1
    cases h
    have h2 := locate_inLevel t fuel d I _ h1
    have h3 := locate_accuracy t fuel d I _ h1
    simp only [TrackResult.dot] at h2 h3 ⊢
    rw [h2, h3]
    exact hd
  · rename_i d1 h1
    cases h
    have h2 := locate_inLevel t fuel d I _ h1
    have h3 := locate_accuracy t fuel d I _ h1
    simp only [TrackResult.dot] at h2 h3
    unfold trackEnd
    split_ifs
    · simp only [TrackResult.dot]
      rw [h2, h3]
      exact hd
    · simp only [TrackResult.dot, setOutLevel]
      have h4 := setInLevel_bounds d1
        (toInt (toDouble ((I.pix (toInt d1.get_u) (toInt d1.get_v) : ℚ) * d1.accuracy)))
      refine ⟨h4.1, ?_⟩
      rw [h4.2, h3]
      exact hd.2

/-- The bounds hold for what `searchDotsInArea` leaves and returns. -/
theorem searchDotsInArea_bounds (t : Trig) (fuel : Nat) (d : vpDot2) (I : Image)
    (u v w h : Int) (r : vpDot2 × List vpDot2)
    (hd : 70 ≤ d.inLevel ∧ 5 / 100 ≤ d.accuracy ∧ d.accuracy ≤ 1)
    (hr : d.searchDotsInArea t fuel I u v w h = some r) :
    (70 ≤ r.1.inLevel ∧ 5 / 100 ≤ r.1.accuracy ∧ r.1.accuracy ≤ 1) ∧
    ∀ c ∈ r.2, 70 ≤ c.inLevel ∧ 5 / 100 ≤ c.accuracy ∧ c.accuracy ≤ 1 := by
  have h1 := searchDotsInArea_nice
    (fun L => ∀ c ∈ L, 70 ≤ c.inLevel ∧ 5 / 100 ≤ c.accuracy ∧ c.accuracy ≤ 1)
    (by intro c hc; simp at hc)
    (by
      intro x y c L hL hc _ c1 hc1
      rcases mem_insertNice _ _ _ _ hc1 with h2 | h2
      · subst h2
        have h3 := computeParameters_keeps hc
        have h4 := newCandidate_levels (d.setArea I u v w h) x y
        rw [h3.1, h3.2.2.1, h4.1, h4.2.2.1]
        exact ⟨le_max_right _ _, by norm_num, by norm_num⟩
      · exact hL c1 h2) hr
  refine ⟨?_, h1.2⟩
  rw [h1.1]
  exact hd

/-- C29 (amended): in every dot state reachable from a constructor through `setInLevel`,
    `setOutLevel`, `setAccuracy` with an argument other than NaN (a number or an infinity),
    the other setters, assignment and copy, `initTracking`, `computeParameters`,
    `searchDotsInArea` and `track`, the in level is at least 70 and the accuracy lies
    between 0.05 and 1. -/
theorem reachable_bounds (t : Trig) (d : vpDot2) (h : Reachable t d) :
    70 ≤ d.inLevel ∧ 5 / 100 ≤ d.accuracy ∧ d.accuracy ≤ 1 := by
  induction h with
  | fresh a => exact ⟨by norm_num [mk0], by norm_num [mk0], by norm_num [mk0]⟩
  | freshAt a u v =>
    exact ⟨by norm_num [mkAt, mk0], by norm_num [mkAt, mk0], by norm_num [mkAt, mk0]⟩
  | copied _ ih => exact ih
  | assigned _ _ _ ih => exact ih
  | set_u _ _ ih => exact ih
  | set_v _ _ ih => exact ih
  | setWidth _ _ ih => exact ih
  | setHeight _ _ ih => exact ih
  | setSurface _ _ ih => exact ih
  | @setInLevel d0 l _ ih =>
    have h1 := setInLevel_bounds d0 l
    rw [h1.2]
    exact ⟨h1.1, ih.2⟩
  | setOutLevel _ _ ih => exact ih
  | @setAccuracy d0 e0 a _ he ih =>
    have h1 := setAccuracyArg_bounds d0 e0 a he
    rw [h1.1]
    exact ⟨ih.1, h1.2⟩
  | setGraphics _ _ ih => exact ih
  | setComputeMoments _ _ ih => exact ih
  | setArea _ _ _ _ _ _ ih => exact ih
  | setAreaImage _ _ ih => exact ih
  | setAreaType _ _ ih => exact ih
  | initTracking fuel I u v r _ hr ih =>
    unfold initTracking at hr
    refine track_bounds t fuel _ I r ?_ hr
    simp only [setWidth, MIN_IN_LEVEL]
    split_ifs with h1
    · exact ⟨le_refl _, ih.2⟩
    · exact ⟨not_lt.1 h1, ih.2⟩
  | computeParameters fuel I _u _v r _ hr ih =>
    obtain ⟨b, d1⟩ := r
    have h1 := computeParameters_keeps hr
    simp only []
    rw [h1.1, h1.2.2.1]
    exact ih
  | searchDotsInArea fuel I u v w h r _ hr ih =>
    exact (searchDotsInArea_bounds t fuel _ I u v w h r ih hr).1
  | candidate fuel I u v w h r c _ hr hc ih =>
    exact (searchDotsInArea_bounds t fuel _ I u v w h r ih hr).2 c hc
  | searchDotsInAreaImage fuel I r _ hr ih =>
    exact (searchDotsInArea_bounds t fuel _ I _ _ _ _ r ih hr).1
  | candidateImage fuel I r c _ hr hc ih =>
    exact (searchDotsInArea_bounds t fuel _ I _ _ _ _ r ih hr).2 c hc
  | track fuel I r _ hr ih => exact track_bounds t fuel _ I r ih hr

theorem lowTrack_eq :
    (Sample.strayDot.setInLevel 10).track Sample.trig 100 Sample.square11
      = some Sample.lowTrack := by decide!

theorem reachable_bounds_witness :
    Reachable Sample.trig Sample.lowTrack.dot ∧
    (Sample.lowTrack.dot.inLevel = 127 ∧ Sample.lowTrack.dot.accuracy = 1 / 2) ∧
    70 ≤ Sample.lowTrack.dot.inLevel ∧ 5 / 100 ≤ Sample.lowTrack.dot.accuracy ∧
      Sample.lowTrack.dot.accuracy ≤ 1 :=
  have hr : Reachable Sample.trig Sample.lowTrack.dot :=
    Reachable.track 100 Sample.square11 Sample.lowTrack
      (Reachable.setInLevel 10 (Reachable.set_v 0 (Reachable.set_u 0
        (Reachable.setAccuracy (DoubleArg.number (1 / 2))
          (Reachable.setSurface 100 (Reachable.setHeight 10
            (Reachable.setWidth 10 (Reachable.fresh Sample.area13))))
          (setAccuracyArg_number _ (1 / 2))))))
      lowTrack_eq
  ⟨hr, ⟨by decide!, by decide!⟩, reachable_bounds Sample.trig Sample.lowTrack.dot hr⟩

end vpDot2

namespace vpDot2

/-! ### The border loop ends -/

/-- The code found by a search through the priority order is the first of the order with
    the property: it is the i-th, and no earlier one has the property. -/
theorem pick_first (N : Int → Bool) (c c' : Int)
    (h : (priorityOrder c).find? N = some c') :
    ∃ i : Int, 0 ≤ i ∧ i ≤ 7 ∧ c' = (c + 2 - i) % 8 ∧ N c' = true ∧
      ∀ j : Int, 0 ≤ j → j < i → N ((c + 2 - j) % 8) = false := by
  have hN : N c' = true := List.find?_some h
  have e0 : (c + 2 - 0) % 8 = (c + 2) % 8 := by omega
  have e1 : (c + 2 - 1) % 8 = (c + 1) % 8 := by omega
  have e2 : (c + 2 - 2) % 8 = c % 8 := by omega
  have e3 : (c + 2 - 3) % 8 = (c + 7) % 8 := by omega
  have e4 : (c + 2 - 4) % 8 = (c + 6) % 8 := by omega
  have e5 : (c + 2 - 5) % 8 = (c + 5) % 8 := by omega
  have e6 : (c + 2 - 6) % 8 = (c + 4) % 8 := by omega
  have e7 : (c + 2 - 7) % 8 = (c + 3) % 8 := by omega
  unfold priorityOrder at h
  cases h0 : N ((c + 2) % 8) with
  | true =>
    simp only [List.find?_cons, h0, Option.some.injEq] at h
    refine ⟨0, by norm_num, by norm_num, ?_, hN, ?_⟩
    · rw [e0]; exact h.symm
    · intro j hj0 hji
      omega
  | false =>
    cases h1 : N ((c + 1) % 8) with
    | true =>
      simp only [List.find?_cons, h0, h1, Option.some.injEq] at h
      refine ⟨1, by norm_num, by norm_num, ?_, hN, ?_⟩
      · rw [e1]; exact h.symm
      · intro j hj0 hji
        interval_cases j
        simp only [e0, h0]
    | false =>
      cases h2 : N (c % 8) with
      | true =>
        simp only [List.find?_cons, h0, h1, h2, Option.some.injEq] at h
        refine ⟨2, by norm_num, by norm_num, ?_, hN, ?_⟩
        · rw [e2]; exact h.symm
        · intro j hj0 hji
          interval_cases j <;> simp only [e0, e1, h0, h1]
      | false =>
        cases h3 : N ((c + 7) % 8) with
        | true =>
          simp only [List.find?_cons, h0, h1, h2, h3, Option.some.injEq] at h
          refine ⟨3, by norm_num, by norm_num, ?_, hN, ?_⟩
          · rw [e3]; exact h.symm
          · intro j hj0 hji
            interval_cases j <;> simp only [e0, e1, e2, h0, h1, h2]
        | false =>
          cases h4 : N ((c + 6) % 8) with
          | true =>
            simp only [List.find?_cons, h0, h1, h2, h3, h4, Option.some.injEq] at h
            refine ⟨4, by norm_num, by norm_num, ?_, hN, ?_⟩
            · rw [e4]; exact h.symm
            · intro j hj0 hji
              interval_cases j <;> simp only [e0, e1, e2, e3, h0, h1, h2, h3]
          | false =>
            cases h5 : N ((c + 5) % 8) with
            | true =>
              simp only [List.find?_cons, h0, h1, h2, h3, h4, h5, Option.some.injEq] at h
              refine ⟨5, by norm_num, by norm_num, ?_, hN, ?_⟩
              · rw [e5]; exact h.symm
              · intro j hj0 hji
                interval_cases j <;> simp only [e0, e1, e2, e3, e4, h0, h1, h2, h3, h4]
            | false =>
              cases h6 : N ((c + 4) % 8) with
              | true =>
                simp only [List.find?_cons, h0, h1, h2, h3, h4, h5, h6, Option.some.injEq] at h
                refine ⟨6, by norm_num, by norm_num, ?_, hN, ?_⟩
                · rw [e6]; exact h.symm
                · intro j hj0 hji
                  interval_cases j <;> simp only [e0, e1, e2, e3, e4, e5, h0, h1, h2, h3, h4, h5]
              | false =>
                cases h7 : N ((c + 3) % 8) with
                | true =>
                  simp only [List.find?_cons, h0, h1, h2, h3, h4, h5, h6, h7, Option.some.injEq] at h
                  refine ⟨7, by norm_num, by norm_num, ?_, hN, ?_⟩
                  · rw [e7]; exact h.symm
                  · intro j hj0 hji
                    interval_cases j <;> simp only [e0, e1, e2, e3, e4, e5, e6, h0, h1, h2, h3, h4, h5, h6]
                | false =>
                  simp [List.find?_cons, h0, h1, h2, h3, h4, h5, h6, h7] at h

/-- After the code c' is found for the incoming code c, the codes c' + 1 and, for an even
    c', c' + 2 do not have the property, when c + 3 and, for an even c, c + 2 have not. -/
theorem pick_closure (N : Int → Bool) (c c' : Int)
    (h : (priorityOrder c).find? N = some c')
    (hB3 : N ((c + 3) % 8) = false) (hB2 : c % 2 = 0 → N ((c + 2) % 8) = false) :
    N ((c' + 1) % 8) = false ∧ (c' % 2 = 0 → N ((c' + 2) % 8) = false) := by
  obtain ⟨i, hi0, hi7, hc', hN, hbad⟩ := pick_first N c c' h
  constructor
  · by_cases hi : i = 0
    · have e : (c' + 1) % 8 = (c + 3) % 8 := by omega
      rw [e]; exact hB3
    · have e : (c' + 1) % 8 = (c + 2 - (i - 1)) % 8 := by omega
      rw [e]; exact hbad (i - 1) (by omega) (by omega)
  · intro hev
    by_cases hi : i = 0
    · exfalso
      have hce : c % 2 = 0 := by omega
      have e : c' = (c + 2) % 8 := by omega
      rw [e, hB2 hce] at hN
      cases hN
    · by_cases hi1 : i = 1
      · have e : (c' + 2) % 8 = (c + 3) % 8 := by omega
        rw [e]; exact hB3
      · have e : (c' + 2) % 8 = (c + 2 - (i - 2)) % 8 := by omega
        rw [e]; exact hbad (i - 2) (by omega) (by omega)

/-- Two incoming codes for which the same code is found are equal, when for each the
    opposite code has the property and the code before the opposite one has not. -/
theorem pick_inj (N : Int → Bool) (c1 c2 c' : Int)
    (h10 : 0 ≤ c1) (h17 : c1 ≤ 7) (h20 : 0 ≤ c2) (h27 : c2 ≤ 7)
    (p1 : (priorityOrder c1).find? N = some c') (p2 : (priorityOrder c2).find? N = some c')
    (g1 : N ((c1 + 4) % 8) = true) (g2 : N ((c2 + 4) % 8) = true)
    (b1 : N ((c1 + 3) % 8) = false) (b2 : N ((c2 + 3) % 8) = false) : c1 = c2 := by
  obtain ⟨i1, hi10, hi17, hc1, _, hbad1⟩ := pick_first N c1 c' p1
  obtain ⟨i2, hi20, hi27, hc2, _, hbad2⟩ := pick_first N c2 c' p2
  by_contra hne
  have k1 : ¬ ((c1 - c2 - 2) % 8 < i1) := by
    intro hlt
    have hb := hbad1 ((c1 - c2 - 2) % 8) (by omega) hlt
    have e : (c1 + 2 - (c1 - c2 - 2) % 8) % 8 = (c2 + 4) % 8 := by omega
    rw [e, g2] at hb
    cases hb
  have k2 : ¬ ((c2 - c1 - 2) % 8 < i2) := by
    intro hlt
    have hb := hbad2 ((c2 - c1 - 2) % 8) (by omega) hlt
    have e : (c2 + 2 - (c2 - c1 - 2) % 8) % 8 = (c1 + 4) % 8 := by omega
    rw [e, g1] at hb
    cases hb
  have k3 : (c1 - c2 - 2) % 8 ≠ 7 := by
    intro h
    have e : (c2 + 4) % 8 = (c1 + 3) % 8 := by omega
    rw [e, b1] at g2
    cases g2
  have k4 : (c2 - c1 - 2) % 8 ≠ 7 := by
    intro h
    have e : (c1 + 4) % 8 = (c2 + 3) % 8 := by omega
    rw [e, b2] at g1
    cases g1
  omega

/-- The chain element found is the first code of the priority order whose neighbour has a
    good level. -/
theorem chain_pick {d : vpDot2} {I : Image} {u v c c' : Int} (h0 : 0 ≤ c) (h7 : c ≤ 7)
    (h : d.computeFreemanChainElement I u v c = (true, c')) :
    (priorityOrder c).find? (fun k => d.probe I u v k) = some c' := by
  rw [chain_eq_find, priorityOrder_eq c h0 h7] at h
  split_ifs at h with hb
  · split at h
    · rename_i k hf
      simp only [Prod.mk.injEq, true_and] at h
      subst h
      exact hf
    · simp at h
  · simp at h

/-- The neighbours of a pixel seen from the pixel one step of an even code further. -/
theorem probe_turn_even (d : vpDot2) (I : Image) (u v c : Int) (h0 : 0 ≤ c) (h7 : c ≤ 7)
    (hev : c % 2 = 0) :
    d.probe I (updateFreemanPosition u v c).1 (updateFreemanPosition u v c).2 ((c + 2) % 8)
      = d.probe I u v ((c + 1) % 8) ∧
    d.probe I (updateFreemanPosition u v c).1 (updateFreemanPosition u v c).2 ((c + 3) % 8)
      = d.probe I u v ((c + 2) % 8) := by
  interval_cases c <;> simp at hev <;> simp [probe, updateFreemanPosition]

/-- The neighbours of a pixel seen from the pixel one step of an odd code further. -/
theorem probe_turn_odd (d : vpDot2) (I : Image) (u v c : Int) (h0 : 0 ≤ c) (h7 : c ≤ 7)
    (hodd : c % 2 = 1) :
    d.probe I (updateFreemanPosition u v c).1 (updateFreemanPosition u v c).2 ((c + 3) % 8)
      = d.probe I u v ((c + 1) % 8) := by
  interval_cases c <;> simp at hodd <;> simp [probe, updateFreemanPosition]

/-- The pixel a step comes from, as the neighbour of the opposite code. -/
theorem probe_opposite (d : vpDot2) (I : Image) (u v c : Int) (h0 : 0 ≤ c) (h7 : c ≤ 7) :
    d.probe I (updateFreemanPosition u v c).1 (updateFreemanPosition u v c).2 ((c + 4) % 8)
      = d.hasGoodLevel I u v := by
  interval_cases c <;> simp [probe, updateFreemanPosition]

end vpDot2

namespace vpDot2

/-- From a position and code of the invariant the step reaches a pixel of good level from
    which the chain element is found, and the position and code after it are of the
    invariant again. -/
theorem headInv_step (d : vpDot2) (I : Image) (h : Int × Int × Int)
    (hinv : HeadInv d I h) :
    (d.computeFreemanChainElement I (updateFreemanPosition h.1 h.2.1 h.2.2).1
      (updateFreemanPosition h.1 h.2.1 h.2.2).2 h.2.2).1 = true ∧
    HeadInv d I (headStep d I h) := by
  obtain ⟨u, v, c⟩ := h
  obtain ⟨h0, h7, hg, hp, hb1, hb2⟩ := hinv
  simp only [] at h0 h7 hg hp hb1 hb2
  have hback := probe_opposite d I u v c h0 h7
  rw [hg] at hback
  have hch : (d.computeFreemanChainElement I (updateFreemanPosition u v c).1
      (updateFreemanPosition u v c).2 c).1 = true :=
    chain_of_probe h0 h7 hp (c := (c + 4) % 8) (by omega) (by omega) hback
  refine ⟨hch, ?_⟩
  rcases hc : d.computeFreemanChainElement I (updateFreemanPosition u v c).1
      (updateFreemanPosition u v c).2 c with ⟨b, c'⟩
  rw [hc] at hch
  simp only [] at hch
  subst hch
  obtain ⟨hp', h0', h7'⟩ := chain_true_probe h0 h7 hc
  have hpick := chain_pick h0 h7 hc
  have hB3 : d.probe I (updateFreemanPosition u v c).1 (updateFreemanPosition u v c).2
      ((c + 3) % 8) = false := by
    rcases Int.emod_two_eq_zero_or_one c with hev | hodd
    · rw [(probe_turn_even d I u v c h0 h7 hev).2]
      exact hb2 hev
    · rw [probe_turn_odd d I u v c h0 h7 hodd]
      exact hb1
  have hB2 : c % 2 = 0 → d.probe I (updateFreemanPosition u v c).1
      (updateFreemanPosition u v c).2 ((c + 2) % 8) = false := by
    intro hev
    rw [(probe_turn_even d I u v c h0 h7 hev).1]
    exact hb1
  obtain ⟨k1, k2⟩ := pick_closure (fun k => d.probe I (updateFreemanPosition u v c).1
    (updateFreemanPosition u v c).2 k) c c' hpick hB3 hB2
  simp only [headStep, hc]
  exact ⟨h0', h7', hp, hp', k1, k2⟩

/-- Two positions and codes of the invariant with the same next position and code are
    equal. -/
theorem headStep_inj (d : vpDot2) (I : Image) (h1 h2 : Int × Int × Int)
    (i1 : HeadInv d I h1) (i2 : HeadInv d I h2)
    (e : headStep d I h1 = headStep d I h2) : h1 = h2 := by
  have s1 := (headInv_step d I h1 i1).1
  have s2 := (headInv_step d I h2 i2).1
  obtain ⟨u1, v1, c1⟩ := h1
  obtain ⟨u2, v2, c2⟩ := h2
  obtain ⟨h10, h17, hg1, hp1, hb11, hb12⟩ := i1
  obtain ⟨h20, h27, hg2, hp2, hb21, hb22⟩ := i2
  simp only [] at h10 h17 hg1 hp1 hb11 hb12 h20 h27 hg2 hp2 hb21 hb22 s1 s2
  simp only [headStep, Prod.mk.injEq] at e
  obtain ⟨eu, ev, ec⟩ := e
  have hback1 := probe_opposite d I u1 v1 c1 h10 h17
  have hback2 := probe_opposite d I u2 v2 c2 h20 h27
  rw [hg1] at hback1
  rw [hg2, ← eu, ← ev] at hback2
  have hB1 : d.probe I (updateFreemanPosition u1 v1 c1).1 (updateFreemanPosition u1 v1 c1).2
      ((c1 + 3) % 8) = false := by
    rcases Int.emod_two_eq_zero_or_one c1 with hev | hodd
    · rw [(probe_turn_even d I u1 v1 c1 h10 h17 hev).2]
      exact hb12 hev
    · rw [probe_turn_odd d I u1 v1 c1 h10 h17 hodd]
      exact hb11
  have hB2 : d.probe I (updateFreemanPosition u1 v1 c1).1 (updateFreemanPosition u1 v1 c1).2
      ((c2 + 3) % 8) = false := by
    rw [eu, ev]
    rcases Int.emod_two_eq_zero_or_one c2 with hev | hodd
    · rw [(probe_turn_even d I u2 v2 c2 h20 h27 hev).2]
      exact hb22 hev
    · rw [probe_turn_odd d I u2 v2 c2 h20 h27 hodd]
      exact hb21
  rw [← eu, ← ev] at s2 ec
  rcases hc1 : d.computeFreemanChainElement I (updateFreemanPosition u1 v1 c1).1
      (updateFreemanPosition u1 v1 c1).2 c1 with ⟨b1, c'⟩
  rcases hc2 : d.computeFreemanChainElement I (updateFreemanPosition u1 v1 c1).1
      (updateFreemanPosition u1 v1 c1).2 c2 with ⟨b2, c''⟩
  rw [hc1] at s1 ec
  rw [hc2] at s2 ec
  simp only [] at s1 s2 ec
  subst s1 s2 ec
  have hc : c1 = c2 :=
    pick_inj (fun k => d.probe I (updateFreemanPosition u1 v1 c1).1
      (updateFreemanPosition u1 v1 c1).2 k) c1 c2 c' h10 h17 h20 h27
      (chain_pick h10 h17 hc1) (chain_pick h20 h27 hc2) hback1 hback2 hB1 hB2
  subst hc
  rw [updateFreemanPosition_add u1 v1 c1, updateFreemanPosition_add u2 v2 c1] at eu ev
  simp only [] at eu ev
  have hu : u1 = u2 := by omega
  have hv : v1 = v2 := by omega
  rw [hu, hv]

/-- The positions and codes of the invariant are finitely many: the position is a point of
    the area and the code is in 0..7. -/
theorem headInv_finite (d : vpDot2) (I : Image) : {h | HeadInv d I h}.Finite := by
  refine Set.Finite.subset
    ((Set.finite_Icc d.area.u_min d.area.u_max).prod
      ((Set.finite_Icc d.area.v_min d.area.v_max).prod (Set.finite_Icc (0 : Int) 7))) ?_
  rintro ⟨u, v, c⟩ ⟨h0, h7, hg, _⟩
  simp only [] at h0 h7 hg
  have ha := (isInArea_iff d I u v).1 (hasGoodLevel_isInArea hg)
  simp only [Set.mem_prod, Set.mem_Icc]
  exact ⟨⟨ha.1, ha.2.1⟩, ⟨ha.2.2.1, ha.2.2.2⟩, h0, h7⟩

/-- A map of a finite set into itself that is injective on the set brings every point of
    the set back to itself. -/
theorem returns_of_injective {α : Type} (g : α → α) (T : Set α) (hfin : T.Finite)
    (hmap : ∀ x ∈ T, g x ∈ T) (hinj : ∀ x ∈ T, ∀ y ∈ T, g x = g y → x = y)
    (x : α) (hx : x ∈ T) : ∃ n : Nat, g^[n + 1] x = x := by
  have hmem : ∀ k : Nat, g^[k] x ∈ T := by
    intro k
    induction k with
    | zero => exact hx
    | succ k ih => rw [Function.iterate_succ_apply']; exact hmap _ ih
  obtain ⟨i, j, hij, he⟩ := hfin.exists_lt_map_eq_of_forall_mem hmem
  have peel : ∀ (i j : Nat), i < j → g^[i] x = g^[j] x → g^[j - i] x = x := by
    intro i
    induction i with
    | zero => intro j _ he; exact he.symm
    | succ i ih =>
      intro j hij he
      obtain ⟨j', rfl⟩ : ∃ j', j = j' + 1 := ⟨j - 1, by omega⟩
      rw [Function.iterate_succ_apply', Function.iterate_succ_apply'] at he
      have h2 := hinj _ (hmem i) _ (hmem j') he
      have h3 := ih j' (by omega) h2
      have e : j' + 1 - (i + 1) = j' - i := by omega
      rw [e]; exact h3
  refine ⟨j - i - 1, ?_⟩
  have e : j - i - 1 + 1 = j - i := by omega
  rw [e]
  exact peel i j hij he

/-- The border loop ends when it starts from a position and code of the invariant that
    the steps bring to the first border pixel with the first code. -/
theorem followBorder_returns (d : vpDot2) (I : Image) (fu fv fd : Int) :
    ∀ (m : Nat) (s : BorderState), HeadInv d I (s.border_u, s.border_v, s.dir) →
      (headStep d I)^[m + 1] (s.border_u, s.border_v, s.dir) = (fu, fv, fd) →
      ∃ r, d.followBorder I fu fv fd (m + 1) s = some r := by
  intro m
  induction m with
  | zero =>
    intro s hinv hit
    obtain ⟨hch, _⟩ := headInv_step d I _ hinv
    obtain ⟨e1, e2, e3⟩ := advance_position d s hinv.1 hinv.2.1
    simp only [] at hch
    rw [← e1, ← e2, ← e3] at hch
    rcases hc : d.computeFreemanChainElement I (d.advance s).border_u (d.advance s).border_v
      (d.advance s).dir with ⟨b, c'⟩
    rw [hc] at hch
    simp only [] at hch
    subst hch
    rw [followBorder_succ_true d I fu fv fd 0 s c' hc]
    simp only [Function.iterate_succ, Function.iterate_zero, Function.comp_apply, id_eq,
      headStep, Prod.mk.injEq] at hit
    rw [← e1, ← e2, ← e3, hc] at hit
    rw [if_pos ⟨hit.1.symm, hit.2.1.symm, hit.2.2.symm⟩]
    exact ⟨_, rfl⟩
  | succ m ih =>
    intro s hinv hit
    obtain ⟨hch, hnext⟩ := headInv_step d I _ hinv
    obtain ⟨e1, e2, e3⟩ := advance_position d s hinv.1 hinv.2.1
    simp only [] at hch
    rw [← e1, ← e2, ← e3] at hch
    rcases hc : d.computeFreemanChainElement I (d.advance s).border_u (d.advance s).border_v
      (d.advance s).dir with ⟨b, c'⟩
    rw [hc] at hch
    simp only [] at hch
    subst hch
    rw [followBorder_succ_true d I fu fv fd (m + 1) s c' hc]
    have hs : headStep d I (s.border_u, s.border_v, s.dir)
        = ((d.advance s).border_u, (d.advance s).border_v, c') := by
      simp only [headStep]
      rw [← e1, ← e2, ← e3, hc]
    split_ifs
    · exact ⟨_, rfl⟩
    · rw [Function.iterate_succ_apply, hs] at hit
      rw [hs] at hnext
      exact ih { d.advance s with dir := c' } hnext hit

end vpDot2

namespace vpDot2

/-- Where the rightward scan stops, the pixel on the right has no good level. -/
theorem findFirstBorder_exit (d : vpDot2) (I : Image) (est_u : ℚ) (v : Int) :
    ∀ (n : Nat) (x fb : Int), d.area.u_max - x ≤ n →
      d.findFirstBorder I est_u v n x = some fb → d.hasGoodLevel I (fb + 1) v = false := by
  intro n
  induction n with
  | zero =>
    intro x fb hn h
    simp only [findFirstBorder, Option.some.injEq] at h
    subst h
    by_contra hh
    have hgood := Bool.eq_true_of_not_eq_false hh
    have ha := (isInArea_iff d I (x + 1) v).1 (hasGoodLevel_isInArea hgood)
    have hn2 : d.area.u_max - x ≤ 0 := by exact_mod_cast hn
    omega
  | succ n ih =>
    intro x fb hn h
    rw [findFirstBorder] at h
    split_ifs at h with h1 h2
    · refine ih (x + 1) fb ?_ h
      push_cast at hn
      omega
    · simp only [Option.some.injEq] at h
      subst h
      by_contra hh
      have hgood := Bool.eq_true_of_not_eq_false hh
      have ha := (isInArea_iff d I (x + 1) v).1 (hasGoodLevel_isInArea hgood)
      exact h1 ⟨hgood, by omega⟩

/-- From the first border pixel, a pixel of good level whose right neighbour has none, the
    border loop ends. -/
theorem followBorder_start_returns (d : vpDot2) (I : Image) (fu fv : Int)
    (hg : d.hasGoodLevel I fu fv = true) (hr : d.hasGoodLevel I (fu + 1) fv = false) :
    ∃ fuel r, d.followBorder I fu fv (d.computeFreemanChainElement I fu fv 6).2 fuel
      (startState I fu fv (d.computeFreemanChainElement I fu fv 6).2) = some r := by
  rcases hc : d.computeFreemanChainElement I fu fv 6 with ⟨b, fd⟩
  cases b with
  | false =>
    have hp6 : d.probe I fu fv 6 = false := by
      by_contra hh
      have h1 := @chain_of_probe d I fu fv 6 6 (by norm_num) (by norm_num) hg
        (by norm_num) (by norm_num) (Bool.eq_true_of_not_eq_false hh)
      rw [hc] at h1
      cases h1
    have h6 : fd = 6 := by
      have h2 := hc
      rw [chain_eq_find] at h2
      rw [if_pos hg] at h2
      split at h2
      · simp at h2
      · simp only [Prod.mk.injEq, true_and] at h2
        exact h2.symm
    subst h6
    simp only []
    obtain ⟨e1, e2, e3⟩ := advance_position d (startState I fu fv 6)
      (by show (0 : Int) ≤ 6; norm_num) (by show (6 : Int) ≤ 7; norm_num)
    refine ⟨1, _, followBorder_succ_false d I fu fv 6 0 (startState I fu fv 6) 6 ?_⟩
    rw [e3]
    refine chain_not_good d I _ _ _ ?_
    rw [e1, e2]
    exact hp6
  | true =>
    simp only []
    obtain ⟨hp, h0, h7⟩ := chain_true_probe (by norm_num) (by norm_num) hc
    obtain ⟨i, hi0, hi7, hfd, _, hbad⟩ :=
      pick_first (fun k => d.probe I fu fv k) 6 fd (chain_pick (by norm_num) (by norm_num) hc)
    have hN0 : d.probe I fu fv 0 = false := by
      simpa [probe, updateFreemanPosition] using hr
    have hi : i ≠ 0 := by
      intro hi
      have e : fd = 0 := by omega
      rw [e, hN0] at hp
      cases hp
    have hinv : HeadInv d I (fu, fv, fd) := by
      refine ⟨h0, h7, hg, hp, ?_, ?_⟩
      · have e : (fd + 1) % 8 = (6 + 2 - (i - 1)) % 8 := by omega
        simp only []
        rw [e]
        exact hbad (i - 1) (by omega) (by omega)
      · intro hev
        simp only [] at hev ⊢
        have e : (fd + 2) % 8 = (6 + 2 - (i - 2)) % 8 := by omega
        rw [e]
        exact hbad (i - 2) (by omega) (by omega)
    obtain ⟨n, hn⟩ := returns_of_injective (headStep d I) {h | HeadInv d I h}
      (headInv_finite d I) (fun x hx => (headInv_step d I x hx).2)
      (fun x hx y hy e => headStep_inj d I x y hx hy e) (fu, fv, fd) hinv
    exact ⟨n + 1, followBorder_returns d I fu fv fd n (startState I fu fv fd) hinv hn⟩

/-- C30: the boundary trace always terminates: for every image, every dot, whatever its
    search area, and every seed, the border-following loop of `computeParameters` reaches
    its closing condition or a failure exit after finitely many iterations, so
    `computeParameters` returns: from some bound on the number of iterations on, it gives
    one and the same result. -/
theorem computeParameters_returns (d : vpDot2) (I : Image) (_u _v : ℚ) :
    ∃ (fuel : Nat) (r : Bool × vpDot2),
      ∀ k : Nat, computeParameters (fuel + k) d I _u _v = some r := by
  suffices h : ∃ (fuel : Nat) (r : Bool × vpDot2),
      computeParameters fuel d I _u _v = some r by
    obtain ⟨fuel, r, hr⟩ := h
    exact ⟨fuel, r, fun k => computeParameters_mono fuel k d I _u _v r hr⟩
  by_cases hg : d.hasGoodLevel I (toInt (estimate d.cog_ufloat _u))
      (toInt (estimate d.cog_vfloat _v)) = true
  · rcases hb : d.clearBorder.findFirstBorder I (estimate d.cog_ufloat _u)
      (toInt (estimate d.cog_vfloat _v))
      (d.area.u_max - toInt (estimate d.cog_ufloat _u)).toNat
      (toInt (estimate d.cog_ufloat _u)) with _ | fb
    · refine ⟨0, (false, d.clearBorder), ?_⟩
      have ha := hasGoodLevel_isInArea hg
      unfold computeParameters
      have e1 : d.clearBorder.cog_ufloat = d.cog_ufloat := rfl
      have e2 : d.clearBorder.cog_vfloat = d.cog_vfloat := rfl
      have e3 : d.clearBorder.area = d.area := rfl
      simp only [e1, e2, e3, clearBorder_isInArea, clearBorder_hasGoodLevel, ha, hg, hb,
        Bool.not_true, Bool.false_eq_true, if_false]
    · have hfb : d.clearBorder.hasGoodLevel I fb (toInt (estimate d.cog_vfloat _v)) = true :=
        findFirstBorder_good d.clearBorder I _ _ _ _ fb hg hb
      have hexit : d.clearBorder.hasGoodLevel I (fb + 1) (toInt (estimate d.cog_vfloat _v))
          = false := by
        refine findFirstBorder_exit d.clearBorder I _ _ _ _ fb ?_ hb
        have e3 : d.clearBorder.area = d.area := rfl
        rw [e3]
        have := Int.self_le_toNat (d.area.u_max - toInt (estimate d.cog_ufloat _u))
        exact this
      obtain ⟨fuel, r, hr⟩ := followBorder_start_returns d.clearBorder I fb _ hfb hexit
      refine ⟨fuel, ?_⟩
      rw [computeParameters_of_border fuel d I _u _v fb hg hb, hr]
      obtain ⟨b, s1⟩ := r
      cases b
      · exact ⟨_, rfl⟩
      · exact ⟨_, rfl⟩
  · refine ⟨0, (false, d.clearBorder), ?_⟩
    have hg2 : d.hasGoodLevel I (toInt (estimate d.cog_ufloat _u))
        (toInt (estimate d.cog_vfloat _v)) = false := by
      cases hh : d.hasGoodLevel I (toInt (estimate d.cog_ufloat _u))
        (toInt (estimate d.cog_vfloat _v))
      · rfl
      · exact absurd hh hg
    unfold computeParameters
    have e1 : d.clearBorder.cog_ufloat = d.cog_ufloat := rfl
    have e2 : d.clearBorder.cog_vfloat = d.cog_vfloat := rfl
    simp only [e1, e2, clearBorder_isInArea, clearBorder_hasGoodLevel, hg2]
    split_ifs <;> first | rfl | simp_all

end vpDot2

namespace vpDot2

/-! ### The rounded layer: structure of `Rounded.computeParameters` -/

/-- The unit step of the rounded increments is the one of the exact increments. -/
theorem rounded_freemanParameters_step (d : vpDot2) (u v c : Int) :
    (Rounded.computeFreemanParameters d u v c).du = (d.computeFreemanParameters u v c).du ∧
    (Rounded.computeFreemanParameters d u v c).dv = (d.computeFreemanParameters u v c).dv := by
  unfold Rounded.computeFreemanParameters computeFreemanParameters
  simp only []
  by_cases h0 : c = 0
  · rw [if_pos h0, if_pos h0]; exact ⟨rfl, rfl⟩
  rw [if_neg h0, if_neg h0]
  by_cases h1 : c = 1
  · rw [if_pos h1, if_pos h1]; exact ⟨rfl, rfl⟩
  rw [if_neg h1, if_neg h1]
  by_cases h2 : c = 2
  · rw [if_pos h2, if_pos h2]; exact ⟨rfl, rfl⟩
  rw [if_neg h2, if_neg h2]
  by_cases h3 : c = 3
  · rw [if_pos h3, if_pos h3]; exact ⟨rfl, rfl⟩
  rw [if_neg h3, if_neg h3]
  by_cases h4 : c = 4
  · rw [if_pos h4, if_pos h4]; exact ⟨rfl, rfl⟩
  rw [if_neg h4, if_neg h4]
  by_cases h5 : c = 5
  · rw [if_pos h5, if_pos h5]; exact ⟨rfl, rfl⟩
  rw [if_neg h5, if_neg h5]
  by_cases h6 : c = 6
  · rw [if_pos h6, if_pos h6]; exact ⟨rfl, rfl⟩
  rw [if_neg h6, if_neg h6]
  by_cases h7 : c = 7
  · rw [if_pos h7, if_pos h7]; exact ⟨rfl, rfl⟩
  rw [if_neg h7, if_neg h7]
  exact ⟨rfl, rfl⟩

/-- The rounded step moves the border position, the extremes and the lists as the exact step
    does. -/
theorem rounded_advance_control (d : vpDot2) (s t : BorderState)
    (h1 : t.border_u = s.border_u) (h2 : t.border_v = s.border_v) (h3 : t.dir = s.dir)
    (h4 : t.u_min = s.u_min) (h5 : t.u_max = s.u_max) (h6 : t.v_min = s.v_min)
    (h7 : t.v_max = s.v_max) (h8 : t.direction_list = s.direction_list)
    (h9 : t.u_list = s.u_list) (h10 : t.v_list = s.v_list) :
    (Rounded.advance d t).border_u = (d.advance s).border_u ∧
    (Rounded.advance d t).border_v = (d.advance s).border_v ∧
    (Rounded.advance d t).dir = (d.advance s).dir ∧
    (Rounded.advance d t).u_min = (d.advance s).u_min ∧
    (Rounded.advance d t).u_max = (d.advance s).u_max ∧
    (Rounded.advance d t).v_min = (d.advance s).v_min ∧
    (Rounded.advance d t).v_max = (d.advance s).v_max ∧
    (Rounded.advance d t).direction_list = (d.advance s).direction_list ∧
    (Rounded.advance d t).u_list = (d.advance s).u_list ∧
    (Rounded.advance d t).v_list = (d.advance s).v_list := by
  obtain ⟨e1, e2⟩ := rounded_freemanParameters_step d s.border_u s.border_v s.dir
  refine ⟨?_, ?_, ?_, ?_, ?_, ?_, ?_, ?_, ?_, ?_⟩ <;>
    simp only [Rounded.advance, advance, h1, h2, h3, h4, h5, h6, h7, h8, h9, h10, e1, e2]

theorem rounded_followBorder_succ_false (d : vpDot2) (I : Image) (fu fv fd : Int) (n : Nat)
    (s : BorderState) (e : Int)
    (h : d.computeFreemanChainElement I (Rounded.advance d s).border_u
      (Rounded.advance d s).border_v (Rounded.advance d s).dir = (false, e)) :
    Rounded.followBorder d I fu fv fd (n + 1) s = some (false, Rounded.advance d s) := by
  rw [Rounded.followBorder]
  simp [h]

theorem rounded_followBorder_succ_true (d : vpDot2) (I : Image) (fu fv fd : Int) (n : Nat)
    (s : BorderState) (e : Int)
    (h : d.computeFreemanChainElement I (Rounded.advance d s).border_u
      (Rounded.advance d s).border_v (Rounded.advance d s).dir = (true, e)) :
    Rounded.followBorder d I fu fv fd (n + 1) s =
      if fu = (Rounded.advance d s).border_u ∧ fv = (Rounded.advance d s).border_v ∧ fd = e
      then some (true, { Rounded.advance d s with dir := e })
      else Rounded.followBorder d I fu fv fd n { Rounded.advance d s with dir := e } := by
  have hg : d.hasGoodLevel I (Rounded.advance d s).border_u (Rounded.advance d s).border_v
      = true := chain_true_good (by rw [h])
  have ha := hasGoodLevel_isInArea hg
  rw [Rounded.followBorder]
  simp only [h, ha, and_true]
  by_cases hc : fu = (Rounded.advance d s).border_u ∧ fv = (Rounded.advance d s).border_v
      ∧ fd = e
  · obtain ⟨h1, h2, h3⟩ := hc
    simp [h1, h2, h3]
  · rw [if_neg hc]
    have hc2 : fu ≠ (Rounded.advance d s).border_u ∨ fv ≠ (Rounded.advance d s).border_v
        ∨ fd ≠ e := by
      by_contra hn
      simp only [not_or, not_not] at hn
      exact hc hn
    simp [hc2]

/-- More iterations allowed do not change the outcome of the rounded border loop. -/
theorem rounded_followBorder_mono (d : vpDot2) (I : Image) (fu fv fd : Int) (k : Nat) :
    ∀ (fuel : Nat) (s : BorderState) (r : Bool × BorderState),
      Rounded.followBorder d I fu fv fd fuel s = some r →
      Rounded.followBorder d I fu fv fd (fuel + k) s = some r := by
  intro fuel
  induction fuel with
  | zero => intro s r h; simp [Rounded.followBorder] at h
  | succ n ih =>
    intro s r h
    have e : n + 1 + k = (n + k) + 1 := by omega
    rw [e]
    rw [Rounded.followBorder] at h ⊢
    simp only [] at h ⊢
    split_ifs at h ⊢ with h1 h2
    · exact h
    · exact ih _ r h
    · exact h

/-- More iterations allowed do not change the outcome of `Rounded.computeParameters`. -/
theorem rounded_computeParameters_mono (fuel k : Nat) (d : vpDot2) (I : Image) (_u _v : ℚ)
    (r : Bool × vpDot2) (h : Rounded.computeParameters fuel d I _u _v = some r) :
    Rounded.computeParameters (fuel + k) d I _u _v = some r := by
  unfold Rounded.computeParameters at h ⊢
  simp only [] at h ⊢
  split_ifs at h ⊢ with h1 h2
  · exact h
  · exact h
  · split at h
    · exact h
    · split_ifs at h ⊢ with h3
      · exact h
      · split at h
        · simp at h
        · rename_i s1 hf
          rw [rounded_followBorder_mono _ _ _ _ _ k _ _ _ hf]
          exact h
        · rename_i s1 hf
          rw [rounded_followBorder_mono _ _ _ _ _ k _ _ _ hf]
          exact h

/-- The rounded rightward scan only moves over pixels of good level. -/
theorem rounded_findFirstBorder_good (d : vpDot2) (I : Image) (est_u : ℚ) (v : Int) :
    ∀ (n : Nat) (x fb : Int), d.hasGoodLevel I x v = true →
      Rounded.findFirstBorder d I est_u v n x = some fb → d.hasGoodLevel I fb v = true := by
  intro n
  induction n with
  | zero =>
    intro x fb hx h
    simp only [Rounded.findFirstBorder, Option.some.injEq] at h
    rw [← h]; exact hx
  | succ n ih =>
    intro x fb hx h
    rw [Rounded.findFirstBorder] at h
    split_ifs at h with h1 h2
    · exact ih (x + 1) fb h1.1 h
    · simp only [Option.some.injEq] at h
      rw [← h]; exact hx

/-- While the width of the dot is 0 the width test of the rightward scan never stops it:
    the rounded scan is the exact one. -/
theorem rounded_findFirstBorder_width0 (d : vpDot2) (I : Image) (est_u : ℚ) (v : Int)
    (hw : d.width = 0) :
    ∀ (n : Nat) (x : Int),
      Rounded.findFirstBorder d I est_u v n x = d.findFirstBorder I est_u v n x := by
  intro n
  induction n with
  | zero => intro x; rfl
  | succ n ih =>
    intro x
    rw [Rounded.findFirstBorder, findFirstBorder, ih]
    simp [hw]

/-- The body of `Rounded.computeParameters` once the seed has a good level and the
    rightward scan has found the first border pixel. -/
theorem rounded_computeParameters_of_border (fuel : Nat) (d : vpDot2) (I : Image)
    (_u _v : ℚ) (fb : Int)
    (hg : d.hasGoodLevel I (toInt (estimate d.cog_ufloat _u))
      (toInt (estimate d.cog_vfloat _v)) = true)
    (hb : Rounded.findFirstBorder d.clearBorder I (estimate d.cog_ufloat _u)
      (toInt (estimate d.cog_vfloat _v))
      (d.area.u_max - toInt (estimate d.cog_ufloat _u)).toNat
      (toInt (estimate d.cog_ufloat _u)) = some fb) :
    Rounded.computeParameters fuel d I _u _v =
      match Rounded.followBorder d.clearBorder I fb (toInt (estimate d.cog_vfloat _v))
          (d.clearBorder.computeFreemanChainElement I fb
            (toInt (estimate d.cog_vfloat _v)) 6).2 fuel
          (startState I fb (toInt (estimate d.cog_vfloat _v))
            (d.clearBorder.computeFreemanChainElement I fb
              (toInt (estimate d.cog_vfloat _v)) 6).2) with
      | none => none
      | some (false, s1) => some (false, d.clearBorder.store s1)
      | some (true, s1) =>
        some (Rounded.finish (d.clearBorder.store s1) I s1.u_min s1.u_max s1.v_min
          s1.v_max) := by
  have ha := hasGoodLevel_isInArea hg
  have hfb : d.clearBorder.hasGoodLevel I fb (toInt (estimate d.cog_vfloat _v)) = true :=
    rounded_findFirstBorder_good d.clearBorder I _ _ _ _ fb hg hb
  have hfa := hasGoodLevel_isInArea hfb
  unfold Rounded.computeParameters
  have e1 : d.clearBorder.cog_ufloat = d.cog_ufloat := rfl
  have e2 : d.clearBorder.cog_vfloat = d.cog_vfloat := rfl
  have e3 : d.clearBorder.area = d.area := rfl
  simp only [e1, e2, e3, clearBorder_isInArea, clearBorder_hasGoodLevel, ha, hg, hb,
    Bool.not_true, Bool.false_eq_true, if_false]
  simp only [clearBorder_isInArea] at hfa
  simp only [hfa, Bool.not_true, Bool.false_eq_true, if_false]

/-- What a successful `Rounded.computeParameters` went through. -/
theorem rounded_computeParameters_true_inv {fuel : Nat} {d : vpDot2} {I : Image}
    {_u _v : ℚ} {d' : vpDot2}
    (h : Rounded.computeParameters fuel d I _u _v = some (true, d')) :
    d.hasGoodLevel I (toInt (estimate d.cog_ufloat _u))
      (toInt (estimate d.cog_vfloat _v)) = true ∧
    ∃ fb s1,
      Rounded.findFirstBorder d.clearBorder I (estimate d.cog_ufloat _u)
        (toInt (estimate d.cog_vfloat _v))
        (d.area.u_max - toInt (estimate d.cog_ufloat _u)).toNat
        (toInt (estimate d.cog_ufloat _u)) = some fb ∧
      Rounded.followBorder d.clearBorder I fb (toInt (estimate d.cog_vfloat _v))
          (d.clearBorder.computeFreemanChainElement I fb
            (toInt (estimate d.cog_vfloat _v)) 6).2 fuel
          (startState I fb (toInt (estimate d.cog_vfloat _v))
            (d.clearBorder.computeFreemanChainElement I fb
              (toInt (estimate d.cog_vfloat _v)) 6).2) = some (true, s1) ∧
      Rounded.finish (d.clearBorder.store s1) I s1.u_min s1.u_max s1.v_min s1.v_max
        = (true, d') := by
  by_cases hg : d.hasGoodLevel I (toInt (estimate d.cog_ufloat _u))
      (toInt (estimate d.cog_vfloat _v)) = true
  · refine ⟨hg, ?_⟩
    rcases hb : Rounded.findFirstBorder d.clearBorder I (estimate d.cog_ufloat _u)
      (toInt (estimate d.cog_vfloat _v))
      (d.area.u_max - toInt (estimate d.cog_ufloat _u)).toNat
      (toInt (estimate d.cog_ufloat _u)) with _ | fb
    · exfalso
      have ha := hasGoodLevel_isInArea hg
      unfold Rounded.computeParameters at h
      have e1 : d.clearBorder.cog_ufloat = d.cog_ufloat := rfl
      have e2 : d.clearBorder.cog_vfloat = d.cog_vfloat := rfl
      have e3 : d.clearBorder.area = d.area := rfl
      simp [e1, e2, e3, ha, hg, hb] at h
    · rw [rounded_computeParameters_of_border fuel d I _u _v fb hg hb] at h
      refine ⟨fb, ?_⟩
      split at h
      · simp at h
      · simp at h
      · rename_i s1 hs
        exact ⟨s1, rfl, hs, by simpa using h⟩
  · exfalso
    unfold Rounded.computeParameters at h
    have e1 : d.clearBorder.cog_ufloat = d.cog_ufloat := rfl
    have e2 : d.clearBorder.cog_vfloat = d.cog_vfloat := rfl
    simp only [e1, e2, clearBorder_isInArea, clearBorder_hasGoodLevel] at h
    simp only [Bool.not_eq_true] at hg
    simp [hg] at h

/-- What a successful final check of `Rounded.computeParameters` establishes and writes. -/
theorem rounded_finish_true_inv {d : vpDot2} {I : Image} {u_min u_max v_min v_max : Int}
    {d' : vpDot2} (h : Rounded.finish d I u_min u_max v_min v_max = (true, d')) :
    d.m00 ≠ 0 ∧ d.m00 ≠ 1 ∧
    d.hasGoodLevel I (toInt (divD d.m10 d.m00)) (toInt (divD d.m01 d.m00)) = true ∧
    d' = { d with cog_ufloat := divD d.m10 d.m00, cog_vfloat := divD d.m01 d.m00,
                  width := ((u_max - u_min : Int) : ℚ),
                  height := ((v_max - v_min : Int) : ℚ),
                  surface := d.m00 } := by
  simp only [Rounded.finish] at h
  split_ifs at h with h1 h2
  · simp at h
  · simp at h
  · simp only [not_or] at h1
    simp only [Bool.not_eq_true', Bool.not_eq_false] at h2
    simp only [Prod.mk.injEq, true_and] at h
    exact ⟨h1.1, h1.2, h2, h.symm⟩

/-- The rounded final step succeeds when its checks pass. -/
theorem rounded_finish_of_checks (d : vpDot2) (I : Image) (u_min u_max v_min v_max : Int)
    (h0 : d.m00 ≠ 0) (h1 : d.m00 ≠ 1)
    (hg : d.hasGoodLevel I (toInt (divD d.m10 d.m00)) (toInt (divD d.m01 d.m00)) = true) :
    Rounded.finish d I u_min u_max v_min v_max =
      (true, { d with cog_ufloat := divD d.m10 d.m00, cog_vfloat := divD d.m01 d.m00,
                      width := ((u_max - u_min : Int) : ℚ),
                      height := ((v_max - v_min : Int) : ℚ),
                      surface := d.m00 }) := by
  simp only [Rounded.finish]
  rw [if_neg (by simp [h0, h1]), if_neg (by simp [hg])]

/-! ### The rounded layer: calling `computeParameters` twice -/

theorem rounded_freemanParameters_congr {d1 d2 : vpDot2}
    (hm : d1.compute_moment = d2.compute_moment) (u v c : Int) :
    Rounded.computeFreemanParameters d1 u v c = Rounded.computeFreemanParameters d2 u v c := by
  unfold Rounded.computeFreemanParameters; rw [hm]

theorem rounded_advance_congr {d1 d2 : vpDot2} (hm : d1.compute_moment = d2.compute_moment)
    (s : BorderState) : Rounded.advance d1 s = Rounded.advance d2 s := by
  unfold Rounded.advance; rw [rounded_freemanParameters_congr hm, hm]

/-- The rounded border loop reads the dot only through its area, its in level and its
    moment flag. -/
theorem rounded_followBorder_congr {d1 d2 : vpDot2} (ha : d1.area = d2.area)
    (hl : d1.inLevel = d2.inLevel) (hm : d1.compute_moment = d2.compute_moment)
    (I : Image) (fu fv fd : Int) :
    ∀ (fuel : Nat) (s : BorderState),
      Rounded.followBorder d1 I fu fv fd fuel s = Rounded.followBorder d2 I fu fv fd fuel s := by
  intro fuel
  induction fuel with
  | zero => intro s; rfl
  | succ n ih =>
    intro s
    rw [Rounded.followBorder, Rounded.followBorder]
    simp only [rounded_advance_congr hm, chain_congr ha hl, isInArea_congr ha, ih]

/-- Two dots with the same area and in level make the same rounded rightward scan, unless
    the width bound stops one of them. -/
theorem rounded_findFirstBorder_congr {d1 d2 : vpDot2} (ha : d1.area = d2.area)
    (hl : d1.inLevel = d2.inLevel) (I : Image) (est_u : ℚ) (v : Int) :
    ∀ (n : Nat) (x fb : Int), Rounded.findFirstBorder d1 I est_u v n x = some fb →
      (Rounded.findFirstBorder d2 I est_u v n x).isSome = true →
      Rounded.findFirstBorder d2 I est_u v n x = some fb := by
  intro n
  induction n with
  | zero => intro x fb h _; simpa [Rounded.findFirstBorder] using h
  | succ n ih =>
    intro x fb h h2
    rw [Rounded.findFirstBorder] at h h2 ⊢
    rw [hasGoodLevel_congr ha hl, ha] at h
    split_ifs at h h2 ⊢ with c1 c2 c3
    · simp at h2
    · exact ih (x + 1) fb h h2
    · exact h

/-- C6 (amended): in the rounded layer, for every image, search area, dot state and seed
    (u, v) with u and v other than the default value -1, if `computeParameters(I, u, v)`
    returns true and the rightward scan of a second call on the resulting dot is not
    stopped by the width bound (now computed from the new width), then the second call
    also returns true and leaves the dot as it is: identical centre, width, height,
    surface, moments and border lists. -/
theorem computeParameters_idempotent (fuel : Nat) (d : vpDot2) (I : Image) (_u _v : ℚ)
    (d1 : vpDot2) (hu : _u ≠ -1) (hv : _v ≠ -1)
    (h : Rounded.computeParameters fuel d I _u _v = some (true, d1))
    (hscan : (Rounded.findFirstBorder d1 I _u (toInt _v) (d1.area.u_max - toInt _u).toNat
      (toInt _u)).isSome = true) :
    Rounded.computeParameters fuel d1 I _u _v = some (true, d1) := by
  obtain ⟨hg, fb, s1, hb, hf, hfin⟩ := rounded_computeParameters_true_inv h
  rw [estimate_ne _ _ hu, estimate_ne _ _ hv] at hg hb
  rw [estimate_ne _ _ hv] at hf
  obtain ⟨h0, h1, hc, he⟩ := rounded_finish_true_inv hfin
  have ea : d1.area = d.area := by rw [he]; rfl
  have el : d1.inLevel = d.inLevel := by rw [he]; rfl
  have em : d1.compute_moment = d.compute_moment := by rw [he]; rfl
  have ea' : d.clearBorder.area = d1.clearBorder.area := ea.symm
  have el' : d.clearBorder.inLevel = d1.clearBorder.inLevel := el.symm
  have em' : d.clearBorder.compute_moment = d1.clearBorder.compute_moment := em.symm
  have hg1 : d1.hasGoodLevel I (toInt (estimate d1.cog_ufloat _u))
      (toInt (estimate d1.cog_vfloat _v)) = true := by
    rw [estimate_ne _ _ hu, estimate_ne _ _ hv, hasGoodLevel_congr ea el]; exact hg
  have hscan' : (Rounded.findFirstBorder d1.clearBorder I _u (toInt _v)
      (d.area.u_max - toInt _u).toNat (toInt _u)).isSome = true := by
    rw [← ea]
    rw [← hscan]
    congr 1
    clear hscan
    generalize (d1.area.u_max - toInt _u).toNat = n
    generalize toInt _u = x
    induction n generalizing x with
    | zero => rfl
    | succ n ih =>
      rw [Rounded.findFirstBorder, Rounded.findFirstBorder]
      simp only [clearBorder_hasGoodLevel, ih]
      rfl
  have hb1 : Rounded.findFirstBorder d1.clearBorder I (estimate d1.cog_ufloat _u)
      (toInt (estimate d1.cog_vfloat _v))
      (d1.area.u_max - toInt (estimate d1.cog_ufloat _u)).toNat
      (toInt (estimate d1.cog_ufloat _u)) = some fb := by
    rw [estimate_ne _ _ hu, estimate_ne _ _ hv, ea]
    exact rounded_findFirstBorder_congr ea' el' I _u (toInt _v) _ _ fb hb hscan'
  rw [rounded_computeParameters_of_border fuel d1 I _u _v fb hg1 hb1]
  rw [estimate_ne _ _ hv, ← chain_congr ea' el', ← rounded_followBorder_congr ea' el' em', hf]
  simp only []
  have e00 : (d1.clearBorder.store s1).m00 = (d.clearBorder.store s1).m00 := rfl
  have e10 : (d1.clearBorder.store s1).m10 = (d.clearBorder.store s1).m10 := rfl
  have e01 : (d1.clearBorder.store s1).m01 = (d.clearBorder.store s1).m01 := rfl
  rw [rounded_finish_of_checks _ I _ _ _ _ (by rw [e00]; exact h0) (by rw [e00]; exact h1)
    (by rw [e00, e10, e01,
          @hasGoodLevel_congr (d1.clearBorder.store s1) (d.clearBorder.store s1) ea el]
        exact hc)]
  rw [he]
  rfl

/-! ### The rounded layer: the walk round a rectangle of small coordinates -/

theorem mulD_half (z : Int) (h : |z| < 2 ^ 53) : mulD (1 / 2) (z : ℚ) = (z : ℚ) / 2 := by
  unfold mulD
  have e : (1 / 2 : ℚ) * (z : ℚ) = (z : ℚ) / 2 := by ring
  rw [e]
  exact toDouble_half z h

theorem mulD_neg_half (z : Int) (h : |z| < 2 ^ 53) :
    mulD (-(1 / 2)) (z : ℚ) = ((-z : Int) : ℚ) / 2 := by
  unfold mulD
  have e : (-(1 / 2) : ℚ) * (z : ℚ) = ((-z : Int) : ℚ) / 2 := by push_cast; ring
  rw [e]
  exact toDouble_half (-z) (by rw [abs_neg]; exact h)

theorem mulD_half_int (y z : Int) (h : |y * z| < 2 ^ 53) :
    mulD ((y : ℚ) / 2) (z : ℚ) = ((y * z : Int) : ℚ) / 2 := by
  unfold mulD
  have e : (y : ℚ) / 2 * (z : ℚ) = ((y * z : Int) : ℚ) / 2 := by push_cast; ring
  rw [e]
  exact toDouble_half (y * z) h

theorem addD_half (y z : Int) (h : |y + z| < 2 ^ 53) :
    addD ((y : ℚ) / 2) ((z : ℚ) / 2) = ((y + z : Int) : ℚ) / 2 := by
  unfold addD
  have e : (y : ℚ) / 2 + (z : ℚ) / 2 = ((y + z : Int) : ℚ) / 2 := by push_cast; ring
  rw [e]
  exact toDouble_half (y + z) h

theorem sq_small (v : Int) (h0 : 0 ≤ v) (h : v ≤ 4095) : |v * v| ≤ 16769025 := by
  rw [abs_of_nonneg (mul_nonneg h0 h0)]
  nlinarith

/-- For the four axis codes and a pixel of coordinates in 0..4095 the rounded increments of
    m00, m10 and m01 are the exact ones: halves of integers of at most 24 bits. -/
theorem rounded_axis (d : vpDot2) (u v c : Int) (hu0 : 0 ≤ u) (hu : u ≤ 4095)
    (hv0 : 0 ≤ v) (hv : v ≤ 4095) (hc0 : 0 ≤ c) (hc7 : c ≤ 7) (hev : c % 2 = 0) :
    ∃ a b e : Int, |a| ≤ 2 ^ 24 ∧ |b| ≤ 2 ^ 24 ∧ |e| ≤ 2 ^ 24 ∧
      (d.computeFreemanParameters u v c).dS = (a : ℚ) / 2 ∧
      (Rounded.computeFreemanParameters d u v c).dS = (a : ℚ) / 2 ∧
      (d.computeFreemanParameters u v c).dMu = (b : ℚ) / 2 ∧
      (Rounded.computeFreemanParameters d u v c).dMu = (b : ℚ) / 2 ∧
      (d.computeFreemanParameters u v c).dMv = (e : ℚ) / 2 ∧
      (Rounded.computeFreemanParameters d u v c).dMv = (e : ℚ) / 2 := by
  have hvv := sq_small v hv0 hv
  have huu := sq_small u hu0 hu
  have hva : |v| ≤ 4095 := abs_le.2 ⟨by omega, hv⟩
  have hua : |u| ≤ 4095 := abs_le.2 ⟨by omega, hu⟩
  have z0 : (0 : ℚ) = ((0 : Int) : ℚ) / 2 := by norm_num
  have hc : c = 0 ∨ c = 2 ∨ c = 4 ∨ c = 6 := by omega
  rcases hc with rfl | rfl | rfl | rfl
  · refine ⟨2 * v, 0, v * v, ?_, ?_, ?_, ?_, ?_, ?_, ?_, ?_, ?_⟩
    · rw [abs_mul]; norm_num; omega
    · norm_num
    · omega
    · simp [computeFreemanParameters]
    · have e : ((v : Int) : ℚ) = ((2 * v : Int) : ℚ) / 2 := by push_cast; ring
      show toFloat (v : ℚ) = _
      rw [e]
      exact toFloat_half (2 * v) (by rw [abs_mul]; norm_num; omega)
    · simp [computeFreemanParameters]
    · show (0 : ℚ) = _
      norm_num
    · simp [computeFreemanParameters]; ring
    · show toFloat (mulD (mulD (1 / 2) (v : ℚ)) (v : ℚ)) = _
      rw [mulD_half v (by omega), mulD_half_int v v (by omega)]
      exact toFloat_half (v * v) (by omega)
  · refine ⟨0, -(u * u), 0, ?_, ?_, ?_, ?_, ?_, ?_, ?_, ?_, ?_⟩
    · norm_num
    · rw [abs_neg]; omega
    · norm_num
    · simp [computeFreemanParameters]
    · show (0 : ℚ) = _
      norm_num
    · simp [computeFreemanParameters]; ring
    · show toFloat (mulD (mulD (-(1 / 2)) (u : ℚ)) (u : ℚ)) = _
      rw [mulD_neg_half u (by omega), mulD_half_int (-u) u (by rw [neg_mul, abs_neg]; omega)]
      have e : -u * u = -(u * u) := by ring
      rw [e]
      exact toFloat_half (-(u * u)) (by rw [abs_neg]; omega)
    · simp [computeFreemanParameters]
    · show (0 : ℚ) = _
      norm_num
  · refine ⟨-(2 * v), 0, -(v * v), ?_, ?_, ?_, ?_, ?_, ?_, ?_, ?_, ?_⟩
    · rw [abs_neg, abs_mul]; norm_num; omega
    · norm_num
    · rw [abs_neg]; omega
    · simp [computeFreemanParameters]; ring
    · have e : ((-v : Int) : ℚ) = ((-(2 * v) : Int) : ℚ) / 2 := by push_cast; ring
      show toFloat ((-v : Int) : ℚ) = _
      rw [e]
      exact toFloat_half (-(2 * v)) (by rw [abs_neg, abs_mul]; norm_num; omega)
    · simp [computeFreemanParameters]
    · show (0 : ℚ) = _
      norm_num
    · simp [computeFreemanParameters]; ring
    · show toFloat (mulD (mulD (-(1 / 2)) (v : ℚ)) (v : ℚ)) = _
      rw [mulD_neg_half v (by omega), mulD_half_int (-v) v (by rw [neg_mul, abs_neg]; omega)]
      have e : -v * v = -(v * v) := by ring
      rw [e]
      exact toFloat_half (-(v * v)) (by rw [abs_neg]; omega)
  · refine ⟨0, u * u, 0, ?_, ?_, ?_, ?_, ?_, ?_, ?_, ?_, ?_⟩
    · norm_num
    · omega
    · norm_num
    · simp [computeFreemanParameters]
    · show (0 : ℚ) = _
      norm_num
    · simp [computeFreemanParameters]; ring
    · show toFloat (mulD (mulD (1 / 2) (u : ℚ)) (u : ℚ)) = _
      rw [mulD_half u (by omega), mulD_half_int u u (by omega)]
      exact toFloat_half (u * u) (by omega)
    · simp [computeFreemanParameters]
    · show (0 : ℚ) = _
      norm_num

/-- In a rectangle of good pixels a position and code of the invariant `HeadInv` has an
    even code, and its position is in the rectangle. -/
theorem rect_heading_even (d : vpDot2) (I : Image) (x0 x1 y0 y1 : Int)
    (hS : ∀ x y : Int, d.hasGoodLevel I x y = true ↔ (x0 ≤ x ∧ x ≤ x1 ∧ y0 ≤ y ∧ y ≤ y1))
    (u v c : Int) (h : HeadInv d I (u, v, c)) :
    c % 2 = 0 ∧ x0 ≤ u ∧ u ≤ x1 ∧ y0 ≤ v ∧ v ≤ y1 := by
  obtain ⟨h0, h7, hg, hp, hb1, _⟩ := h
  simp only [] at h0 h7 hg hp hb1
  have hin := (hS u v).1 hg
  refine ⟨?_, hin⟩
  by_contra hodd
  have hbad : ∀ x y : Int, d.hasGoodLevel I x y = false → ¬ (x0 ≤ x ∧ x ≤ x1 ∧ y0 ≤ y ∧ y ≤ y1) := by
    intro x y hf hh
    rw [(hS x y).2 hh] at hf
    cases hf
  have hc : c = 1 ∨ c = 3 ∨ c = 5 ∨ c = 7 := by omega
  rcases hc with rfl | rfl | rfl | rfl
  · have a := (hS _ _).1 hp
    have b := hbad _ _ hb1
    simp [updateFreemanPosition] at a b
    omega
  · have a := (hS _ _).1 hp
    have b := hbad _ _ hb1
    simp [updateFreemanPosition] at a b
    omega
  · have a := (hS _ _).1 hp
    have b := hbad _ _ hb1
    simp [updateFreemanPosition] at a b
    omega
  · have a := (hS _ _).1 hp
    have b := hbad _ _ hb1
    simp [updateFreemanPosition] at a b
    omega

/-- One step of the two walks round a rectangle of good pixels of coordinates in 0..4095:
    the rounded step adds to m00, m10 and m01 what the exact step adds. -/
theorem simInv_advance (d : vpDot2) (I : Image) (x0 x1 y0 y1 : Int)
    (hx0 : 0 ≤ x0) (hx1 : x1 ≤ 4095) (hy0 : 0 ≤ y0) (hy1 : y1 ≤ 4095)
    (hS : ∀ x y : Int, d.hasGoodLevel I x y = true ↔ (x0 ≤ x ∧ x ≤ x1 ∧ y0 ≤ y ∧ y ≤ y1))
    (N : Nat) (hN : N + 1 ≤ 2 ^ 28) (s t : BorderState) (h : SimInv d I N s t) :
    SameFirst (d.advance s) (Rounded.advance d t) ∧
    ∃ a b c : Int, (d.advance s).m00 = (a : ℚ) / 2 ∧ (d.advance s).m10 = (b : ℚ) / 2 ∧
      (d.advance s).m01 = (c : ℚ) / 2 ∧
      |a| ≤ ((N + 1 : Nat) : Int) * 2 ^ 24 ∧ |b| ≤ ((N + 1 : Nat) : Int) * 2 ^ 24 ∧
      |c| ≤ ((N + 1 : Nat) : Int) * 2 ^ 24 := by
  obtain ⟨⟨f1, f2, f3, f4, f5, f6, f7, f8, f9, f10, f11, f12, f13⟩, hH, A, B, C,
    hA, hB, hC, bA, bB, bC⟩ := h
  obtain ⟨hev, r1, r2, r3, r4⟩ := rect_heading_even d I x0 x1 y0 y1 hS _ _ _ hH
  obtain ⟨a, b, e, ba, bb, be, ea, eaR, eb, ebR, ee, eeR⟩ :=
    rounded_axis d s.border_u s.border_v s.dir (by omega) (by omega) (by omega) (by omega)
      hH.1 hH.2.1 hev
  obtain ⟨c1, c2, c3, c4, c5, c6, c7, c8, c9, c10⟩ :=
    rounded_advance_control d s t f1 f2 f3 f4 f5 f6 f7 f8 f9 f10
  have bA2 := abs_le.1 bA
  have bB2 := abs_le.1 bB
  have bC2 := abs_le.1 bC
  have ba2 := abs_le.1 ba
  have bb2 := abs_le.1 bb
  have be2 := abs_le.1 be
  have sA : |A + a| ≤ ((N + 1 : Nat) : Int) * 2 ^ 24 := abs_le.2 ⟨by omega, by omega⟩
  have sB : |B + b| ≤ ((N + 1 : Nat) : Int) * 2 ^ 24 := abs_le.2 ⟨by omega, by omega⟩
  have sC : |C + e| ≤ ((N + 1 : Nat) : Int) * 2 ^ 24 := abs_le.2 ⟨by omega, by omega⟩
  have big : ((N + 1 : Nat) : Int) * 2 ^ 24 < 2 ^ 53 := by omega
  have m00 : (d.advance s).m00 = ((A + a : Int) : ℚ) / 2 := by
    show s.m00 + (d.computeFreemanParameters s.border_u s.border_v s.dir).dS = _
    rw [hA, ea]; push_cast; ring
  have m10 : (d.advance s).m10 = ((B + b : Int) : ℚ) / 2 := by
    show s.m10 + (d.computeFreemanParameters s.border_u s.border_v s.dir).dMu = _
    rw [hB, eb]; push_cast; ring
  have m01 : (d.advance s).m01 = ((C + e : Int) : ℚ) / 2 := by
    show s.m01 + (d.computeFreemanParameters s.border_u s.border_v s.dir).dMv = _
    rw [hC, ee]; push_cast; ring
  have m00R : (Rounded.advance d t).m00 = ((A + a : Int) : ℚ) / 2 := by
    show addD t.m00 (Rounded.computeFreemanParameters d t.border_u t.border_v t.dir).dS = _
    rw [f1, f2, f3, f11, hA, eaR]
    exact addD_half A a (lt_of_le_of_lt sA big)
  have m10R : (Rounded.advance d t).m10 = ((B + b : Int) : ℚ) / 2 := by
    show addD t.m10 (Rounded.computeFreemanParameters d t.border_u t.border_v t.dir).dMu = _
    rw [f1, f2, f3, f12, hB, ebR]
    exact addD_half B b (lt_of_le_of_lt sB big)
  have m01R : (Rounded.advance d t).m01 = ((C + e : Int) : ℚ) / 2 := by
    show addD t.m01 (Rounded.computeFreemanParameters d t.border_u t.border_v t.dir).dMv = _
    rw [f1, f2, f3, f13, hC, eeR]
    exact addD_half C e (lt_of_le_of_lt sC big)
  exact ⟨⟨c1, c2, c3, c4, c5, c6, c7, c8, c9, c10, by rw [m00R, m00], by rw [m10R, m10],
    by rw [m01R, m01]⟩, A + a, B + b, C + e, m00, m10, m01, sA, sB, sC⟩

/-- The first border pixel with the first code is of the invariant `HeadInv` when the first
    chain element is found. -/
theorem headInv_start (d : vpDot2) (I : Image) (fu fv fd : Int)
    (hg : d.hasGoodLevel I fu fv = true) (hr : d.hasGoodLevel I (fu + 1) fv = false)
    (hc : d.computeFreemanChainElement I fu fv 6 = (true, fd)) :
    HeadInv d I (fu, fv, fd) := by
  obtain ⟨hp, h0, h7⟩ := chain_true_probe (by norm_num) (by norm_num) hc
  obtain ⟨i, hi0, hi7, hfd, _, hbad⟩ :=
    pick_first (fun k => d.probe I fu fv k) 6 fd (chain_pick (by norm_num) (by norm_num) hc)
  have hN0 : d.probe I fu fv 0 = false := by
    simpa [probe, updateFreemanPosition] using hr
  have hi : i ≠ 0 := by
    intro hi
    have e : fd = 0 := by omega
    rw [e, hN0] at hp
    cases hp
  refine ⟨h0, h7, hg, hp, ?_, ?_⟩
  · have e : (fd + 1) % 8 = (6 + 2 - (i - 1)) % 8 := by omega
    simp only []
    rw [e]
    exact hbad (i - 1) (by omega) (by omega)
  · intro hev
    simp only [] at hev ⊢
    have e : (fd + 2) % 8 = (6 + 2 - (i - 2)) % 8 := by omega
    rw [e]
    exact hbad (i - 2) (by omega) (by omega)

/-- Round a rectangle of good pixels of coordinates in 0..4095 the rounded border loop ends
    as the exact one does, with the same state up to the second-order moments. -/
theorem rounded_followBorder_sim (d : vpDot2) (I : Image) (fu fv fd : Int)
    (x0 x1 y0 y1 : Int)
    (hx0 : 0 ≤ x0) (hx1 : x1 ≤ 4095) (hy0 : 0 ≤ y0) (hy1 : y1 ≤ 4095)
    (hS : ∀ x y : Int, d.hasGoodLevel I x y = true ↔ (x0 ≤ x ∧ x ≤ x1 ∧ y0 ≤ y ∧ y ≤ y1)) :
    ∀ (fuel N : Nat) (s t : BorderState), N + fuel ≤ 2 ^ 28 → SimInv d I N s t →
      ∀ (b : Bool) (s' : BorderState), d.followBorder I fu fv fd fuel s = some (b, s') →
        ∃ t', Rounded.followBorder d I fu fv fd fuel t = some (b, t') ∧ SameFirst s' t' := by
  intro fuel
  induction fuel with
  | zero =>
    intro N s t _ _ b s' h
    simp [followBorder] at h
  | succ n ih =>
    intro N s t hN hsim b s' h
    obtain ⟨hSF, ints⟩ := simInv_advance d I x0 x1 y0 y1 hx0 hx1 hy0 hy1 hS N (by omega) s t
      hsim
    obtain ⟨_, hH, _⟩ := hsim
    obtain ⟨hch, hnext⟩ := headInv_step d I _ hH
    obtain ⟨e1, e2, e3⟩ := advance_position d s hH.1 hH.2.1
    simp only [] at hch
    rw [← e1, ← e2, ← e3] at hch
    rcases hc : d.computeFreemanChainElement I (d.advance s).border_u (d.advance s).border_v
      (d.advance s).dir with ⟨b0, c'⟩
    rw [hc] at hch
    simp only [] at hch
    subst hch
    have hs : headStep d I (s.border_u, s.border_v, s.dir)
        = ((d.advance s).border_u, (d.advance s).border_v, c') := by
      simp only [headStep]
      rw [← e1, ← e2, ← e3, hc]
    rw [hs] at hnext
    obtain ⟨g1, g2, g3, g4, g5, g6, g7, g8, g9, g10, g11, g12, g13⟩ := hSF
    have hcR : d.computeFreemanChainElement I (Rounded.advance d t).border_u
        (Rounded.advance d t).border_v (Rounded.advance d t).dir = (true, c') := by
      rw [g1, g2, g3]; exact hc
    rw [followBorder_succ_true d I fu fv fd n s c' hc] at h
    rw [rounded_followBorder_succ_true d I fu fv fd n t c' hcR, g1, g2]
    have hSF2 : SameFirst { d.advance s with dir := c' }
        { Rounded.advance d t with dir := c' } :=
      ⟨g1, g2, rfl, g4, g5, g6, g7, g8, g9, g10, g11, g12, g13⟩
    split_ifs at h ⊢ with hclose
    · simp only [Option.some.injEq, Prod.mk.injEq] at h
      obtain ⟨hb, hs'⟩ := h
      subst hb hs'
      exact ⟨_, rfl, hSF2⟩
    · exact ih (N + 1) _ _ (by omega) ⟨hSF2, hnext, ints⟩ b s' h

/-! ### The rounded layer: the square blob -/

/-- C4 (amended): in the rounded layer, for every n >= 3 and every image whose pixels above
    inLevel, among the pixels of the search area, are exactly an axis-aligned n-by-n square
    of top-left pixel (u0, v0) lying inside the image and the search area, with every
    coordinate of the square at most 4095, `computeParameters` seeded at any pixel (su, sv)
    of the square on a dot whose width is still 0 returns true (given at least 4(n-1) loop
    iterations) with width = height = n-1, surface = m00 = (n-1)^2 and centre
    (u0 + (n-1)/2, v0 + (n-1)/2). -/
theorem square_blob_parameters (n : Nat) (hn : 3 ≤ n) (fuel : Nat)
    (hfuel : 4 * (n - 1) ≤ fuel) (d : vpDot2) (I : Image) (u0 v0 su sv : Int)
    (hw : d.width = 0)
    (himg : 0 ≤ u0 ∧ u0 + n ≤ I.cols ∧ 0 ≤ v0 ∧ v0 + n ≤ I.rows)
    (harea : d.area.u_min ≤ u0 ∧ u0 + n - 1 ≤ d.area.u_max ∧
      d.area.v_min ≤ v0 ∧ v0 + n - 1 ≤ d.area.v_max)
    (hpix : ∀ x y : Int, d.isInArea I x y = true →
      (d.inLevel < (I.pix x y : Int) ↔ (u0 ≤ x ∧ x < u0 + n ∧ v0 ≤ y ∧ y < v0 + n)))
    (hseed : u0 ≤ su ∧ su < u0 + n ∧ v0 ≤ sv ∧ sv < v0 + n)
    (hsmall : u0 + n - 1 ≤ 4095 ∧ v0 + n - 1 ≤ 4095) :
    ∃ d', Rounded.computeParameters fuel d I su sv = some (true, d') ∧
      d'.width = (n : ℚ) - 1 ∧ d'.height = (n : ℚ) - 1 ∧
      d'.surface = ((n : ℚ) - 1) ^ 2 ∧ d'.m00 = ((n : ℚ) - 1) ^ 2 ∧
      d'.cog_ufloat = u0 + ((n : ℚ) - 1) / 2 ∧ d'.cog_vfloat = v0 + ((n : ℚ) - 1) / 2 := by
  obtain ⟨M, rfl⟩ : ∃ M, n = M + 1 := ⟨n - 1, by omega⟩
  have hM : 2 ≤ M := by omega
  simp only [Nat.add_sub_cancel] at hfuel
  push_cast at himg harea hpix hseed hsmall ⊢
  have hS : SquareBlob d.clearBorder I u0 v0 M := by
    refine ⟨by omega, by omega, by omega, by omega, by omega, ?_⟩
    intro x y
    rw [clearBorder_hasGoodLevel, hasGoodLevel_iff]
    constructor
    · rintro ⟨h1, h2⟩
      have := (hpix x y h1).1 h2
      omega
    · intro h
      have h1 : d.isInArea I x y = true := (isInArea_iff d I x y).2 (by omega)
      exact ⟨h1, (hpix x y h1).2 (by omega)⟩
  have hsu : estimate d.cog_ufloat (su : ℚ) = su := by
    apply estimate_ne
    have : (0 : ℚ) ≤ (su : ℚ) := by exact_mod_cast (by omega : 0 ≤ su)
    linarith
  have hsv : estimate d.cog_vfloat (sv : ℚ) = sv := by
    apply estimate_ne
    have : (0 : ℚ) ≤ (sv : ℚ) := by exact_mod_cast (by omega : 0 ≤ sv)
    linarith
  have hg : d.hasGoodLevel I (toInt (estimate d.cog_ufloat (su : ℚ)))
      (toInt (estimate d.cog_vfloat (sv : ℚ))) = true := by
    rw [hsu, hsv, toInt_intCast, toInt_intCast]
    exact sq_good hS su sv (by omega)
  have hb : Rounded.findFirstBorder d.clearBorder I (estimate d.cog_ufloat (su : ℚ))
      (toInt (estimate d.cog_vfloat (sv : ℚ)))
      (d.area.u_max - toInt (estimate d.cog_ufloat (su : ℚ))).toNat
      (toInt (estimate d.cog_ufloat (su : ℚ))) = some (u0 + M) := by
    rw [rounded_findFirstBorder_width0 d.clearBorder I _ _ hw, hsu, hsv, toInt_intCast,
      toInt_intCast]
    exact square_scan hS hw _ sv (by omega) (by show u0 + (M : Int) ≤ d.area.u_max; omega)
      _ su (by omega) (by omega) (by omega)
  obtain ⟨f, rfl⟩ : ∃ f, fuel = 4 * M + f := ⟨fuel - 4 * M, by omega⟩
  apply Exists.imp (fun d' (h : Rounded.computeParameters (4 * M) d I su sv = some (true, d')
      ∧ _) => ⟨rounded_computeParameters_mono (4 * M) f d I su sv (true, d') h.1, h.2⟩)
  rw [rounded_computeParameters_of_border (4 * M) d I su sv _ hg hb, hsv, toInt_intCast]
  obtain ⟨a, rfl⟩ : ∃ a : Nat, sv = v0 + a := ⟨(sv - v0).toNat, by omega⟩
  have haM : a ≤ M := by omega
  have hch := square_chain_up hS (v0 + a) (by omega)
  rw [hch]
  obtain ⟨r, hr, m00, m10, m01, b1, b2, b3, b4⟩ := square_walk (by omega) hS a haM 0
  rw [Nat.zero_add] at hr
  have hH : HeadInv d.clearBorder I (u0 + M, v0 + a, if v0 + (a : Int) = v0 then 4 else 6) :=
    headInv_start d.clearBorder I _ _ _ (sq_good hS _ _ (by omega))
      (sq_bad hS _ _ (by omega)) hch
  have hsim : SimInv d.clearBorder I 0
      (startState I (u0 + M) (v0 + a) (if v0 + (a : Int) = v0 then 4 else 6))
      (startState I (u0 + M) (v0 + a) (if v0 + (a : Int) = v0 then 4 else 6)) :=
    ⟨⟨rfl, rfl, rfl, rfl, rfl, rfl, rfl, rfl, rfl, rfl, rfl, rfl, rfl⟩, hH, 0, 0, 0,
      by simp [startState], by simp [startState], by simp [startState], by simp, by simp,
      by simp⟩
  obtain ⟨t, ht, g1, g2, g3, g4, g5, g6, g7, g8, g9, g10, g11, g12, g13⟩ :=
    rounded_followBorder_sim d.clearBorder I (u0 + M) (v0 + a)
      (if v0 + (a : Int) = v0 then 4 else 6) u0 (u0 + M) v0 (v0 + M)
      (by omega) (by omega) (by omega) (by omega) hS.2.2.2.2.2 (4 * M) 0 _ _ (by omega) hsim
      true r hr
  simp only []
  rw [ht]
  simp only []
  have hMq : (2 : ℚ) ≤ (M : ℚ) := by exact_mod_cast hM
  have hu0q : (0 : ℚ) ≤ (u0 : ℚ) := by exact_mod_cast himg.1
  have hv0q : (0 : ℚ) ≤ (v0 : ℚ) := by exact_mod_cast himg.2.2.1
  have hMM : (M : ℚ) * M ≠ 0 := by positivity
  have e00 : (d.clearBorder.store t).m00 = (M : ℚ) * M := g11.trans m00
  have e10 : (d.clearBorder.store t).m10 = (M : ℚ) * M * (u0 + (M : ℚ) / 2) := g12.trans m10
  have e01 : (d.clearBorder.store t).m01 = (M : ℚ) * M * (v0 + (M : ℚ) / 2) := g13.trans m01
  have cu : divD (d.clearBorder.store t).m10 (d.clearBorder.store t).m00
      = u0 + (M : ℚ) / 2 := by
    unfold divD
    have e : (d.clearBorder.store t).m10 / (d.clearBorder.store t).m00
        = ((2 * u0 + M : Int) : ℚ) / 2 := by
      rw [e10, e00]; push_cast; field_simp; ring
    rw [e, toDouble_half (2 * u0 + M) (by rw [abs_of_nonneg (by omega)]; omega)]
    push_cast; ring
  have cv : divD (d.clearBorder.store t).m01 (d.clearBorder.store t).m00
      = v0 + (M : ℚ) / 2 := by
    unfold divD
    have e : (d.clearBorder.store t).m01 / (d.clearBorder.store t).m00
        = ((2 * v0 + M : Int) : ℚ) / 2 := by
      rw [e01, e00]; push_cast; field_simp; ring
    rw [e, toDouble_half (2 * v0 + M) (by rw [abs_of_nonneg (by omega)]; omega)]
    push_cast; ring
  have tu := toInt_between ((u0 : ℚ) + (M : ℚ) / 2) u0 (u0 + M) (by positivity)
    (by linarith) (by push_cast; linarith)
  have tv := toInt_between ((v0 : ℚ) + (M : ℚ) / 2) v0 (v0 + M) (by positivity)
    (by linarith) (by push_cast; linarith)
  rw [rounded_finish_of_checks _ I _ _ _ _ (by rw [e00]; exact hMM)
    (by rw [e00]; nlinarith)
    (by rw [cu, cv]; exact sq_good hS _ _ ⟨tu.1, tu.2, tv.1, tv.2⟩)]
  refine ⟨_, rfl, ?_, ?_, ?_, ?_, ?_, ?_⟩
  · show ((t.u_max - t.u_min : Int) : ℚ) = _
    rw [g4, g5, b1, b2]; push_cast; ring
  · show ((t.v_max - t.v_min : Int) : ℚ) = _
    rw [g6, g7, b3, b4]; push_cast; ring
  · show (d.clearBorder.store t).m00 = _
    rw [e00]; ring
  · show (d.clearBorder.store t).m00 = _
    rw [e00]; ring
  · show divD (d.clearBorder.store t).m10 (d.clearBorder.store t).m00 = _
    rw [cu]; ring
  · show divD (d.clearBorder.store t).m01 (d.clearBorder.store t).m00 = _
    rw [cv]; ring

/-! ### The rounded layer: closed statements on the sample images -/

/-- C4 as stated fails: the 5010 x 8 image whose pixels above the in level 210 are exactly
    the 4 x 4 square of columns 5002..5005 and rows 2..5, inside the image and the search
    area, and a default-constructed dot (width 0) seeded at the pixel (5003, 3) of the
    square.  The rounded `computeParameters` returns true with width = height = 3 and
    surface = m00 = 9, but m10 = 45030 where the exact sum is 45031.5: the increment
    0.5 * u_p * u_p of the odd columns 5005 and 5003 loses its half in a `float`.  The centre
    is u = 5003.333..., not the centroid 5002 + (4 - 1) / 2 = 5003.5 that the exact layer
    gives. -/
theorem square_blob_counterexample :
    (3 ≤ 4 ∧ Sample.farDot.width = 0 ∧
     (0 : Int) ≤ 5002 ∧ (5002 : Int) + 4 ≤ Sample.farSquare.cols ∧
     (0 : Int) ≤ 2 ∧ (2 : Int) + 4 ≤ Sample.farSquare.rows ∧
     Sample.farDot.area.u_min ≤ 5002 ∧ (5002 : Int) + 4 - 1 ≤ Sample.farDot.area.u_max ∧
     Sample.farDot.area.v_min ≤ 2 ∧ (2 : Int) + 4 - 1 ≤ Sample.farDot.area.v_max) ∧
    (∀ x y : Int, Sample.farDot.isInArea Sample.farSquare x y = true →
      (Sample.farDot.inLevel < (Sample.farSquare.pix x y : Int) ↔
        (5002 ≤ x ∧ x < 5002 + 4 ∧ 2 ≤ y ∧ y < 2 + 4))) ∧
    Rounded.computeParameters 12 Sample.farDot Sample.farSquare 5003 3
      = some (true, Sample.farDot1) ∧
    Sample.farDot1.width = 3 ∧ Sample.farDot1.height = 3 ∧
    Sample.farDot1.surface = 9 ∧ Sample.farDot1.m00 = 9 ∧
    Sample.farDot1.m10 = 45030 ∧
    Sample.farDot1.cog_ufloat = 5501223177639253 / 1099511627776 ∧
    Sample.farDot1.cog_ufloat ≠ 5002 + (4 - 1) / 2 ∧
    (computeParameters 12 Sample.farDot Sample.farSquare 5003 3).map
      (fun r => (r.1, r.2.m10, r.2.cog_ufloat)) = some (true, 90063 / 2, 5002 + (4 - 1) / 2) := by
  refine ⟨by decide!, ?_, by decide!, by decide!, by decide!, by decide!, by decide!,
    by decide!, by decide!, by decide!, by decide!⟩
  intro x y _
  show (210 : Int) < ((if 5002 ≤ x ∧ x ≤ 5005 ∧ 2 ≤ y ∧ y ≤ 5 then 255 else 0 : Nat) : Int) ↔ _
  split_ifs with h
  · constructor
    · intro _; omega
    · intro _; norm_num
  · constructor
    · intro h2; norm_num at h2
    · intro h2; exact absurd (by omega) h

/-- C6 as stated fails: on the 16 x 6 image with the dark ring, seeded at (0, 2), the first
    rounded call returns true with width 5 (the walk goes round the ring, nine columns to
    the right of the seed); the second call on the resulting dot, same image and seed,
    returns false: its rightward scan is stopped by the width bound 5 / 0.65.  With the
    default seed (-1, -1) on a dot constructed at (0, 2) the first call is the same, and the
    second call starts from the truncated new centre (11, 2), walks round the four bright
    pixels inside the ring (m00 = 1) and returns false. -/
theorem computeParameters_not_idempotent :
    Rounded.computeParameters 16 Sample.ringDot Sample.ring 0 2
      = some (true, Sample.ringDot1) ∧
    Rounded.computeParameters 16 Sample.ringDot1 Sample.ring 0 2
      = some (false, Sample.ringDot1.clearBorder) ∧
    Rounded.computeParameters 16 Sample.ringSeeded Sample.ring (-1) (-1)
      = some (true, Sample.ringDot1) ∧
    (Rounded.computeParameters 16 Sample.ringDot1 Sample.ring (-1) (-1)).map
      (fun r => (r.1, r.2.m00)) = some (false, 1) := by
  refine ⟨by decide!, by decide!, by decide!, by decide!⟩

/-- Witness of C4 (amended): the 11 x 11 square of the scenario, seeded at its centre
    (6, 6), in the rounded layer: width = height = 10, surface = m00 = 100, centre
    (6, 6). -/
theorem square_blob_parameters_witness :
    ∃ d', Rounded.computeParameters 40 Sample.dot13 Sample.square11 ((6 : Int) : ℚ)
        ((6 : Int) : ℚ) = some (true, d') ∧
      d'.width = ((11 : Nat) : ℚ) - 1 ∧ d'.height = ((11 : Nat) : ℚ) - 1 ∧
      d'.surface = (((11 : Nat) : ℚ) - 1) ^ 2 ∧ d'.m00 = (((11 : Nat) : ℚ) - 1) ^ 2 ∧
      d'.cog_ufloat = ((1 : Int) : ℚ) + (((11 : Nat) : ℚ) - 1) / 2 ∧
      d'.cog_vfloat = ((1 : Int) : ℚ) + (((11 : Nat) : ℚ) - 1) / 2 :=
  square_blob_parameters 11 (by decide) 40 (by decide) Sample.dot13 Sample.square11 1 1 6 6
    rfl (by decide) (by decide)
    (by
      intro x y _
      show (210 : Int) < ((if 1 ≤ x ∧ x ≤ 11 ∧ 1 ≤ y ∧ y ≤ 11 then 255 else 0 : Nat) : Int) ↔ _
      split_ifs with h
      · constructor
        · intro _; omega
        · intro _; decide
      · constructor
        · intro h2; exact absurd h2 (by decide)
        · intro h2; omega)
    (by decide) (by decide)

/-- Witness of C6 (amended): the dark ring seeded at (9, 2), next to it; the first rounded
    call returns true with a centre that is not an integer, the scan of the second call
    stops at once on the seed, and the second call returns the same dot. -/
theorem computeParameters_idempotent_witness :
    Rounded.computeParameters 16 Sample.ringDot Sample.ring 9 2
      = some (true, Sample.ringDot1) ∧
    Rounded.computeParameters 16 Sample.ringDot1 Sample.ring 9 2
      = some (true, Sample.ringDot1) :=
  ⟨by decide!,
   computeParameters_idempotent 16 Sample.ringDot Sample.ring 9 2 Sample.ringDot1
     (by decide!) (by decide!) (by decide!) (by decide!)⟩

end vpDot2
